import Mathlib

/-!
Job orchestration engine (`pkg/executor/client/job.go`) and the distributed
JMeter runner (`contrib/executor/jmeterd/pkg/runner/runner.go`).

Shallow embedding of the job executor: finalization (`stopExecution`), the
timeout monitor (`MonitorJobForTimeout`, `Timeout`), the job builder
(`NewJobOptions`, `NewJobSpec`, `CreateJob`), `Execute`, `Abort` and
`TailPodLogs`; and of the runner's `Run` with its `<envVars>` expansion.

Conventions of the embedding
* Go `error` values are their message (`Err := String`); `none` is a nil error.
* `*ExecutionResult` pointers are addresses into an explicit `Heap`; two
  pointers alias exactly when the addresses are equal.  They are taken to be
  non-nil, as every use in `job.go` dereferences them unconditionally, and maps
  are taken to be non-nil.  `*Execution` arguments are passed in and handed
  back (in/out value).
* Every call to a collaborator (repository, cluster API, metrics, emitter ...)
  is recorded, together with what it answered, as an `Effect`.  A collaborator
  answers as a function of its arguments and of the effects recorded so far,
  so stateful collaborators are covered.
* Logging is left out.
-/

namespace Testkube

/-- Error values are represented by their message. -/
abbrev Err := String

/-- Execution status enumeration of the API model (`ExecutionResult.status`). -/
inductive ExecutionStatus where
  | queued
  | running
  | passed
  | failed
  | aborted
  | timeout
  | canceled
  deriving DecidableEq, Repr

/-- The API model `testkube.ExecutionResult`; `Status` is a nilable pointer in the source. -/
structure ExecutionResult where
  Status : Option ExecutionStatus := none
  Output : String := ""
  ErrorMessage : String := ""
  deriving DecidableEq, Repr

/-- Modelled from the spec: `ExecutionResult.IsFailed` (the status is `Failed`). -/
def ExecutionResult.IsFailed (r : ExecutionResult) : Bool :=
  r.Status == some ExecutionStatus.failed

/-- Modelled from the spec: `ExecutionResult.IsAborted` (the status is `Aborted`). -/
def ExecutionResult.IsAborted (r : ExecutionResult) : Bool :=
  r.Status == some ExecutionStatus.aborted

/-- Modelled from the spec: `ExecutionResult.IsTimeout` (the status is `Timeout`). -/
def ExecutionResult.IsTimeout (r : ExecutionResult) : Bool :=
  r.Status == some ExecutionStatus.timeout

/-- Modelled from the spec: `ExecutionResult.IsCanceled` (the status is `Canceled`). -/
def ExecutionResult.IsCanceled (r : ExecutionResult) : Bool :=
  r.Status == some ExecutionStatus.canceled

/-- Modelled from the spec: `ExecutionResult.Err`, the error path of a result.  It marks the
result failed and carries the error's message (`Execute` "returns a result already marked
failed via the error path"; the runners return `*result.Err(e), nil` for a failed run). -/
def ExecutionResult.Err (r : ExecutionResult) (err : Err) : ExecutionResult :=
  { r with Status := some ExecutionStatus.failed, ErrorMessage := err }

/-- Modelled from the spec: `testkube.NewRunningExecutionResult`, a fresh result of status `Running`. -/
def NewRunningExecutionResult : ExecutionResult :=
  { Status := some ExecutionStatus.running }

/-- Addresses of `ExecutionResult` objects. -/
abbrev Ptr := Nat

/-- The store of `ExecutionResult` objects; `next` is the first unused address. -/
structure Heap where
  next : Ptr
  cells : Ptr → ExecutionResult

/-- Dereference `*p`. -/
def Heap.read (h : Heap) (p : Ptr) : ExecutionResult := h.cells p

/-- Assign `*p = v`. -/
def Heap.write (h : Heap) (p : Ptr) (v : ExecutionResult) : Heap :=
  { h with cells := Function.update h.cells p v }

/-- Allocate a new object holding `v` (`&ExecutionResult{...}`). -/
def Heap.alloc (h : Heap) (v : ExecutionResult) : Ptr × Heap :=
  (h.next, { next := h.next + 1, cells := Function.update h.cells h.next v })

/-- The empty store. -/
def Heap.empty : Heap := { next := 0, cells := fun _ => {} }

/-- A Go `map[string]V`, held as the list of its assignments in order: a key reads as the
value assigned to it last. -/
abbrev GoMap (V : Type) := List (String × V)

/-- The read `m[k]` with its presence flag. -/
def GoMap.get {V : Type} (m : GoMap V) (k : String) : Option V :=
  match m.reverse.find? (fun kv => kv.1 == k) with
  | some kv => some kv.2
  | none => none

/-- The assignment `m[k] = v`. -/
def GoMap.set {V : Type} (m : GoMap V) (k : String) (v : V) : GoMap V :=
  m ++ [(k, v)]

/-- A variable of an execution (`testkube.Variable`). -/
structure Variable where
  Name : String := ""
  Value : String := ""
  Type_ : String := ""
  deriving DecidableEq, Repr

/-- Modelled from the spec: `testkube.NewBasicVariable`. -/
def NewBasicVariable (name value : String) : Variable :=
  { Name := name, Value := value, Type_ := "basic" }

/-- Repository part of a content descriptor (`testkube.Repository`). -/
structure ContentRepository where
  WorkingDir : String := ""
  Path : String := ""
  deriving DecidableEq, Repr

/-- Content descriptor of an execution (`testkube.TestContent`). -/
structure TestContent where
  Type_ : String := ""
  Repository : Option ContentRepository := none
  deriving DecidableEq, Repr

/-- Artifact request of an execution (`testkube.ArtifactRequest`). -/
structure ArtifactRequest where
  StorageBucket : String := ""
  Dirs : List String := []
  deriving DecidableEq, Repr

/-- Fields of `testkube.Execution` other than the result. -/
structure ExecutionData where
  Id : String := ""
  TestName : String := ""
  TestNamespace : String := ""
  TestExecutionName : String := ""
  TestType : String := ""
  DurationMs : Int := 0
  EndTime : Option Nat := none
  Content : Option TestContent := none
  Variables : GoMap Variable := []
  ArtifactRequest : Option ArtifactRequest := none
  Command : List String := []
  Args : List String := []
  PostRunScript : String := ""
  ExecutePostRunScriptBeforeScraping : Bool := false
  deriving DecidableEq, Repr

/-- An in-memory `testkube.Execution`: its fields and the pointer `ExecutionResult`. -/
structure Execution extends ExecutionData where
  ExecutionResult : Ptr := 0
  deriving DecidableEq, Repr

/-- An execution as a collaborator sees it when it is handed `*execution`: the fields with
the pointed-to result read at that moment (what the repository stores or returns). -/
structure ExecutionRecord extends ExecutionData where
  ExecutionResult : ExecutionResult := {}
  deriving DecidableEq, Repr

/-- The record a collaborator reads from `*execution` in store `h`. -/
def Execution.snap (e : Execution) (h : Heap) : ExecutionRecord :=
  { toExecutionData := e.toExecutionData, ExecutionResult := h.read e.ExecutionResult }

/-- Modelled from the spec: `Execution.IsCanceled` (the persisted status is `Canceled`). -/
def ExecutionRecord.IsCanceled (e : ExecutionRecord) : Bool :=
  e.ExecutionResult.IsCanceled

/-- Modelled from the spec: `Execution.IsTimeout` (the persisted status is `Timeout`). -/
def ExecutionRecord.IsTimeout (e : ExecutionRecord) : Bool :=
  e.ExecutionResult.IsTimeout

/-- Modelled from the spec: `Execution.Stop`, which marks the end timestamp. -/
def Execution.Stop (e : Execution) (now : Nat) : Execution :=
  { e with EndTime := some now }

/-- Lifecycle event variants built by `testkube.NewEventEndTest*`. -/
inductive EventType where
  | endTestSuccess
  | endTestAborted
  | endTestTimeout
  | endTestFailed
  deriving DecidableEq, Repr

/-- A lifecycle event: the variant and the execution it points to, read when it is emitted. -/
structure Event where
  Type_ : EventType
  TestExecution : ExecutionRecord
  deriving DecidableEq, Repr

/-- Modelled from the spec: the aggregate status `testsmapper.MapExecutionToTestStatus`
stores on the owning test resource (identity, final status and end time of the execution). -/
structure TestStatus where
  LatestExecutionId : String := ""
  LatestStatus : Option ExecutionStatus := none
  LatestEndTime : Option Nat := none
  deriving DecidableEq, Repr

/-- The owning `Test` custom resource. -/
structure Test where
  Name : String := ""
  Status : TestStatus := {}
  deriving DecidableEq, Repr

/-- Modelled from the spec: the status `testexecutionsmapper.MapAPIToCRD` stores on the linked
test-execution resource. -/
structure TestExecutionStatus where
  LatestExecution : Option ExecutionRecord := none
  Generation : Int := 0
  deriving DecidableEq, Repr

/-- The linked `TestExecution` custom resource. -/
structure TestExecution where
  Name : String := ""
  Generation : Int := 0
  Status : TestExecutionStatus := {}
  deriving DecidableEq, Repr

/-- Modelled from the spec: `testsmapper.MapExecutionToTestStatus`. -/
def MapExecutionToTestStatus (e : ExecutionRecord) : TestStatus :=
  { LatestExecutionId := e.Id, LatestStatus := e.ExecutionResult.Status, LatestEndTime := e.EndTime }

/-- Modelled from the spec: `testexecutionsmapper.MapAPIToCRD`. -/
def MapAPIToCRD (e : ExecutionRecord) (generation : Int) : TestExecutionStatus :=
  { LatestExecution := some e, Generation := generation }

/-- Parameters of the telemetry run event. -/
structure RunParams where
  AppVersion : String := ""
  DataSource : String := ""
  Host : String := ""
  ClusterID : String := ""
  TestType : String := ""
  DurationMs : Int := 0
  Status : String := ""
  deriving DecidableEq, Repr

/-- String value of a status (`string(*Status)`). -/
def ExecutionStatus.toString : ExecutionStatus → String
  | .queued => "queued"
  | .running => "running"
  | .passed => "passed"
  | .failed => "failed"
  | .aborted => "aborted"
  | .timeout => "timeout"
  | .canceled => "canceled"

/-- One condition of a job's status. -/
structure JobCondition where
  Type_ : String := ""
  Reason : String := ""
  deriving DecidableEq, Repr

/-- Status counters and conditions of a batch job. -/
structure JobStatus where
  Active : Int := 0
  Succeeded : Int := 0
  Failed : Int := 0
  Conditions : List JobCondition := []
  deriving DecidableEq, Repr

/-- An environment variable of a container. -/
structure EnvVar where
  Name : String
  Value : String := ""
  SecretRef : Option (String × String) := none
  deriving DecidableEq, Repr

/-- A container of the job's pod template. -/
structure Container where
  Name : String := ""
  Image : String := ""
  Env : List EnvVar := []
  deriving DecidableEq, Repr

/-- A batch job: labels, pod-template labels, containers and status.  A nil label map is `none`. -/
structure Job where
  Name : String := ""
  Labels : Option (GoMap String) := none
  TemplateLabels : Option (GoMap String) := none
  InitContainers : List Container := []
  Containers : List Container := []
  Status : JobStatus := {}
  deriving DecidableEq, Repr

/-- Phase of a pod. -/
inductive PodPhase where
  | pending
  | running
  | succeeded
  | failed
  | unknown
  deriving DecidableEq, Repr

/-- A pod: name, labels, phase and the names of its containers. -/
structure Pod where
  Name : String := ""
  Namespace : String := ""
  Labels : GoMap String := []
  Phase : PodPhase := PodPhase.pending
  InitContainers : List String := []
  Containers : List String := []
  deriving DecidableEq, Repr

/-- Reference to a key of a secret (`testkube.SecretRef`). -/
structure SecretRef where
  Namespace : String := ""
  Name : String := ""
  Key : String := ""
  deriving DecidableEq, Repr

/-- Reference to a config map or secret exposed to the test (`testkube.EnvReference`). -/
structure EnvReference where
  Name : String := ""
  Mount : Bool := false
  MountPath : String := ""
  MapToVariables : Bool := false
  deriving DecidableEq, Repr

/-- Description of the slave pods of a distributed executor (`testkube.SlavesMeta`). -/
structure SlavesMeta where
  Image : String := ""
  deriving DecidableEq, Repr

/-- The options a job is built from (`JobOptions`). -/
structure JobOptions where
  Name : String := ""
  Namespace : String := ""
  Image : String := ""
  ImagePullSecrets : List String := []
  ImageOverride : String := ""
  Jsn : String := ""
  TestName : String := ""
  InitImage : String := ""
  JobTemplate : String := ""
  Envs : GoMap String := []
  SecretEnvs : GoMap String := []
  HTTPProxy : String := ""
  HTTPSProxy : String := ""
  UsernameSecret : Option SecretRef := none
  TokenSecret : Option SecretRef := none
  CertificateSecret : String := ""
  Variables : GoMap Variable := []
  ActiveDeadlineSeconds : Int := 0
  ServiceAccountName : String := ""
  JobTemplateExtensions : String := ""
  EnvConfigMaps : List EnvReference := []
  EnvSecrets : List EnvReference := []
  Labels : GoMap String := []
  Registry : String := ""
  ClusterID : String := ""
  ArtifactRequest : Option ArtifactRequest := none
  WorkingDir : String := ""
  deriving DecidableEq, Repr

/-- The part of the executor resource read here (`ExecuteOptions.ExecutorSpec`). -/
structure ExecutorSpec where
  Image : String := ""
  JobTemplate : String := ""
  JobTemplateReference : String := ""
  Slaves : Option SlavesMeta := none
  deriving DecidableEq, Repr

/-- The part of the execution request read here (`ExecuteOptions.Request`). -/
structure ExecutionRequest where
  Envs : GoMap String := []
  SecretEnvs : GoMap String := []
  HttpProxy : String := ""
  HttpsProxy : String := ""
  ActiveDeadlineSeconds : Int := 0
  JobTemplate : String := ""
  JobTemplateReference : String := ""
  EnvConfigMaps : List EnvReference := []
  EnvSecrets : List EnvReference := []
  NegativeTest : Bool := false
  deriving DecidableEq, Repr

/-- The options of `Execute` (`ExecuteOptions`). -/
structure ExecuteOptions where
  TestName : String := ""
  Namespace : String := ""
  ExecutorName : String := ""
  TestSpecType : String := ""
  ExecutorSpec : ExecutorSpec := {}
  Request : ExecutionRequest := {}
  Labels : GoMap String := []
  ImageOverride : String := ""
  ImagePullSecretNames : List String := []
  UsernameSecret : Option SecretRef := none
  TokenSecret : Option SecretRef := none
  CertificateSecret : String := ""
  Sync : Bool := false
  deriving DecidableEq, Repr

/-- Kinds of template resources (`testkube.TemplateType`). -/
inductive TemplateType where
  | job
  | container
  | cronjob
  | scraper
  | pvc
  | webhook
  deriving DecidableEq, Repr

/-- A template resource as the templates client returns it (`Spec.Type_`, `Spec.Body`). -/
structure Template where
  Name : String := ""
  Type_ : Option TemplateType := none
  Body : String := ""
  deriving DecidableEq, Repr

deriving instance DecidableEq for Except

/-- What following one container's log stream yields: the lines read, in order, and the error
that ended the reading (`none` for the end of the stream). -/
structure PodLogStream where
  lines : List String := []
  endErr : Option Err := none
  deriving DecidableEq, Repr

/-- Calls to collaborators, each with the answer it got.  `timeoutCalled` marks the entry into
`Timeout`; `goMonitorJobForTimeout` and `goUpdateResultsFromPod` mark the start of a goroutine. -/
inductive Effect where
  | repositoryGet (id : String) (res : Except Err ExecutionRecord)
  | repositoryEndExecution (e : ExecutionRecord) (res : Option Err)
  | repositoryUpdateResult (id : String) (e : ExecutionRecord) (res : Option Err)
  | testsGet (name : String) (res : Except Err Test)
  | testsUpdateStatus (test : Test) (res : Option Err)
  | testExecutionsGet (name : String) (res : Except Err TestExecution)
  | testExecutionsUpdateStatus (te : TestExecution) (res : Option Err)
  | incExecuteTest (e : ExecutionRecord) (dashboardURI : String)
  | notify (ev : Event)
  | getTelemetryEnabled (res : Bool × Option Err)
  | getUniqueClusterId (res : String × Option Err)
  | hostname (res : String × Option Err)
  | sendRunEvent (params : RunParams) (res : Except Err String)
  | timeoutCalled (jobName : String)
  | jobsList (labelSelector : String) (res : Except Err (Option (List Job)))
  | jobsCreate (job : Job) (res : Option Err)
  | templatesGet (name : String) (res : Except Err Template)
  | getJobPods (jobName : String) (res : Except Err (List Pod))
  | goMonitorJobForTimeout (jobName : String)
  | goUpdateResultsFromPod (pod : Pod) (isNegativeTest : Bool)
  | pollPodLoggable (podName : String) (res : Option Err)
  | pollPodReady (podName : String) (res : Option Err)
  | getPodLogs (podName : String) (res : Except Err String)
  | getPodErrorMessage (podName : String) (res : String)
  | abortJob (jobName : String) (res : ExecutionResult × Option Err)
  | streamPodLogs (container : String) (res : Except Err PodLogStream)
  deriving DecidableEq, Repr

/-- The effects recorded so far. -/
abbrev History := List Effect

/-- The execution repository (`result.Repository`). -/
structure Repository where
  Get : History → String → Except Err ExecutionRecord
  EndExecution : History → ExecutionRecord → Option Err
  UpdateResult : History → String → ExecutionRecord → Option Err

/-- Client of the `Test` resources (`testsv3.Interface`). -/
structure TestsClient where
  Get : History → String → Except Err Test
  UpdateStatus : History → Test → Option Err

/-- Client of the `TestExecution` resources (`testexecutionsv1.Interface`). -/
structure TestExecutionsClient where
  Get : History → String → Except Err TestExecution
  UpdateStatus : History → TestExecution → Option Err

/-- The configuration repository (`config.Repository`). -/
structure ConfigRepository where
  GetTelemetryEnabled : History → Bool × Option Err
  GetUniqueClusterId : History → String × Option Err

/-- Process-level services used by finalization: the clock, the host name, the telemetry
sender and the application version. -/
structure Runtime where
  timeNow : History → Nat
  Hostname : History → String × Option Err
  SendRunEvent : History → RunParams → Except Err String
  Version : String

/-- The cluster client (`kubernetes.Interface`) together with the helpers of package
`executor` that work over it.  The first `String` of a call is the namespace. -/
structure ClientSet where
  JobsList : History → String → String → Except Err (Option (List Job))
  JobsCreate : History → String → Job → Option Err
  GetJobPods : History → String → String → Except Err (List Pod)
  PollPodLoggable : History → String → String → Option Err
  PollPodReady : History → String → String → Option Err
  GetPodLogs : History → String → Pod → Except Err String
  GetPodErrorMessage : History → Pod → String
  AbortJob : History → String → String → ExecutionResult × Option Err
  StreamPodLogs : History → String → String → String → Except Err PodLogStream

/-- Client of the template resources (`templatesv1.Interface`). -/
structure TemplatesClient where
  Get : History → String → Except Err Template

/-- Functions and values of other packages the job builder relies on: name sanitizing, JSON
marshalling, the text templates, the YAML merge and decoder, the environment manager, the runner
defaults and the parser of the runner output. -/
structure Library where
  SanitizeName : String → String
  MarshalExecution : ExecutionRecord → Except Err String
  MarshalSlavesConfigs : String → SlavesMeta → Except Err String
  SlavesConfigsEnv : String
  GetDefaultWorkingDir : String → ExecutionRecord → String
  VolumeDir : String
  JoinPath : List String → String
  ParseTemplate : String → String → Option Err
  ExecuteTemplate : String → String → JobOptions → Except Err String
  MergeStrings : String → String → Except Err String
  DecodeJob : String → Except Err Job
  PrepareSecrets : GoMap String → GoMap Variable → List EnvVar
  PrepareGitCredentials : Option SecretRef → Option SecretRef → List EnvVar
  PrepareEnvs : GoMap String → GoMap Variable → List EnvVar
  RunnerEnvVars : List EnvVar
  StorageBucketEnv : String
  ParseRunnerOutput : String → ExecutionResult × Option Err

/-- Dependencies of the job executor (`JobExecutor`). -/
structure JobExecutor where
  lib : Library
  Repository : Repository
  ClientSet : ClientSet
  templatesClient : TemplatesClient
  initImage : String
  jobTemplate : String
  serviceAccountName : String
  registry : String
  clusterID : String
  testsClient : TestsClient
  testExecutionsClient : TestExecutionsClient
  configMap : ConfigRepository
  runtime : Runtime
  Namespace : String
  dashboardURI : String

/-- What a run of `stopExecution` leaves: the store, the execution behind the `execution`
pointer, the effects of the run in order, and the returned error. -/
structure StopOutcome where
  heap : Heap
  execution : Execution
  events : List Effect
  err : Option Err

/-- Lines 373-385 of `stopExecution`: the negative-test inversion on `*execution.ExecutionResult`
and `*result`. -/
def negativeTestStep (heap : Heap) (execution : Execution) (result : Ptr) (isNegativeTest : Bool) : Heap :=
  if isNegativeTest then
    if (heap.read result).IsFailed then
      let heap := heap.write execution.ExecutionResult
        { heap.read execution.ExecutionResult with Status := some ExecutionStatus.passed }
      let heap := heap.write result { heap.read result with Status := some ExecutionStatus.passed }
      heap.write result { heap.read result with
        Output := (heap.read result).Output ++ "\nTest run was expected to fail, and it failed as expected" }
    else
      let heap := heap.write execution.ExecutionResult
        { heap.read execution.ExecutionResult with Status := some ExecutionStatus.failed }
      let heap := heap.write result { heap.read result with Status := some ExecutionStatus.failed }
      heap.write result { heap.read result with
        Output := (heap.read result).Output ++ "\nTest run was expected to fail, the result will be reversed" }
  else heap

/-- Lines 397-406 of `stopExecution`: the event to send and the trailer appended to `*result`. -/
def selectEvent (heap : Heap) (result : Ptr) : EventType × Heap :=
  if (heap.read result).IsAborted then
    (EventType.endTestAborted, heap.write result { heap.read result with
      Output := (heap.read result).Output ++ "\nTest run was aborted manually." })
  else if (heap.read result).IsTimeout then
    (EventType.endTestTimeout, heap.write result { heap.read result with
      Output := (heap.read result).Output ++ "\nTest run was aborted due to timeout." })
  else if (heap.read result).IsFailed then
    (EventType.endTestFailed, heap)
  else
    (EventType.endTestSuccess, heap)

/-- Lines 445-489 of `stopExecution`: the telemetry tail, which always returns nil.  Given the
effects so far it returns the effects it adds. -/
def JobExecutor.sendTelemetry (c : JobExecutor) (hist : History) (execution : ExecutionRecord) : List Effect :=
  let enabled := c.configMap.GetTelemetryEnabled hist
  let ev := [Effect.getTelemetryEnabled enabled]
  if !enabled.1 then ev else
  let clusterID := c.configMap.GetUniqueClusterId (hist ++ ev)
  let ev := ev ++ [Effect.getUniqueClusterId clusterID]
  let host := c.runtime.Hostname (hist ++ ev)
  let ev := ev ++ [Effect.hostname host]
  let dataSource := match execution.Content with
    | some content => content.Type_
    | none => ""
  let status := match execution.ExecutionResult.Status with
    | some s => s.toString
    | none => ""
  let params : RunParams :=
    { AppVersion := c.runtime.Version, DataSource := dataSource, Host := host.1, ClusterID := clusterID.1,
      TestType := execution.TestType, DurationMs := execution.DurationMs, Status := status }
  ev ++ [Effect.sendRunEvent params (c.runtime.SendRunEvent (hist ++ ev) params)]

/-- Lines 442-489 of `stopExecution`: the metric increment, the notification and the
telemetry tail.  `ev` are the effects of the run so far. -/
def JobExecutor.stopExecutionNotify (c : JobExecutor) (hist : History) (heap : Heap) (execution : Execution)
    (eventToSend : EventType) (ev : List Effect) : StopOutcome :=
  let ev := ev ++ [Effect.incExecuteTest (execution.snap heap) c.dashboardURI,
    Effect.notify ⟨eventToSend, execution.snap heap⟩]
  ⟨heap, execution, ev ++ c.sendTelemetry (hist ++ ev) (execution.snap heap), none⟩

/-- Lines 428-440 of `stopExecution`: the status update of the linked `TestExecution`. -/
def JobExecutor.stopExecutionLinked (c : JobExecutor) (hist : History) (heap : Heap) (execution : Execution)
    (eventToSend : EventType) (ev : List Effect) : StopOutcome :=
  if execution.TestExecutionName != "" then
    let gotTE := c.testExecutionsClient.Get (hist ++ ev) execution.TestExecutionName
    let ev := ev ++ [Effect.testExecutionsGet execution.TestExecutionName gotTE]
    match gotTE with
    | .error err => ⟨heap, execution, ev, some err⟩
    | .ok testExecution =>
      let testExecution :=
        { testExecution with Status := MapAPIToCRD (execution.snap heap) testExecution.Generation }
      let teUpdated := c.testExecutionsClient.UpdateStatus (hist ++ ev) testExecution
      let ev := ev ++ [Effect.testExecutionsUpdateStatus testExecution teUpdated]
      match teUpdated with
      | some err => ⟨heap, execution, ev, some err⟩
      | none => c.stopExecutionNotify hist heap execution eventToSend ev
  else c.stopExecutionNotify hist heap execution eventToSend ev

/-- Lines 416-426 of `stopExecution`: the status update of the owning `Test`. -/
def JobExecutor.stopExecutionPropagate (c : JobExecutor) (hist : History) (heap : Heap) (execution : Execution)
    (eventToSend : EventType) (ev : List Effect) : StopOutcome :=
  let gotTest := c.testsClient.Get (hist ++ ev) execution.TestName
  let ev := ev ++ [Effect.testsGet execution.TestName gotTest]
  match gotTest with
  | .error err => ⟨heap, execution, ev, some err⟩
  | .ok test =>
    let test := { test with Status := MapExecutionToTestStatus (execution.snap heap) }
    let testUpdated := c.testsClient.UpdateStatus (hist ++ ev) test
    let ev := ev ++ [Effect.testsUpdateStatus test testUpdated]
    match testUpdated with
    | some err => ⟨heap, execution, ev, some err⟩
    | none => c.stopExecutionLinked hist heap execution eventToSend ev

/-- Lines 393-395 of `stopExecution`: `result.Err(passedErr)` when `passedErr` is not nil. -/
def recordPassedErr (heap : Heap) (result : Ptr) (passedErr : Option Err) : Heap :=
  match passedErr with
  | some e => heap.write result ((heap.read result).Err e)
  | none => heap

/-- Lines 393-414 of `stopExecution`: recording `passedErr`, choosing the event, and the second
persist. -/
def JobExecutor.stopExecutionUpdate (c : JobExecutor) (hist : History) (heap : Heap) (execution : Execution)
    (result : Ptr) (passedErr : Option Err) (ev : List Effect) : StopOutcome :=
  let heap := recordPassedErr heap result passedErr
  let eventToSend := (selectEvent heap result).1
  let heap := (selectEvent heap result).2
  let execution := { execution with ExecutionResult := result }
  let updated := c.Repository.UpdateResult (hist ++ ev) execution.Id (execution.snap heap)
  let ev := ev ++ [Effect.repositoryUpdateResult execution.Id (execution.snap heap) updated]
  match updated with
  | some err => ⟨heap, execution, ev, some err⟩
  | none => c.stopExecutionPropagate hist heap execution eventToSend ev

/-- Lines 372-391 of `stopExecution`: the end timestamp, the negative-test inversion and the
first persist. -/
def JobExecutor.stopExecutionEnd (c : JobExecutor) (hist : History) (heap : Heap) (execution : Execution)
    (result : Ptr) (isNegativeTest : Bool) (passedErr : Option Err) (ev : List Effect) : StopOutcome :=
  let execution := execution.Stop (c.runtime.timeNow (hist ++ ev))
  let heap := negativeTestStep heap execution result isNegativeTest
  let ended := c.Repository.EndExecution (hist ++ ev) (execution.snap heap)
  let ev := ev ++ [Effect.repositoryEndExecution (execution.snap heap) ended]
  match ended with
  | some err => ⟨heap, execution, ev, some err⟩
  | none => c.stopExecutionUpdate hist heap execution result passedErr ev

/-- The finalization `JobExecutor.stopExecution` (lines 360-490): the re-read of the persisted
execution and the guard, followed by the steps above. -/
def JobExecutor.stopExecution (c : JobExecutor) (hist : History) (heap : Heap) (execution : Execution)
    (result : Ptr) (isNegativeTest : Bool) (passedErr : Option Err) : StopOutcome :=
  let got := c.Repository.Get hist execution.Id
  let ev := [Effect.repositoryGet execution.Id got]
  match got with
  | .error err => ⟨heap, execution, ev, some err⟩
  | .ok savedExecution =>
    if savedExecution.IsCanceled || savedExecution.IsTimeout then ⟨heap, execution, ev, none⟩
    else c.stopExecutionEnd hist heap execution result isNegativeTest passedErr ev

/-- The execution after line 372 of `stopExecution`, when the read answered `saved`. -/
def JobExecutor.endedExecution (c : JobExecutor) (hist : History) (execution : Execution)
    (saved : ExecutionRecord) : Execution :=
  execution.Stop (c.runtime.timeNow (hist ++ [Effect.repositoryGet execution.Id (Except.ok saved)]))

/-- The record `stopExecution` hands to the first persist (`EndExecution`, line 387). -/
def JobExecutor.endedRecord (c : JobExecutor) (hist : History) (heap : Heap) (execution : Execution)
    (result : Ptr) (isNegativeTest : Bool) (saved : ExecutionRecord) : ExecutionRecord :=
  (c.endedExecution hist execution saved).snap
    (negativeTestStep heap (c.endedExecution hist execution saved) result isNegativeTest)

/-- The store after line 406 of `stopExecution`. -/
def JobExecutor.finalHeap (c : JobExecutor) (hist : History) (heap : Heap) (execution : Execution)
    (result : Ptr) (isNegativeTest : Bool) (passedErr : Option Err) (saved : ExecutionRecord) : Heap :=
  (selectEvent (recordPassedErr
    (negativeTestStep heap (c.endedExecution hist execution saved) result isNegativeTest) result passedErr)
    result).2

/-- The event variant chosen at lines 397-406 of `stopExecution`. -/
def JobExecutor.finalEvent (c : JobExecutor) (hist : History) (heap : Heap) (execution : Execution)
    (result : Ptr) (isNegativeTest : Bool) (passedErr : Option Err) (saved : ExecutionRecord) : EventType :=
  (selectEvent (recordPassedErr
    (negativeTestStep heap (c.endedExecution hist execution saved) result isNegativeTest) result passedErr)
    result).1

/-- The execution after line 409 of `stopExecution` (`execution.ExecutionResult = result`). -/
def JobExecutor.finalExecution (c : JobExecutor) (hist : History) (execution : Execution) (result : Ptr)
    (saved : ExecutionRecord) : Execution :=
  { c.endedExecution hist execution saved with ExecutionResult := result }

/-- The record `stopExecution` hands to the second persist (`UpdateResult`, line 411). -/
def JobExecutor.updatedRecord (c : JobExecutor) (hist : History) (heap : Heap) (execution : Execution)
    (result : Ptr) (isNegativeTest : Bool) (passedErr : Option Err) (saved : ExecutionRecord) :
    ExecutionRecord :=
  (c.finalExecution hist execution result saved).snap
    (c.finalHeap hist heap execution result isNegativeTest passedErr saved)

/-- Label keys of a test job (`testkube.TestLabelTestType`, `TestLabelExecutor`, `TestLabelTestName`). -/
def TestLabelTestType : String := "test-type"

/-- Label key of the executor. -/
def TestLabelExecutor : String := "executor"

/-- Label key of the test name. -/
def TestLabelTestName : String := "test-name"

/-- The function `NewJobOptionsFromExecutionOptions` (lines 492-523). -/
def NewJobOptionsFromExecutionOptions (lib : Library) (options : ExecuteOptions) : JobOptions :=
  let labels : GoMap String :=
    [(TestLabelTestType, lib.SanitizeName options.TestSpecType),
     (TestLabelExecutor, options.ExecutorName),
     (TestLabelTestName, options.TestName)]
  let labels := options.Labels.foldl (fun m kv => m.set kv.1 kv.2) labels
  { Image := options.ExecutorSpec.Image
    ImageOverride := options.ImageOverride
    ImagePullSecrets := options.ImagePullSecretNames
    JobTemplate := options.ExecutorSpec.JobTemplate
    TestName := options.TestName
    Namespace := options.Namespace
    Envs := options.Request.Envs
    SecretEnvs := options.Request.SecretEnvs
    HTTPProxy := options.Request.HttpProxy
    HTTPSProxy := options.Request.HttpsProxy
    UsernameSecret := options.UsernameSecret
    TokenSecret := options.TokenSecret
    CertificateSecret := options.CertificateSecret
    ActiveDeadlineSeconds := options.Request.ActiveDeadlineSeconds
    JobTemplateExtensions := options.Request.JobTemplate
    EnvConfigMaps := options.Request.EnvConfigMaps
    EnvSecrets := options.Request.EnvSecrets
    Labels := labels }

/-- What `NewJobOptions` returns, with the effects of its template lookups. -/
structure JobOptionsOutcome where
  jobOptions : JobOptions
  events : List Effect
  err : Option Err

/-- Lines 814-833 of `NewJobOptions`: variables, slaves configuration, identity and working
directory. -/
def newJobOptionsFinish (lib : Library) (initImage serviceAccountName registry clusterID : String)
    (execution : ExecutionRecord) (options : ExecuteOptions) (jobOptions : JobOptions)
    (ev : List Effect) : JobOptionsOutcome :=
  let jobOptions := { jobOptions with Variables := execution.Variables }
  let withSlaves : Except Err JobOptions :=
    match options.ExecutorSpec.Slaves with
    | some slaves =>
      match lib.MarshalSlavesConfigs initImage slaves with
      | .error err => Except.error err
      | .ok slvesConfigs =>
        let withConfigs := jobOptions.Variables.set lib.SlavesConfigsEnv
          (NewBasicVariable lib.SlavesConfigsEnv slvesConfigs)
        Except.ok { jobOptions with Variables := withConfigs }
    | none => Except.ok jobOptions
  match withSlaves with
  | .error err => ⟨jobOptions, ev, some err⟩
  | .ok jobOptions =>
    let workingDir :=
      match execution.Content with
      | some content =>
        match content.Repository with
        | some repository =>
          if repository.WorkingDir != "" then lib.JoinPath [lib.VolumeDir, "repo", repository.WorkingDir]
          else lib.GetDefaultWorkingDir lib.VolumeDir execution
        | none => lib.GetDefaultWorkingDir lib.VolumeDir execution
      | none => lib.GetDefaultWorkingDir lib.VolumeDir execution
    ⟨{ jobOptions with
        ServiceAccountName := serviceAccountName
        Registry := registry
        ClusterID := clusterID
        ArtifactRequest := execution.ArtifactRequest
        WorkingDir := workingDir }, ev, none⟩

/-- Lines 801-812 of `NewJobOptions`: the template referenced by the request. -/
def newJobOptionsRequestTemplate (lib : Library) (templatesClient : TemplatesClient) (hist : History)
    (initImage serviceAccountName registry clusterID : String)
    (execution : ExecutionRecord) (options : ExecuteOptions) (jobOptions : JobOptions)
    (ev : List Effect) : JobOptionsOutcome :=
  if options.Request.JobTemplateReference != "" then
    let got := templatesClient.Get (hist ++ ev) options.Request.JobTemplateReference
    let ev := ev ++ [Effect.templatesGet options.Request.JobTemplateReference got]
    match got with
    | .error err => ⟨jobOptions, ev, some err⟩
    | .ok template =>
      let jobOptions :=
        if template.Type_ = some TemplateType.job then { jobOptions with JobTemplate := template.Body }
        else jobOptions
      newJobOptionsFinish lib initImage serviceAccountName registry clusterID execution options jobOptions ev
  else newJobOptionsFinish lib initImage serviceAccountName registry clusterID execution options jobOptions ev

/-- The function `NewJobOptions` (lines 771-834). -/
def NewJobOptions (lib : Library) (templatesClient : TemplatesClient) (hist : History)
    (initImage jobTemplate serviceAccountName registry clusterID : String)
    (execution : ExecutionRecord) (options : ExecuteOptions) : JobOptionsOutcome :=
  match lib.MarshalExecution execution with
  | .error err => ⟨{}, [], some err⟩
  | .ok jsn =>
    let jobOptions := NewJobOptionsFromExecutionOptions lib options
    let jobOptions := { jobOptions with
      Name := execution.Id
      Namespace := execution.TestNamespace
      Jsn := jsn
      InitImage := initImage
      TestName := execution.TestName }
    let jobOptions :=
      if jobOptions.JobTemplate == "" then { jobOptions with JobTemplate := jobTemplate } else jobOptions
    if options.ExecutorSpec.JobTemplateReference != "" then
      let got := templatesClient.Get hist options.ExecutorSpec.JobTemplateReference
      let ev := [Effect.templatesGet options.ExecutorSpec.JobTemplateReference got]
      match got with
      | .error err => ⟨jobOptions, ev, some err⟩
      | .ok template =>
        let jobOptions :=
          if template.Type_ = some TemplateType.job then { jobOptions with JobTemplate := template.Body }
          else jobOptions
        newJobOptionsRequestTemplate lib templatesClient hist initImage serviceAccountName registry
          clusterID execution options jobOptions ev
    else
      newJobOptionsRequestTemplate lib templatesClient hist initImage serviceAccountName registry
        clusterID execution options jobOptions []

/-- Lines 698-715 of `NewJobSpec`: the rendered extension merged onto the rendered job. -/
def mergeJobTemplateExtensions (lib : Library) (options : JobOptions) (jobSpec : String) : Except Err String :=
  if options.JobTemplateExtensions != "" then
    match lib.ParseTemplate "jobExt" options.JobTemplateExtensions with
    | some err => Except.error ("creating job extensions spec from template error: " ++ err)
    | none =>
      match lib.ExecuteTemplate "jobExt" options.JobTemplateExtensions options with
      | .error err => Except.error ("executing job extensions spec template: " ++ err)
      | .ok bufferExt =>
        match lib.MergeStrings bufferExt jobSpec with
        | .error err => Except.error ("merging job spec templates: " ++ err)
        | .ok merged => Except.ok merged
  else Except.ok jobSpec

/-- Lines 723-735 of `NewJobSpec`: one turn of the loop over `options.Labels`. -/
def setJobLabel (job : Job) (key value : String) : Job :=
  let job := match job.Labels with
    | none => { job with Labels := some ([] : GoMap String) }
    | some _ => job
  let job := { job with Labels := job.Labels.map (fun (m : GoMap String) => m.set key value) }
  let job := match job.TemplateLabels with
    | none => { job with TemplateLabels := some ([] : GoMap String) }
    | some _ => job
  { job with TemplateLabels := job.TemplateLabels.map (fun (m : GoMap String) => m.set key value) }

/-- Lines 737-754 of `NewJobSpec`: the environment appended to every container. -/
def jobEnvs (lib : Library) (options : JobOptions) (secretEnvVars : List EnvVar) : List EnvVar :=
  let envs := lib.RunnerEnvVars ++ [{ Name := "RUNNER_CLUSTERID", Value := options.ClusterID }]
  let bucket : String :=
    match options.ArtifactRequest with
    | some request => if request.StorageBucket != "" then request.StorageBucket else lib.StorageBucketEnv
    | none => lib.StorageBucketEnv
  let envs := envs ++ [{ Name := "RUNNER_BUCKET", Value := bucket }]
  let envs := envs ++ secretEnvVars
  let envs := if options.HTTPProxy != "" then envs ++ [{ Name := "HTTP_PROXY", Value := options.HTTPProxy }]
    else envs
  let envs := if options.HTTPSProxy != "" then envs ++ [{ Name := "HTTPS_PROXY", Value := options.HTTPSProxy }]
    else envs
  let envs := envs ++ lib.PrepareEnvs options.Envs options.Variables
  envs ++ [{ Name := "RUNNER_WORKINGDIR", Value := options.WorkingDir }]

/-- The function `NewJobSpec` (lines 681-769). -/
def NewJobSpec (lib : Library) (options : JobOptions) : Except Err Job :=
  let secretEnvVars := lib.PrepareSecrets options.SecretEnvs options.Variables ++
    lib.PrepareGitCredentials options.UsernameSecret options.TokenSecret
  match lib.ParseTemplate "job" options.JobTemplate with
  | some err => Except.error ("creating job spec from options.JobTemplate error: " ++ err)
  | none =>
    let quote := String.singleton (Char.ofNat 39)
    let options := { options with Jsn := options.Jsn.replace quote (quote ++ quote) }
    match lib.ExecuteTemplate "job" options.JobTemplate options with
    | .error err => Except.error ("executing job spec template: " ++ err)
    | .ok buffer =>
      match mergeJobTemplateExtensions lib options buffer with
      | .error err => Except.error err
      | .ok jobSpec =>
        match lib.DecodeJob jobSpec with
        | .error err => Except.error ("decoding job spec error: " ++ err)
        | .ok job =>
          let job := options.Labels.foldl (fun job kv => setJobLabel job kv.1 kv.2) job
          let envs := jobEnvs lib options secretEnvVars
          let initContainers := job.InitContainers.map
            (fun (ct : Container) => { ct with Env := ct.Env ++ envs })
          let job := { job with InitContainers := initContainers }
          let containers := job.Containers.map (fun (ct : Container) =>
            let ct := { ct with Env := ct.Env ++ envs }
            if options.ImageOverride != "" then { ct with Image := options.ImageOverride } else ct)
          Except.ok { job with Containers := containers }

/-- What `CreateJob` returns, with its effects and the execution's variables map as the call
leaves it (the map is shared with the job options). -/
structure CreateOutcome where
  events : List Effect
  err : Option Err
  sharedVariables : GoMap Variable

/-- The method `JobExecutor.CreateJob` (lines 287-304). -/
def JobExecutor.CreateJob (c : JobExecutor) (hist : History) (execution : ExecutionRecord)
    (options : ExecuteOptions) : CreateOutcome :=
  let built := NewJobOptions c.lib c.templatesClient hist c.initImage c.jobTemplate c.serviceAccountName
    c.registry c.clusterID execution options
  match built.err with
  | some err => ⟨built.events, some err, execution.Variables⟩
  | none =>
    match NewJobSpec c.lib built.jobOptions with
    | .error err => ⟨built.events, some err, built.jobOptions.Variables⟩
    | .ok jobSpec =>
      let created := c.ClientSet.JobsCreate (hist ++ built.events) c.Namespace jobSpec
      ⟨built.events ++ [Effect.jobsCreate jobSpec created], created, built.jobOptions.Variables⟩

/-- What `updateResultsFromPod`, `Execute` and `Abort` leave: the store, the execution behind the
`execution` pointer, the effects, the returned result pointer and the returned error. -/
structure ExecuteOutcome where
  heap : Heap
  execution : Execution
  events : List Effect
  result : Ptr
  err : Option Err

/-- Lines 333-357 of `updateResultsFromPod` with the deferred `stopExecution`: reading and
parsing the logs, then finalization with the error captured so far. -/
def JobExecutor.updateResultsFromLogs (c : JobExecutor) (hist : History) (heap : Heap) (pod : Pod)
    (execution : Execution) (isNegativeTest : Bool) (ev : List Effect) : ExecuteOutcome :=
  let logs := c.ClientSet.GetPodLogs (hist ++ ev) c.Namespace pod
  let ev := ev ++ [Effect.getPodLogs pod.Name logs]
  match logs with
  | .error err =>
    let stopped := c.stopExecution (hist ++ ev) heap execution execution.ExecutionResult isNegativeTest
      (some err)
    ⟨stopped.heap, stopped.execution, ev ++ stopped.events, execution.ExecutionResult, some err⟩
  | .ok logs =>
    let parsed := c.lib.ParseRunnerOutput logs
    let fresh := heap.alloc parsed.1
    let heap := fresh.2
    let execution := { execution with ExecutionResult := fresh.1 }
    match parsed.2 with
    | some err =>
      let stopped := c.stopExecution (hist ++ ev) heap execution execution.ExecutionResult isNegativeTest
        (some err)
      ⟨stopped.heap, stopped.execution, ev ++ stopped.events, execution.ExecutionResult, some err⟩
    | none =>
      let failedStep : Heap × List Effect :=
        if (heap.read execution.ExecutionResult).IsFailed then
          if (heap.read execution.ExecutionResult).ErrorMessage == "" then
            let message := c.ClientSet.GetPodErrorMessage (hist ++ ev) pod
            (heap.write execution.ExecutionResult
              { heap.read execution.ExecutionResult with ErrorMessage := message },
              [Effect.getPodErrorMessage pod.Name message])
          else
            (heap.write execution.ExecutionResult
              { heap.read execution.ExecutionResult with
                ErrorMessage := (heap.read execution.ExecutionResult).ErrorMessage }, [])
        else (heap, [])
      let heap := failedStep.1
      let ev := ev ++ failedStep.2
      let stopped := c.stopExecution (hist ++ ev) heap execution execution.ExecutionResult isNegativeTest
        none
      ⟨stopped.heap, stopped.execution, ev ++ stopped.events, execution.ExecutionResult, none⟩

/-- The method `JobExecutor.updateResultsFromPod` (lines 306-358). -/
def JobExecutor.updateResultsFromPod (c : JobExecutor) (hist : History) (heap : Heap) (pod : Pod)
    (execution : Execution) (isNegativeTest : Bool) : ExecuteOutcome :=
  let loggable := c.ClientSet.PollPodLoggable hist c.Namespace pod.Name
  let ev := [Effect.pollPodLoggable pod.Name loggable]
  let ready := c.ClientSet.PollPodReady (hist ++ ev) c.Namespace pod.Name
  let ev := ev ++ [Effect.pollPodReady pod.Name ready]
  let heap := match ready with
    | some err => heap.write execution.ExecutionResult ((heap.read execution.ExecutionResult).Err err)
    | none => heap
  c.updateResultsFromLogs hist heap pod execution isNegativeTest ev

/-- The record of `*execution` that `Execute` hands to `CreateJob`: the execution pointing to a
fresh result of status `Running`. -/
def executionAtCreate (heap : Heap) (execution : Execution) : ExecutionRecord :=
  Execution.snap { execution with ExecutionResult := (heap.alloc NewRunningExecutionResult).1 }
    (heap.alloc NewRunningExecutionResult).2

/-- Lines 206-239 of `Execute`: what follows a successful `CreateJob`.  The two goroutines are
recorded as the effects `goMonitorJobForTimeout` and `goUpdateResultsFromPod`; their bodies run
concurrently and are not part of this run. -/
def JobExecutor.executeCreated (c : JobExecutor) (hist : History) (heap : Heap) (execution : Execution)
    (options : ExecuteOptions) (result : Ptr) (ev : List Effect) : ExecuteOutcome :=
  let ev := if !options.Sync then ev ++ [Effect.goMonitorJobForTimeout execution.Id] else ev
  let pods := c.ClientSet.GetJobPods (hist ++ ev) c.Namespace execution.Id
  let ev := ev ++ [Effect.getJobPods execution.Id pods]
  match pods with
  | .error err => ⟨heap.write result ((heap.read result).Err err), execution, ev, result, some err⟩
  | .ok items =>
    match items.find? (fun pod =>
      pod.Phase != PodPhase.running && (pod.Labels.get "job-name").getD "" == execution.Id) with
    | some pod =>
      if options.Sync then
        let updated := c.updateResultsFromPod (hist ++ ev) heap pod execution options.Request.NegativeTest
        ⟨updated.heap, updated.execution, ev ++ updated.events, updated.result, updated.err⟩
      else
        ⟨heap, execution, ev ++ [Effect.goUpdateResultsFromPod pod options.Request.NegativeTest],
          result, none⟩
    | none =>
      let fresh := heap.alloc NewRunningExecutionResult
      ⟨fresh.2, execution, ev, fresh.1, none⟩

/-- The method `JobExecutor.Execute` (lines 196-240). -/
def JobExecutor.Execute (c : JobExecutor) (hist : History) (heap : Heap) (execution : Execution)
    (options : ExecuteOptions) : ExecuteOutcome :=
  let fresh := heap.alloc NewRunningExecutionResult
  let result := fresh.1
  let heap := fresh.2
  let execution := { execution with ExecutionResult := result }
  let created := c.CreateJob hist (execution.snap heap) options
  let execution := { execution with Variables := created.sharedVariables }
  match created.err with
  | some err => ⟨heap.write result ((heap.read result).Err err), execution, created.events, result, some err⟩
  | none => c.executeCreated hist heap execution options result created.events

/-- The method `JobExecutor.Abort` (lines 648-660). -/
def JobExecutor.Abort (c : JobExecutor) (hist : History) (heap : Heap) (execution : Execution) :
    ExecuteOutcome :=
  let aborted := c.ClientSet.AbortJob hist c.Namespace execution.Id
  let ev := [Effect.abortJob execution.Id aborted]
  let fresh := heap.alloc aborted.1
  let stopped := c.stopExecution (hist ++ ev) fresh.2 execution fresh.1 false none
  ⟨stopped.heap, stopped.execution, ev ++ stopped.events, fresh.1, none⟩

/-- What `TailPodLogs` leaves: the calls that opened the streams, the lines sent on the `logs`
channel in the order of sending, whether the channel was closed, and the returned error. -/
structure TailOutcome where
  events : List Effect
  sent : List String
  closed : Bool
  err : Option Err

/-- Lines 583-617 of `TailPodLogs`: the loop of the goroutine over the container names.  A
stream that cannot be opened is skipped; every line read from an opened stream is sent. -/
def JobExecutor.tailContainers (c : JobExecutor) (hist : History) (podName : String) :
    List String → List Effect × List String
  | [] => ([], [])
  | container :: rest =>
    let stream := c.ClientSet.StreamPodLogs hist c.Namespace podName container
    let later := tailContainers c (hist ++ [Effect.streamPodLogs container stream]) podName rest
    match stream with
    | .error _ => (Effect.streamPodLogs container stream :: later.1, later.2)
    | .ok opened => (Effect.streamPodLogs container stream :: later.1, opened.lines ++ later.2)

/-- The method `JobExecutor.TailPodLogs` (lines 568-620): what its goroutine does on the single
channel `logs` until it closes it.  The method itself returns nil. -/
def JobExecutor.TailPodLogs (c : JobExecutor) (hist : History) (pod : Pod) : TailOutcome :=
  let containers := pod.InitContainers ++ pod.Containers
  let tailed := c.tailContainers hist pod.Name containers
  ⟨tailed.1, tailed.2, true, none⟩

/-- The string a job's condition carries as reason when its deadline was exceeded. -/
def timeoutIndicator : String := "DeadlineExceeded"

/-- What a run of `Timeout` leaves: the store, its effects and the returned result pointer
(nil when the execution could not be loaded). -/
structure TimeoutOutcome where
  heap : Heap
  events : List Effect
  result : Option Ptr

/-- The forced timeout finalization `JobExecutor.Timeout` (lines 662-678).  Its entry is
recorded as `Effect.timeoutCalled`. -/
def JobExecutor.Timeout (c : JobExecutor) (hist : History) (heap : Heap) (jobName : String) : TimeoutOutcome :=
  let ev := [Effect.timeoutCalled jobName]
  let got := c.Repository.Get (hist ++ ev) jobName
  let ev := ev ++ [Effect.repositoryGet jobName got]
  match got with
  | .error _ => ⟨heap, ev, none⟩
  | .ok saved =>
    let loaded := heap.alloc saved.ExecutionResult
    let execution : Execution := { toExecutionData := saved.toExecutionData, ExecutionResult := loaded.1 }
    let built := loaded.2.alloc { Status := some ExecutionStatus.timeout }
    let out := c.stopExecution (hist ++ ev) built.2 execution built.1 false none
    ⟨out.heap, ev ++ out.events, some built.1⟩

/-- Lines 269-276 of `MonitorJobForTimeout`: the loop over the job's conditions. -/
def JobExecutor.monitorConditions (c : JobExecutor) (hist : History) (heap : Heap) (jobName : String) :
    List JobCondition → Heap × List Effect
  | [] => (heap, [])
  | condition :: rest =>
    if condition.Reason == timeoutIndicator then
      let out := c.Timeout hist heap jobName
      let later := monitorConditions c (hist ++ out.events) out.heap jobName rest
      (later.1, out.events ++ later.2)
    else monitorConditions c hist heap jobName rest

/-- What the monitor leaves: the store, the effects, and whether the loop has returned. -/
structure MonitorOutcome where
  heap : Heap
  events : List Effect
  stopped : Bool

/-- Lines 251-282 of `MonitorJobForTimeout`: the body run on one tick of the ticker. -/
def JobExecutor.monitorTick (c : JobExecutor) (hist : History) (heap : Heap) (jobName : String) : MonitorOutcome :=
  let jobs := c.ClientSet.JobsList hist c.Namespace ("job-name=" ++ jobName)
  let ev := [Effect.jobsList ("job-name=" ++ jobName) jobs]
  match jobs with
  | .error _ => ⟨heap, ev, true⟩
  | .ok none => ⟨heap, ev, true⟩
  | .ok (some []) => ⟨heap, ev, true⟩
  | .ok (some (job :: _)) =>
    if job.Status.Succeeded > 0 then ⟨heap, ev, true⟩
    else if job.Status.Failed > 0 then
      let looped := c.monitorConditions (hist ++ ev) heap jobName job.Status.Conditions
      ⟨looped.1, ev ++ looped.2, true⟩
    else if job.Status.Active > 0 then ⟨heap, ev, false⟩
    else ⟨heap, ev, false⟩

/-- What wakes the monitor's `select`: the context being done, or the ticker. -/
inductive Wake where
  | ctxDone
  | tick
  deriving DecidableEq, Repr

/-- The timeout monitor `JobExecutor.MonitorJobForTimeout` (lines 242-285), run on the wake-ups
it receives in order; it is still polling (`stopped = false`) when they are used up. -/
def JobExecutor.MonitorJobForTimeout (c : JobExecutor) (hist : History) (heap : Heap) (jobName : String) :
    List Wake → MonitorOutcome
  | [] => ⟨heap, [], false⟩
  | Wake.ctxDone :: _ => ⟨heap, [], true⟩
  | Wake.tick :: rest =>
    let t := c.monitorTick hist heap jobName
    if t.stopped then t
    else
      let later := MonitorJobForTimeout c (hist ++ t.events) t.heap jobName rest
      ⟨later.heap, t.events ++ later.events, later.stopped⟩

/-! ## Classification of effects -/

/-- Writes to the execution repository. -/
def Effect.isRepositoryWrite : Effect → Bool
  | .repositoryEndExecution _ _ => true
  | .repositoryUpdateResult _ _ _ => true
  | _ => false

/-- Effects that change something outside the executor: repository writes, status updates of
the `Test` and `TestExecution` resources, the metric increment, the event notification and the
telemetry event. -/
def Effect.isMutation : Effect → Bool
  | .repositoryEndExecution _ _ => true
  | .repositoryUpdateResult _ _ _ => true
  | .testsUpdateStatus _ _ => true
  | .testExecutionsUpdateStatus _ _ => true
  | .incExecuteTest _ _ => true
  | .notify _ => true
  | .sendRunEvent _ _ => true
  | _ => false

/-- Position of an effect in the fixed order in which `stopExecution` calls its collaborators
(effects it never performs come last). -/
def Effect.stage : Effect → Nat
  | .repositoryGet _ _ => 0
  | .repositoryEndExecution _ _ => 1
  | .repositoryUpdateResult _ _ _ => 2
  | .testsGet _ _ => 3
  | .testsUpdateStatus _ _ => 4
  | .testExecutionsGet _ _ => 5
  | .testExecutionsUpdateStatus _ _ => 6
  | .incExecuteTest _ _ => 7
  | .notify _ => 8
  | .getTelemetryEnabled _ => 9
  | .getUniqueClusterId _ => 10
  | .hostname _ => 11
  | .sendRunEvent _ _ => 12
  | _ => 13

/-- The error a call answered with, for the calls whose error `stopExecution` returns. -/
def Effect.failure : Effect → Option Err
  | .repositoryGet _ (.error e) => some e
  | .repositoryEndExecution _ r => r
  | .repositoryUpdateResult _ _ r => r
  | .testsGet _ (.error e) => some e
  | .testsUpdateStatus _ r => r
  | .testExecutionsGet _ (.error e) => some e
  | .testExecutionsUpdateStatus _ r => r
  | _ => none

/-- Shape of the effects a finalization step adds: they come in strictly increasing position
from `k` on, only the last call may have failed, its error is the one returned, and all of them
are calls `stopExecution` makes. -/
def TailOk (k : Nat) (tail : List Effect) (err : Option Err) : Prop :=
  tail.Pairwise (fun a b => a.stage < b.stage) ∧ (∀ x ∈ tail, k ≤ x.stage) ∧
  (∃ init last, tail = init ++ [last] ∧ (∀ x ∈ init, x.failure = none) ∧ last.failure = err) ∧
  ∀ x ∈ tail, x.stage ≤ 12

/-- Shape of what the steps after the second persist leave, for the store `heap`, the execution
`execution` and the chosen event `evt`: the effects are ordered as in `TailOk`, store and execution
are handed back as they are, the only metric increment and notification possible are those of
this execution and event, and both happen when nil is returned. -/
def TailFrom (c : JobExecutor) (heap : Heap) (execution : Execution) (evt : EventType) (k : Nat)
    (tail : List Effect) (out : StopOutcome) : Prop :=
  TailOk k tail out.err ∧ out.heap = heap ∧ out.execution = execution ∧
  (∀ x ∈ tail, x.stage = 7 → x = Effect.incExecuteTest (execution.snap heap) c.dashboardURI) ∧
  (∀ x ∈ tail, x.stage = 8 → x = Effect.notify ⟨evt, execution.snap heap⟩) ∧
  (out.err = none → Effect.incExecuteTest (execution.snap heap) c.dashboardURI ∈ tail ∧
    Effect.notify ⟨evt, execution.snap heap⟩ ∈ tail)

/-- The effects that start a goroutine. -/
def Effect.isGoroutine : Effect → Bool
  | .goMonitorJobForTimeout _ => true
  | .goUpdateResultsFromPod _ _ => true
  | _ => false

/-- The calls by which `updateResultsFromPod` observes the pod before it finalizes. -/
def Effect.isPodObservation : Effect → Bool
  | .pollPodLoggable _ _ => true
  | .pollPodReady _ _ => true
  | .getPodLogs _ _ => true
  | .getPodErrorMessage _ _ => true
  | _ => false

/-- The container a stream was opened for. -/
def Effect.streamedContainer : Effect → Option String
  | .streamPodLogs container _ => some container
  | _ => none

/-- The lines a stream delivered (none when it could not be opened). -/
def Effect.streamedLines : Effect → List String
  | .streamPodLogs _ (.ok opened) => opened.lines
  | _ => []

/-- Number of metric increments among the effects. -/
def countIncrements (evs : List Effect) : Nat :=
  (evs.filter (fun e => e.stage == 7)).length

/-- Number of event notifications among the effects. -/
def countNotifications (evs : List Effect) : Nat :=
  (evs.filter (fun e => e.stage == 8)).length

/-- Number of reads of the execution repository among the effects. -/
def countRepositoryGets (evs : List Effect) : Nat :=
  (evs.filter (fun e => e.stage == 0)).length

/-- The effects that belong to a finalization (`stopExecution`). -/
def finalizationEffects (evs : List Effect) : List Effect :=
  evs.filter (fun e => e.stage ≤ 12)

/-- The read `m[k]` on a label map that may be nil: a nil map has no key. -/
def lookupLabel (m : Option (GoMap String)) (k : String) : Option String :=
  m.bind (fun labels => labels.get k)

/-! ### The manifest merge

`merge2.MergeStrings` belongs to the package `sigs.k8s.io/kustomize/kyaml`, whose code is not
part of the sources.  It is modelled as the overlay merge of structured documents: manifests in
flow notation are read into documents of scalar, null and map values, merged field by field, and
written back.  Sequences, comments and styles are outside the model (a text that holds them does
not parse, and the modelled merge answers an error). -/

mutual
/-- A value of a manifest document: null, a scalar, or a mapping. -/
inductive Doc where
  | null
  | scalar (value : String)
  | map (fields : Fields)
/-- The fields of a mapping, in the order of the document. -/
inductive Fields where
  | nil
  | cons (key : String) (value : Doc) (rest : Fields)
end

/-- Whether a value is null. -/
def Doc.isNull : Doc → Bool
  | .null => true
  | _ => false

/-- The value of field `k` of a mapping (the first field of that name). -/
def Fields.get : Fields → String → Option Doc
  | .nil, _ => none
  | .cons key value rest, k => if key = k then some value else rest.get k

/-- The fields of one mapping followed by those of another. -/
def Fields.append : Fields → Fields → Fields
  | .nil, other => other
  | .cons key value rest, other => .cons key value (rest.append other)

/-- The order of field names: character by character, a proper prefix first. -/
def charsBefore : List Char → List Char → Bool
  | [], [] => false
  | [], _ :: _ => true
  | _ :: _, [] => false
  | a :: as, b :: bs =>
    if a.toNat < b.toNat then true else if a.toNat = b.toNat then charsBefore as bs else false

/-- A field put into fields sorted by name, after the fields whose name comes before its own. -/
def Fields.insert (key : String) (value : Doc) : Fields → Fields
  | .nil => .cons key value .nil
  | .cons k v rest =>
    if charsBefore k.data key.data then .cons k v (Fields.insert key value rest)
    else .cons key value (.cons k v rest)

/-- The fields sorted by name (fields of the same name keep their order). -/
def Fields.sort : Fields → Fields
  | .nil => .nil
  | .cons key value rest => Fields.insert key value rest.sort

/-- The fields only the overlay has: those whose name is not a field of `base` and whose value
is not null. -/
def addedFields (base : Fields) : Fields → Fields
  | .nil => .nil
  | .cons key value rest =>
    if (base.get key).isNone && !value.isNull then .cons key value (addedFields base rest)
    else addedFields base rest

mutual
/-- Modelled from the spec: the overlay merge of `merge2.MergeStrings` on documents ("scalar and
map fields in the overlay take precedence over the base; the merge operates on the structured
document").  Two mappings are merged field by field: the fields of the base stay in place, each
merged with the overlay's value of that name, a null in the overlay clears the field, and the
fields only the overlay has are added after them, sorted by name.  A scalar of the overlay
replaces a scalar, a null of the overlay clears the value, and a scalar against a mapping is a
wrong node kind (`none`). -/
def mergeDoc (overlay : Doc) : Doc → Option Doc
  | .map bfs =>
    match overlay with
    | .map ofs => (mergeKept ofs bfs).map (fun kept => Doc.map (kept.append (addedFields bfs ofs).sort))
    | .null => some .null
    | .scalar _ => none
  | .scalar _ =>
    match overlay with
    | .null => some .null
    | .scalar o => some (.scalar o)
    | .map _ => none
  | .null => some overlay
/-- Modelled from the spec: the fields of the base as the merge leaves them (see `mergeDoc`). -/
def mergeKept (ofs : Fields) : Fields → Option Fields
  | .nil => some .nil
  | .cons key value rest =>
    match ofs.get key with
    | none => (mergeKept ofs rest).map (Fields.cons key value)
    | some ov =>
      if ov.isNull then mergeKept ofs rest
      else
        match mergeDoc ov value, mergeKept ofs rest with
        | some m, some r => some (.cons key m r)
        | _, _ => none
end

mutual
/-- A document written in flow notation. -/
def printDoc : Doc → String
  | .null => "null"
  | .scalar s => s
  | .map fs => "\x7b" ++ printFields fs ++ "\x7d"
/-- The fields of a mapping written in flow notation. -/
def printFields : Fields → String
  | .nil => ""
  | .cons k v .nil => k ++ ": " ++ printDoc v
  | .cons k v rest => k ++ ": " ++ printDoc v ++ ", " ++ printFields rest
end

/-- The opening brace of a flow mapping. -/
def openBrace : Char := Char.ofNat 123

/-- The closing brace of a flow mapping. -/
def closeBrace : Char := Char.ofNat 125

/-- The separator of the fields of a flow mapping. -/
def comma : Char := Char.ofNat 44

/-- The separator of a field name and its value. -/
def colon : Char := Char.ofNat 58

/-- Blanks and line ends. -/
def isBlank (c : Char) : Bool := c == Char.ofNat 32 || c == Char.ofNat 10

/-- The characters of a field name or of a plain scalar. -/
def isTokenChar (c : Char) : Bool :=
  !(c == openBrace || c == closeBrace || c == comma || c == colon || isBlank c)

/-- The text after its leading blanks. -/
def skipBlanks (cs : List Char) : List Char := cs.dropWhile isBlank

mutual
/-- Reads one value in flow notation and gives the rest of the text; `fuel` bounds the depth. -/
def parseValue : Nat → List Char → Option (Doc × List Char)
  | 0, _ => none
  | fuel + 1, cs =>
    match skipBlanks cs with
    | [] => none
    | c :: rest =>
      if c = openBrace then
        (parseFields fuel (skipBlanks rest)).map (fun r => (Doc.map r.1, r.2))
      else
        let token := (c :: rest).span isTokenChar
        if token.1 = [] then none
        else if String.mk token.1 = "null" || String.mk token.1 = "~" || String.mk token.1 = "Null"
            || String.mk token.1 = "NULL" then some (Doc.null, token.2)
        else some (Doc.scalar (String.mk token.1), token.2)
/-- Reads the fields of a flow mapping up to its closing brace. -/
def parseFields : Nat → List Char → Option (Fields × List Char)
  | 0, _ => none
  | fuel + 1, cs =>
    match cs with
    | [] => none
    | c :: rest =>
      if c = closeBrace then some (Fields.nil, rest)
      else
        let key := (c :: rest).span isTokenChar
        if key.1 = [] then none
        else
          match skipBlanks key.2 with
          | [] => none
          | c2 :: rest2 =>
            if c2 = colon then
              match parseValue fuel rest2 with
              | none => none
              | some (value, rest3) =>
                match skipBlanks rest3 with
                | [] => none
                | c3 :: rest4 =>
                  if c3 = comma then
                    (parseFields fuel (skipBlanks rest4)).map
                      (fun r => (Fields.cons (String.mk key.1) value r.1, r.2))
                  else if c3 = closeBrace then some (Fields.cons (String.mk key.1) value Fields.nil, rest4)
                  else none
            else none
end

/-- A manifest text in flow notation read as a document. -/
def parseDoc (text : String) : Option Doc :=
  match parseValue (text.length + 1) text.data with
  | some (doc, rest) => if skipBlanks rest = [] then some doc else none
  | none => none

/-- Modelled from the spec: `merge2.MergeStrings(src, dest)`, which reads both texts as
documents, merges `src` onto `dest` with the fields of `src` taking precedence, and writes the
merged document back. -/
def MergeStrings (src dest : String) : Except Err String :=
  match parseDoc src, parseDoc dest with
  | some overlay, some base =>
    match mergeDoc overlay base with
    | some merged => Except.ok (printDoc merged)
    | none => Except.error "wrong node kind"
  | _, _ => Except.error "cannot parse document"

/-- The library `lib` with the manifest merge as modelled. -/
def withMergeStrings (lib : Library) : Library :=
  { lib with MergeStrings := fun src dest => MergeStrings src dest }

/-- The options as `NewJobSpec` renders them: `Jsn` with its single quotes doubled (line 692). -/
def escapedOptions (options : JobOptions) : JobOptions :=
  let quote := String.singleton (Char.ofNat 39)
  { options with Jsn := options.Jsn.replace quote (quote ++ quote) }

/-- The terminal statuses of the state machine. -/
def ExecutionStatus.isTerminal : ExecutionStatus → Bool
  | .passed => true
  | .failed => true
  | .aborted => true
  | .timeout => true
  | .canceled => true
  | _ => false

/-- The statuses of the records handed to the repository writes, in the order of the writes. -/
def persistedStatuses (evs : List Effect) : List (Option ExecutionStatus) :=
  evs.filterMap (fun e => match e with
    | .repositoryEndExecution r _ => some r.ExecutionResult.Status
    | .repositoryUpdateResult _ r _ => some r.ExecutionResult.Status
    | _ => none)

/-- Number of entries to `Timeout` among the effects. -/
def countTimeoutCalls (evs : List Effect) : Nat :=
  (evs.filter (fun e => match e with
    | .timeoutCalled _ => true
    | _ => false)).length

/-- The final status in the words of the specification: a negative test passes exactly when its
raw result failed, any other execution keeps its raw status. -/
def specFinalStatus (isNegativeTest : Bool) (raw : Option ExecutionStatus) : Option ExecutionStatus :=
  if isNegativeTest then
    if raw = some ExecutionStatus.failed then some ExecutionStatus.passed else some ExecutionStatus.failed
  else raw

/-- The event variant in the words of the specification: precedence
`Aborted` > `Timeout` > `Failed` > success. -/
def specEventType (status : Option ExecutionStatus) : EventType :=
  if status = some ExecutionStatus.aborted then EventType.endTestAborted
  else if status = some ExecutionStatus.timeout then EventType.endTestTimeout
  else if status = some ExecutionStatus.failed then EventType.endTestFailed
  else EventType.endTestSuccess

/-! ## Fixtures: concrete collaborators on which the theorems are exercised -/

/-- A repository that answers `Get` with the record last handed to `UpdateResult` for that id,
or with `initial` when there is none, and whose writes answer `endErr` and `updateErr`. -/
def fixtureRepository (initial : ExecutionRecord) (endErr updateErr : Option Err) : Repository where
  Get := fun hist id =>
    match hist.reverse.findSome? (fun e => match e with
      | .repositoryUpdateResult i r none => if i = id then some r else none
      | _ => none) with
    | some r => Except.ok r
    | none => Except.ok initial
  EndExecution := fun _ _ => endErr
  UpdateResult := fun _ _ _ => updateErr

/-- A library whose templates render to their own text and decode to a job with one init and
one main container. -/
def fixtureLibrary : Library where
  SanitizeName := fun n => n
  MarshalExecution := fun e => Except.ok e.Id
  MarshalSlavesConfigs := fun _ _ => Except.ok "[]"
  SlavesConfigsEnv := "RUNNER_SLAVES_CONFIGS"
  GetDefaultWorkingDir := fun dir _ => dir
  VolumeDir := "/data"
  JoinPath := fun parts => "/".intercalate parts
  ParseTemplate := fun _ _ => none
  ExecuteTemplate := fun _ text _ => Except.ok text
  MergeStrings := fun src _ => Except.ok src
  DecodeJob := fun spec =>
    Except.ok { Name := spec, InitContainers := [{ Name := "init" }], Containers := [{ Name := "main" }] }
  PrepareSecrets := fun _ _ => []
  PrepareGitCredentials := fun _ _ => []
  PrepareEnvs := fun _ _ => []
  RunnerEnvVars := [{ Name := "RUNNER_ENDPOINT", Value := "minio" }]
  StorageBucketEnv := "testkube-artifacts"
  ParseRunnerOutput := fun logs => ({ Status := some ExecutionStatus.passed, Output := logs }, none)

/-- A cluster client that lists `jobs`, finds `pods`, and whose other calls succeed. -/
def fixtureClientSet (jobs : Except Err (Option (List Job))) (createErr : Option Err)
    (pods : Except Err (List Pod)) : ClientSet where
  JobsList := fun _ _ _ => jobs
  JobsCreate := fun _ _ _ => createErr
  GetJobPods := fun _ _ _ => pods
  PollPodLoggable := fun _ _ _ => none
  PollPodReady := fun _ _ _ => none
  GetPodLogs := fun _ _ _ => Except.ok ""
  GetPodErrorMessage := fun _ _ => ""
  AbortJob := fun _ _ _ => ({ Status := some ExecutionStatus.aborted }, none)
  StreamPodLogs := fun _ _ _ _ => Except.ok {}

/-- An executor over the given repository and cluster client whose `Test` and `TestExecution`
clients answer as given and whose telemetry is switched off. -/
def fixtureExecutor (repo : Repository) (cs : ClientSet) (testGet : Except Err Test) (testUpdate : Option Err)
    (teGet : Except Err TestExecution) (teUpdate : Option Err) : JobExecutor where
  lib := fixtureLibrary
  Repository := repo
  ClientSet := cs
  templatesClient := { Get := fun _ name => Except.ok { Name := name } }
  initImage := "init"
  jobTemplate := "template"
  serviceAccountName := "sa"
  registry := ""
  clusterID := "cluster"
  testsClient := { Get := fun _ _ => testGet, UpdateStatus := fun _ _ => testUpdate }
  testExecutionsClient := { Get := fun _ _ => teGet, UpdateStatus := fun _ _ => teUpdate }
  configMap := { GetTelemetryEnabled := fun _ => (false, none), GetUniqueClusterId := fun _ => ("cluster", none) }
  runtime := { timeNow := fun _ => 7, Hostname := fun _ => ("host", none),
               SendRunEvent := fun _ _ => Except.ok "", Version := "v1" }
  Namespace := "testkube"
  dashboardURI := "http://dashboard"

/-- A cluster client that lists no job and finds no pod. -/
def idleClientSet : ClientSet := fixtureClientSet (Except.ok none) none (Except.ok [])

/-- An executor whose collaborators all succeed, over a repository holding `initial`. -/
def healthyExecutor (initial : ExecutionRecord) : JobExecutor :=
  fixtureExecutor (fixtureRepository initial none none) idleClientSet (Except.ok { Name := "t1" }) none
    (Except.ok { Name := "te1" }) none

/-- A store with the execution's result at address 0 and the `result` argument at address 1. -/
def twoCellHeap (own res : ExecutionResult) : Heap :=
  { next := 2, cells := fun p => if p = 0 then own else res }

/-- A persisted record of execution `e1` with the given status. -/
def savedRecord (status : ExecutionStatus) : ExecutionRecord :=
  { Id := "e1", TestName := "t1", ExecutionResult := { Status := some status } }

/-- The record of execution `e1` finalized at time 7 with the given status and output. -/
def finalizedE1 (status : ExecutionStatus) (output : String) : ExecutionRecord :=
  { Id := "e1", TestName := "t1", EndTime := some 7,
    ExecutionResult := { Status := some status, Output := output } }

/-- The in-memory execution `e1`, its result at address 0. -/
def executionE1 : Execution := { Id := "e1", TestName := "t1", ExecutionResult := 0 }

/-- An executor like `healthyExecutor` whose first persist fails with `e`. -/
def endFailingExecutor (initial : ExecutionRecord) (e : Err) : JobExecutor :=
  fixtureExecutor (fixtureRepository initial (some e) none) idleClientSet (Except.ok { Name := "t1" }) none
    (Except.ok { Name := "te1" }) none

/-- An executor like `healthyExecutor` whose `Test` client cannot find the test. -/
def testlessExecutor (initial : ExecutionRecord) (e : Err) : JobExecutor :=
  fixtureExecutor (fixtureRepository initial none none) idleClientSet (Except.error e) none
    (Except.ok { Name := "te1" }) none

/-- An executor like `healthyExecutor` whose cluster lists the given jobs. -/
def monitoredExecutor (initial : ExecutionRecord) (jobs : List Job) : JobExecutor :=
  fixtureExecutor (fixtureRepository initial none none)
    (fixtureClientSet (Except.ok (some jobs)) none (Except.ok []))
    (Except.ok { Name := "t1" }) none (Except.ok { Name := "te1" }) none

/-- A job that failed, with the given conditions. -/
def failedJob (conditions : List JobCondition) : Job :=
  { Name := "e1", Status := { Failed := 1, Conditions := conditions } }

/-- An executor like `healthyExecutor` whose cluster refuses to create jobs with error `e`. -/
def createFailingExecutor (initial : ExecutionRecord) (e : Err) : JobExecutor :=
  fixtureExecutor (fixtureRepository initial none none)
    (fixtureClientSet (Except.ok none) (some e) (Except.ok []))
    (Except.ok { Name := "t1" }) none (Except.ok { Name := "te1" }) none

/-- A job that reports a success next to a failure with a `DeadlineExceeded` condition. -/
def succeededAndFailedJob : Job :=
  { Name := "e1",
    Status := { Succeeded := 1, Failed := 1, Conditions := [{ Type_ := "Failed", Reason := "DeadlineExceeded" }] } }

/-- A job that is still active. -/
def activeJob : Job := { Name := "e1", Status := { Active := 1 } }

/-- An executor like `healthyExecutor` whose cluster streams the given logs per container. -/
def streamingExecutor (streams : String → Except Err PodLogStream) : JobExecutor :=
  fixtureExecutor (fixtureRepository {} none none)
    { idleClientSet with StreamPodLogs := fun _ _ _ container => streams container }
    (Except.ok { Name := "t1" }) none (Except.ok { Name := "te1" }) none

/-- A pod with init container `A` and main container `B`. -/
def podAB : Pod := { Name := "e1-pod", InitContainers := ["A"], Containers := ["B"] }

/-- Log streams where `A` wrote `a1`, `a2` and `B` wrote `b1`. -/
def streamsAB (container : String) : Except Err PodLogStream :=
  if container = "A" then Except.ok { lines := ["a1", "a2"] }
  else if container = "B" then Except.ok { lines := ["b1"] }
  else Except.error "no such container"

/-- Job options with a caller label, rendered by `fixtureLibrary`. -/
def labelledOptions : JobOptions :=
  { Name := "e1", JobTemplate := "job", Labels := [("team", "qa")], ClusterID := "c1", WorkingDir := "/data" }

/-- A library like `fixtureLibrary` whose manifests decode to a job labelled `team: dev`,
`app: runner`. -/
def labellingLibrary : Library :=
  { fixtureLibrary with
    DecodeJob := fun spec =>
      Except.ok { Name := spec, Labels := some [("team", "dev"), ("app", "runner")], Containers := [{ Name := "main" }] } }

/-- Job options whose template renders to the base `{a: 1, b: 2}` and whose extension renders
to the overlay `{b: 3, c: 4}`. -/
def extendedOptions : JobOptions :=
  { Name := "e1", JobTemplate := "\x7ba: 1, b: 2\x7d", JobTemplateExtensions := "\x7bb: 3, c: 4\x7d" }

/-- A pod of job `e1` in the given phase. -/
def podOfE1 (phase : PodPhase) : Pod :=
  { Name := "e1-pod", Labels := [("job-name", "e1")], Phase := phase, Containers := ["main"] }

/-- An executor like `healthyExecutor` whose pod lookup finds `pods`. -/
def podFindingExecutor (initial : ExecutionRecord) (pods : List Pod) : JobExecutor :=
  fixtureExecutor (fixtureRepository initial none none)
    (fixtureClientSet (Except.ok none) none (Except.ok pods))
    (Except.ok { Name := "t1" }) none (Except.ok { Name := "te1" }) none

/-- Options of a synchronous execution. -/
def syncOptions : ExecuteOptions := { TestName := "t1", Sync := true }

/-! ## The distributed JMeter runner (`contrib/executor/jmeterd/pkg/runner/runner.go`)

The runner receives the execution by value.  Its calls to the file system, the process
environment, the slaves client, the JMeter command, the report parsers and the scraper are
recorded as `RunEffect`s; a collaborator answers as a function of its arguments and of the
effects so far.  The `execution` argument of the slaves client and of the scraper is not
repeated in their signature: its maps and slices share storage with locals the run writes to
(`envManager.Variables`, `args`), and it is determined by the input and the effects so far.
A panic of the Go runtime (index out of range, nil dereference) is the outcome
`returned = none`; deferred calls run all the same. -/

/-- The builtin `copy(dst[off:], src)`: the elements of `src` overwrite those of `dst` from
position `off` on, as many as fit.  Slicing `dst[off:]` panics (`none`) when `off` exceeds the
length of `dst`. -/
def goCopyAt (dst : List String) (off : Nat) (src : List String) : Option (List String) :=
  if off ≤ dst.length then
    some (dst.take off ++ src.take (dst.length - off) ++ dst.drop (off + min src.length (dst.length - off)))
  else none

/-- Lines 185-189 of `Run`: the new argument list built when `args[i]` is the placeholder.
`make` gives `len(args)+len(params)-1` empty strings (`args` is not empty here, so the length
is not negative), and the three `copy` calls fill it. -/
def spliceEnvVars (args params : List String) (i : Nat) : Option (List String) :=
  let newArgs := List.replicate (args.length + params.length - 1) ""
  (goCopyAt newArgs 0 (args.take i)).bind fun newArgs =>
  (goCopyAt newArgs i params).bind fun newArgs =>
  goCopyAt newArgs (i + params.length) (args.drop (i + 1))

/-- The loop of lines 183-192 of `Run` from index `i` on, with `fuel` indices left: the first
`args[i]` equal to `<envVars>` is replaced by `params`, and the loop breaks. -/
def expandEnvVarsFrom (args params : List String) : Nat → Nat → Option (List String)
  | _, 0 => some args
  | i, fuel + 1 =>
    if args[i]? = some "<envVars>" then spliceEnvVars args params i
    else expandEnvVarsFrom args params (i + 1) fuel

/-- Lines 183-192 of `Run`: the expansion of the `<envVars>` placeholder (`for i := range args`). -/
def expandEnvVars (args params : List String) : Option (List String) :=
  expandEnvVarsFrom args params 0 args.length

/-- Runner parameters (`envs.Params`): the fields `Run` reads. -/
structure Params where
  ScrapperEnabled : Bool := false
  DataDir : String := ""
  WorkingDir : String := ""
  deriving DecidableEq, Repr

/-- What `os.Stat` tells about a file. -/
structure FileInfo where
  IsDir : Bool := false
  deriving DecidableEq, Repr

/-- The slaves created for a run (`slaves.SlaveMeta`), by the address list `ToIPString` prints. -/
structure SlaveMeta where
  IPString : String := ""
  deriving DecidableEq, Repr

/-- The rows of a CSV report (`parser.Results`), kept as a token. -/
abbrev Results := String

/-- The samples of an XML report (`parser.TestResults`), kept as a token. -/
abbrev TestResults := String

/-- Modelled from the spec: `ExecutionResult.WithErrors` for one non-nil error, the error path
of a result (see `ExecutionResult.Err`). -/
def ExecutionResult.WithErrors (r : ExecutionResult) (err : Testkube.Err) : ExecutionResult :=
  r.Err err

/-- Calls of `Run` to its collaborators, each with the answer it got. -/
inductive RunEffect where
  | getPathAndWorkingDir (dataDir : String) (res : String × String × Option Err)
  | stat (path : String) (res : Except Err FileInfo)
  | setenv (key value : String) (res : Option Err)
  | removeAll (path : String) (res : Option Err)
  | mkdir (path : String) (res : Option Err)
  | newSlavesClient (slavesEnvVariables : GoMap Variable) (res : Option Err)
  | createSlaves (res : Except Err SlaveMeta)
  | deleteSlaves (slaveMeta : SlaveMeta)
  | run (dir command : String) (args : List String) (res : Except Err String)
  | openFile (path : String) (res : Option Err)
  | parseCSV (path : String) (res : Except Err Results)
  | closeFile (path : String)
  | readFile (path : String) (res : Except Err String)
  | runScript (script dir : String) (res : Option Err)
  | scrape (directories : List String) (res : Option Err)
  | scraperClose
  deriving DecidableEq, Repr

/-- The effects of a run so far. -/
abbrev RunHistory := List RunEffect

/-- The artifact scraper (`scraper.Scraper`). -/
structure Scraper where
  Scrape : RunHistory → List String → Option Err

/-- Functions of the operating system and of other packages `Run` relies on: the environment
manager, the content resolver, `os` and `filepath`, the slaves client, the command runner, the
report parsers and result mappers, and the post-run script.  `rangeVariables` is the order in
which the Go runtime iterates the variables map. -/
structure RunnerSystem where
  GetReferenceVars : GoMap Variable → GoMap Variable
  rangeVariables : GoMap Variable → List Variable
  ObfuscateSecrets : GoMap Variable → String → String
  GetPathAndWorkingDir : RunHistory → Option TestContent → String → String × String × Option Err
  Stat : RunHistory → String → Except Err FileInfo
  IsNotExist : Err → Bool
  Join : List String → String
  Dir : String → String
  Setenv : RunHistory → String → String → Option Err
  Getenv : RunHistory → String → String
  Getwd : RunHistory → Except Err String
  ExpandEnv : RunHistory → String → String
  RemoveAll : RunHistory → String → Option Err
  Mkdir : RunHistory → String → Option Err
  ExtractSlaveEnvVariables : GoMap Variable → GoMap Variable
  MasterOverrideJvmArgs : String
  MasterAdditionalJvmArgs : String
  NewSlavesClient : RunHistory → GoMap Variable → Option Err
  CreateSlaves : RunHistory → Except Err SlaveMeta
  MergeCommandAndArgs : List String → List String → String × List String
  Run : RunHistory → String → String → List String → Except Err String
  Open : RunHistory → String → Option Err
  ParseCSV : RunHistory → String → Except Err Results
  ReadFile : RunHistory → String → Except Err String
  ParseXML : String → Except Err TestResults
  mapResultsToExecutionResults : String → Results → ExecutionResult
  mapTestResultsToExecutionResults : String → TestResults → ExecutionResult
  RunScript : RunHistory → String → String → Option Err

/-- The runner (`JMeterDRunner`); `Scraper` is nil when scraping is not configured, and
`SlavesConfigs` is kept as its JSON text. -/
structure JMeterDRunner where
  Params : Params
  Scraper : Option Scraper
  SlavesConfigs : String
  sys : RunnerSystem

/-- What a run of `Run` leaves: its effects in order and what it returned (`none` for a panic). -/
structure RunOutcome where
  events : List RunEffect
  returned : Option (ExecutionResult × Option Err)

/-- The function `getEntryPoint` (lines 270-279). -/
def getEntryPoint (sys : RunnerSystem) (hist : RunHistory) : String :=
  let entrypoint := sys.Getenv hist "ENTRYPOINT_CMD"
  if entrypoint != "" then entrypoint
  else
    let wd := match sys.Getwd hist with
      | .ok wd => wd
      | .error _ => "."
    sys.Join [wd, "scripts/entrypoint.sh"]

/-- Lines 252-267 of `Run`: scraping the artifacts and the final return. -/
def JMeterDRunner.runScrape (r : JMeterDRunner) (hist : RunHistory) (execution : ExecutionRecord)
    (outputDir : String) (executionResult : ExecutionResult) (ev : List RunEffect) : RunOutcome :=
  if r.Params.ScrapperEnabled then
    let directories := [outputDir]
    let directories := match execution.ArtifactRequest with
      | some request => if request.Dirs.length != 0 then directories ++ request.Dirs else directories
      | none => directories
    match r.Scraper with
    | none => ⟨ev, none⟩
    | some scraper =>
      let scraped := scraper.Scrape (hist ++ ev) directories
      let ev := ev ++ [RunEffect.scrape directories scraped]
      match scraped with
      | some err =>
        ⟨ev, some (executionResult.Err err, some ("error scraping artifacts for JMeter executor: " ++ err))⟩
      | none => ⟨ev, some (executionResult, none)⟩
  else ⟨ev, some (executionResult, none)⟩

/-- Lines 242-267 of `Run`: the post-run script, whose error is only logged, then the scraping. -/
def JMeterDRunner.runPostRun (r : JMeterDRunner) (hist : RunHistory) (execution : ExecutionRecord)
    (outputDir : String) (executionResult : ExecutionResult) (ev : List RunEffect) : RunOutcome :=
  let ev :=
    if execution.PostRunScript != "" && execution.ExecutePostRunScriptBeforeScraping then
      ev ++ [RunEffect.runScript execution.PostRunScript r.Params.WorkingDir
        (r.sys.RunScript (hist ++ ev) execution.PostRunScript r.Params.WorkingDir)]
    else ev
  r.runScrape hist execution outputDir executionResult ev

/-- Lines 216-267 of `Run`: opening and parsing the JTL report (CSV first, XML when the CSV
parser fails), mapping it to a result, and what follows. -/
def JMeterDRunner.runReport (r : JMeterDRunner) (hist : RunHistory) (execution : ExecutionRecord)
    (outputDir jtlPath out : String) (ev : List RunEffect) : RunOutcome :=
  let opened := r.sys.Open (hist ++ ev) jtlPath
  let ev := ev ++ [RunEffect.openFile jtlPath opened]
  match opened with
  | some err => ⟨ev, some (({} : ExecutionResult).WithErrors ("getting jtl report error: " ++ err), none)⟩
  | none =>
    let parsed := r.sys.ParseCSV (hist ++ ev) jtlPath
    let ev := ev ++ [RunEffect.parseCSV jtlPath parsed, RunEffect.closeFile jtlPath]
    match parsed with
    | .error _ =>
      let data := r.sys.ReadFile (hist ++ ev) jtlPath
      let ev := ev ++ [RunEffect.readFile jtlPath data]
      match data with
      | .error err =>
        ⟨ev, some (({} : ExecutionResult).WithErrors ("getting jtl report error: " ++ err), none)⟩
      | .ok data =>
        match r.sys.ParseXML data with
        | .error err =>
          ⟨ev, some (({} : ExecutionResult).WithErrors ("parsing jtl report error: " ++ err), none)⟩
        | .ok testResults =>
          r.runPostRun hist execution outputDir (r.sys.mapTestResultsToExecutionResults out testResults) ev
    | .ok results =>
      r.runPostRun hist execution outputDir (r.sys.mapResultsToExecutionResults out results) ev

/-- Lines 181-267 of `Run`: the slaves argument, the `<envVars>` expansion, the expansion of
environment references, the entry point, the JMeter command, and what follows. -/
def JMeterDRunner.runCommand (r : JMeterDRunner) (hist : RunHistory) (execution : ExecutionRecord)
    (envVariables : GoMap Variable) (runPath outputDir jtlPath : String) (args params : List String)
    (slaveMeta : SlaveMeta) (ev : List RunEffect) : RunOutcome :=
  let args := args ++ ["-R " ++ slaveMeta.IPString]
  match expandEnvVars args params with
  | none => ⟨ev, none⟩
  | some args =>
    let args := args.map (r.sys.ExpandEnv (hist ++ ev))
    let entryPoint := getEntryPoint r.sys (hist ++ ev)
    let command := execution.Command.map (fun c => if c == "<entryPoint>" then entryPoint else c)
    let execution := { execution with Command := command }
    let merged := r.sys.MergeCommandAndArgs execution.Command args
    let ran := r.sys.Run (hist ++ ev) runPath merged.1 merged.2
    let ev := ev ++ [RunEffect.run runPath merged.1 merged.2 ran]
    match ran with
    | .error err => ⟨ev, some (({} : ExecutionResult).WithErrors ("jmeter run error: " ++ err), none)⟩
    | .ok out => r.runReport hist execution outputDir jtlPath (r.sys.ObfuscateSecrets envVariables out) ev

/-- Lines 151-167 of `Run`: the four path placeholders of one argument, tried in turn. -/
def substitutePaths (path jtlPath reportPath jmeterLogPath : String) (arg : String) : String :=
  let arg := if arg == "<runPath>" then path else arg
  let arg := if arg == "<jtlFile>" then jtlPath else arg
  let arg := if arg == "<reportFile>" then reportPath else arg
  if arg == "<logFile>" then jmeterLogPath else arg

/-- Lines 107-267 of `Run`: the JMeter parameters, the output directory, the slaves (deleted
by the deferred call of line 179 when they were created), and what follows. -/
def JMeterDRunner.runPrepare (r : JMeterDRunner) (hist : RunHistory) (execution : ExecutionRecord)
    (envVariables : GoMap Variable) (path workingDir : String) (ev : List RunEffect) : RunOutcome :=
  let slavesEnvVariables := r.sys.ExtractSlaveEnvVariables envVariables
  let params := (r.sys.rangeVariables envVariables).foldl (fun params value =>
    if value.Name == r.sys.MasterOverrideJvmArgs || value.Name == r.sys.MasterAdditionalJvmArgs then params
    else params ++ ["-G" ++ value.Name ++ "=" ++ value.Value]) []
  let runPath := if workingDir != "" then workingDir else r.Params.DataDir
  let parentTestFolder := r.sys.Join [r.sys.Dir path]
  let ev := ev ++ [RunEffect.setenv "JMETER_PARENT_TEST_FOLDER" parentTestFolder
    (r.sys.Setenv (hist ++ ev) "JMETER_PARENT_TEST_FOLDER" parentTestFolder)]
  let slavesEnvVariables := slavesEnvVariables.set "JMETER_PARENT_TEST_FOLDER"
    (NewBasicVariable "JMETER_PARENT_TEST_FOLDER" parentTestFolder)
  let outputDir := r.sys.Join [runPath, "output"]
  let statted := r.sys.Stat (hist ++ ev) outputDir
  let ev := ev ++ [RunEffect.stat outputDir statted]
  let ev := match statted with
    | .ok _ => ev ++ [RunEffect.removeAll outputDir (r.sys.RemoveAll (hist ++ ev) outputDir)]
    | .error _ => ev
  let made := r.sys.Mkdir (hist ++ ev) outputDir
  let ev := ev ++ [RunEffect.mkdir outputDir made]
  match made with
  | some err =>
    ⟨ev, some (({} : ExecutionResult).Err ("error creating directory " ++ outputDir ++ ": " ++ err), none)⟩
  | none =>
    let jtlPath := r.sys.Join [outputDir, "report.jtl"]
    let reportPath := r.sys.Join [outputDir, "report"]
    let jmeterLogPath := r.sys.Join [outputDir, "jmeter.log"]
    let args := execution.Args.map (substitutePaths path jtlPath reportPath jmeterLogPath)
    let execution := { execution with Args := args }
    let client := r.sys.NewSlavesClient (hist ++ ev) slavesEnvVariables
    let ev := ev ++ [RunEffect.newSlavesClient slavesEnvVariables client]
    match client with
    | some err =>
      ⟨ev, some (({} : ExecutionResult).WithErrors ("error creating slaves client: " ++ err), none)⟩
    | none =>
      let created := r.sys.CreateSlaves (hist ++ ev)
      let ev := ev ++ [RunEffect.createSlaves created]
      match created with
      | .error err => ⟨ev, some (({} : ExecutionResult).WithErrors ("error creating slaves: " ++ err), none)⟩
      | .ok slaveMeta =>
        let body := r.runCommand hist execution envVariables runPath outputDir jtlPath args params slaveMeta ev
        ⟨body.events ++ [RunEffect.deleteSlaves slaveMeta], body.returned⟩

/-- Lines 85-105 of `Run`: a directory test, whose script is named by the last argument. -/
def JMeterDRunner.runDirectory (r : JMeterDRunner) (hist : RunHistory) (execution : ExecutionRecord)
    (envVariables : GoMap Variable) (path workingDir : String) (ev : List RunEffect) : RunOutcome :=
  match execution.Args.getLast? with
  | none => ⟨ev, none⟩
  | some lastArg =>
    let path := if workingDir != "" then r.sys.Join [r.Params.DataDir, "repo"] else path
    let scriptName :=
      if workingDir != "" then
        match execution.Content with
        | some content =>
          match content.Repository with
          | some repository => r.sys.Join [repository.Path, lastArg]
          | none => lastArg
        | none => lastArg
      else lastArg
    let execution := { execution with Args := execution.Args.dropLast }
    let scriptFile := r.sys.Join [path, workingDir, scriptName]
    let statted := r.sys.Stat (hist ++ ev) scriptFile
    let ev := ev ++ [RunEffect.stat scriptFile statted]
    match statted with
    | .error errFile =>
      if r.sys.IsNotExist errFile then
        ⟨ev, some (({} : ExecutionResult).Err
          ("could not find file " ++ scriptName ++ " in the directory: " ++ errFile), none)⟩
      else ⟨ev, none⟩
    | .ok fileInfo =>
      if fileInfo.IsDir then
        ⟨ev, some (({} : ExecutionResult).Err
          ("could not find file " ++ scriptName ++ " in the directory: <nil>"), none)⟩
      else r.runPrepare hist execution envVariables scriptFile workingDir ev

/-- Lines 64-267 of `Run`: the body, before the deferred `Scraper.Close`. -/
def JMeterDRunner.runBody (r : JMeterDRunner) (hist : RunHistory) (execution : ExecutionRecord) :
    RunOutcome :=
  let envVariables := r.sys.GetReferenceVars execution.Variables
  let resolved := r.sys.GetPathAndWorkingDir hist execution.Content r.Params.DataDir
  let ev := [RunEffect.getPathAndWorkingDir r.Params.DataDir resolved]
  let path := resolved.1
  let workingDir := resolved.2.1
  let statted := r.sys.Stat (hist ++ ev) path
  let ev := ev ++ [RunEffect.stat path statted]
  match statted with
  | .error err => ⟨ev, some ({}, some err)⟩
  | .ok fileInfo =>
    if fileInfo.IsDir then r.runDirectory hist execution envVariables path workingDir ev
    else r.runPrepare hist execution envVariables path workingDir ev

/-- The method `JMeterDRunner.Run` (lines 60-268). -/
def JMeterDRunner.Run (r : JMeterDRunner) (hist : RunHistory) (execution : ExecutionRecord) : RunOutcome :=
  let body := r.runBody hist execution
  match r.Scraper with
  | some _ => ⟨body.events ++ [RunEffect.scraperClose], body.returned⟩
  | none => body

/-- Whether an effect is a call of `Scraper.Scrape`. -/
def RunEffect.isScrape : RunEffect → Bool
  | .scrape _ _ => true
  | _ => false

/-- The body of a referenced template when the template exists and is of job type. -/
def jobTemplateBody (template : Option Template) : Option String :=
  match template with
  | some t => if t.Type_ = some TemplateType.job then some t.Body else none
  | none => none

/-- The job template by the fixed priority: the body of the template referenced by the request
when it is of job type, otherwise the body of the template referenced by the executor spec when it
is of job type, otherwise the inline template of the executor spec when it is not empty, otherwise
the executor-wide default.  `none` stands for an empty reference. -/
def jobTemplateByPriority (requestTemplate executorTemplate : Option Template)
    (inlineTemplate defaultTemplate : String) : String :=
  match jobTemplateBody requestTemplate with
  | some body => body
  | none =>
    match jobTemplateBody executorTemplate with
    | some body => body
    | none => if inlineTemplate != "" then inlineTemplate else defaultTemplate

/-- The successful lookup of the template `name`, when one was made. -/
def templateLookup (name : String) (template : Option Template) : List Effect :=
  template.toList.map (fun t => Effect.templatesGet name (Except.ok t))

/-- A templates client holding a job template `job-tpl` and a webhook template `hook-tpl`; any
other lookup fails. -/
def twoTemplatesClient : TemplatesClient where
  Get := fun _ name =>
    if name = "job-tpl" then Except.ok { Name := name, Type_ := some TemplateType.job, Body := "job body" }
    else if name = "hook-tpl" then
      Except.ok { Name := name, Type_ := some TemplateType.webhook, Body := "hook body" }
    else Except.error "template not found"

/-- Options whose executor spec has an inline template and references `executorRef`, and whose
request references `requestRef`. -/
def referencingOptions (executorRef requestRef : String) : ExecuteOptions :=
  { TestName := "t1",
    ExecutorSpec := { JobTemplate := "inline", JobTemplateReference := executorRef },
    Request := { JobTemplateReference := requestRef } }

/-- An operating system in which the test content is the file `/data/test.jmx`, the file
system and the slaves answer without error, and the JMeter command, the opening of the report
and the two report parsers answer as given. -/
def fixtureRunnerSystem (ran : Except Err String) (opened : Option Err)
    (parsedCSV : Except Err Results) (parsedXML : Except Err TestResults) : RunnerSystem where
  GetReferenceVars := fun vars => vars
  rangeVariables := fun vars => vars.map (fun kv => kv.2)
  ObfuscateSecrets := fun _ out => out
  GetPathAndWorkingDir := fun _ _ _ => ("/data/test.jmx", "", none)
  Stat := fun _ path =>
    if path = "/data/test.jmx" then Except.ok { IsDir := false } else Except.error "no such file or directory"
  IsNotExist := fun e => e == "no such file or directory"
  Join := fun parts => "/".intercalate parts
  Dir := fun _ => "/data"
  Setenv := fun _ _ _ => none
  Getenv := fun _ _ => ""
  Getwd := fun _ => Except.ok "/bin"
  ExpandEnv := fun _ arg => arg
  RemoveAll := fun _ _ => none
  Mkdir := fun _ _ => none
  ExtractSlaveEnvVariables := fun _ => []
  MasterOverrideJvmArgs := "MASTER_OVERRIDE_JVM_ARGS"
  MasterAdditionalJvmArgs := "MASTER_ADDITIONAL_JVM_ARGS"
  NewSlavesClient := fun _ _ => none
  CreateSlaves := fun _ => Except.ok { IPString := "10.0.0.1" }
  MergeCommandAndArgs := fun command args => (command.headD "", command.tail ++ args)
  Run := fun _ _ _ _ => ran
  Open := fun _ _ => opened
  ParseCSV := fun _ _ => parsedCSV
  ReadFile := fun _ _ => Except.ok "report"
  ParseXML := fun _ => parsedXML
  mapResultsToExecutionResults := fun out _ => { Status := some ExecutionStatus.passed, Output := out }
  mapTestResultsToExecutionResults := fun out _ => { Status := some ExecutionStatus.passed, Output := out }
  RunScript := fun _ _ _ => none

/-- A runner with scraping enabled and a scraper that succeeds, over the given system. -/
def scrapingRunner (sys : RunnerSystem) : JMeterDRunner :=
  { Params := { ScrapperEnabled := true, DataDir := "/data" },
    Scraper := some { Scrape := fun _ _ => none },
    SlavesConfigs := "\x7b\x7d",
    sys := sys }

/-- A JMeter execution `e1` with one variable and the usual argument placeholders. -/
def jmeterExecution : ExecutionRecord :=
  { Id := "e1", TestName := "t1",
    Variables := [("users", { Name := "users", Value := "5" })],
    Command := ["<entryPoint>"],
    Args := ["-n", "<envVars>", "-t", "<runPath>", "-l", "<jtlFile>"] }

/-! ## Theorems -/

/-! ### The order of effects in a finalization -/

theorem TailOk.single {k : Nat} {err : Option Err} (x : Effect) (hk : k ≤ x.stage)
    (hf : x.failure = err) (h12 : x.stage ≤ 12) : TailOk k [x] err :=
  ⟨List.pairwise_singleton _ _, by simpa using hk, ⟨[], x, rfl, by simp, hf⟩, by simpa using h12⟩

theorem TailOk.cons {k k2 : Nat} {err : Option Err} {tail : List Effect} (x : Effect)
    (hk : k ≤ x.stage) (hlt : x.stage < k2) (hf : x.failure = none) (h : TailOk k2 tail err) :
    TailOk k (x :: tail) err := by
  obtain ⟨hp, hge, ⟨init, last, rfl, hinit, hlast⟩, h12⟩ := h
  refine ⟨List.pairwise_cons.2 ⟨fun y hy => lt_of_lt_of_le hlt (hge y hy), hp⟩, ?_,
    ⟨x :: init, last, rfl, ?_, hlast⟩, ?_⟩
  · intro y hy
    rcases List.mem_cons.1 hy with rfl | hy
    · exact hk
    · exact le_trans (le_trans hk hlt.le) (hge y hy)
  · intro y hy
    rcases List.mem_cons.1 hy with rfl | hy
    · exact hf
    · exact hinit y hy
  · intro y hy
    rcases List.mem_cons.1 hy with rfl | hy
    · have h1 := hge last (by simp)
      have h2 := h12 last (by simp)
      omega
    · exact h12 y hy

theorem TailOk.failed_is_last {k : Nat} {err : Option Err} {tail : List Effect}
    (h : TailOk k tail err) {x : Effect} {e : Err} (hx : x ∈ tail) (hf : x.failure = some e) :
    err = some e ∧ ∀ y ∈ tail, y.stage ≤ x.stage := by
  obtain ⟨hp, _, ⟨init, last, rfl, hinit, hlast⟩, _⟩ := h
  have hxl : x = last := by
    rcases List.mem_append.1 hx with hx | hx
    · rw [hinit x hx] at hf
      exact absurd hf (by simp)
    · simpa using hx
  subst hxl
  refine ⟨by rw [← hlast, hf], ?_⟩
  intro y hy
  rcases List.mem_append.1 hy with hy | hy
  · exact (List.pairwise_append.1 hp).2.2 y hy x (by simp) |>.le
  · have : y = x := by simpa using hy
    rw [this]

theorem TailOk.returned_error_was_answered {k : Nat} {tail : List Effect} {e : Err}
    (h : TailOk k tail (some e)) : ∃ x ∈ tail, x.failure = some e := by
  obtain ⟨_, _, ⟨init, last, rfl, _, hlast⟩, _⟩ := h
  exact ⟨last, by simp, hlast⟩

theorem TailOk.same_stage_eq {k : Nat} {err : Option Err} {tail : List Effect}
    (h : TailOk k tail err) {x y : Effect} (hx : x ∈ tail) (hy : y ∈ tail)
    (hs : x.stage = y.stage) : x = y := by
  have hp := h.1
  clear h
  induction tail with
  | nil => simp at hx
  | cons a t ih =>
    rw [List.pairwise_cons] at hp
    rcases List.mem_cons.1 hx with hxa | hxt <;> rcases List.mem_cons.1 hy with hya | hyt
    · rw [hxa, hya]
    · rw [hxa] at hs
      exact absurd hs (hp.1 y hyt).ne
    · rw [hya] at hs
      exact absurd hs (hp.1 x hxt).ne'
    · exact ih hxt hyt hp.2

theorem sendTelemetry_tail (c : JobExecutor) (hist : History) (r : ExecutionRecord) :
    TailOk 9 (c.sendTelemetry hist r) none := by
  unfold JobExecutor.sendTelemetry
  by_cases h : (c.configMap.GetTelemetryEnabled hist).1 = true
  · simp only [h, Bool.not_true, Bool.false_eq_true, if_false, List.singleton_append, List.cons_append,
      List.nil_append]
    exact TailOk.cons _ (by simp [Effect.stage]) (by simp [Effect.stage] : _ < 10) rfl
      (TailOk.cons _ (by simp [Effect.stage]) (by simp [Effect.stage] : _ < 11) rfl
        (TailOk.cons _ (by simp [Effect.stage]) (by simp [Effect.stage] : _ < 12) rfl
          (TailOk.single _ (by simp [Effect.stage]) rfl (by simp [Effect.stage]))))
  · simp only [h, Bool.not_false, if_true]
    exact TailOk.single _ (by simp [Effect.stage]) rfl (by simp [Effect.stage])


/-- C1: when the record re-read from the repository has status `Canceled` or `Timeout`,
`stopExecution` returns nil, leaves the store (so `*execution.ExecutionResult` and `*result`) and
the execution unchanged, and its only effect is the read itself: no `EndExecution` or
`UpdateResult` write, no status update, no metric increment, no notification.  This holds
after any history, so also for a second call. -/
theorem stopExecution_canceled_or_timeout_is_noop (c : JobExecutor) (hist : History) (heap : Heap)
    (execution : Execution) (result : Ptr) (isNegativeTest : Bool) (passedErr : Option Err)
    (saved : ExecutionRecord)
    (hget : c.Repository.Get hist execution.Id = Except.ok saved)
    (hstatus : saved.ExecutionResult.Status = some ExecutionStatus.canceled ∨
      saved.ExecutionResult.Status = some ExecutionStatus.timeout) :
    (c.stopExecution hist heap execution result isNegativeTest passedErr).err = none ∧
    (c.stopExecution hist heap execution result isNegativeTest passedErr).heap = heap ∧
    (c.stopExecution hist heap execution result isNegativeTest passedErr).execution = execution ∧
    (c.stopExecution hist heap execution result isNegativeTest passedErr).events
      = [Effect.repositoryGet execution.Id (Except.ok saved)] ∧
    ∀ e ∈ (c.stopExecution hist heap execution result isNegativeTest passedErr).events,
      e.isMutation = false := by
  have hguard : (saved.IsCanceled || saved.IsTimeout) = true := by
    rcases hstatus with h | h <;>
      simp [ExecutionRecord.IsCanceled, ExecutionRecord.IsTimeout, ExecutionResult.IsCanceled,
        ExecutionResult.IsTimeout, h]
  simp [JobExecutor.stopExecution, hget, hguard, Effect.isMutation]

/-- Witness of C1: execution `e1` persisted as `Canceled`, finalized as a failed negative test. -/
theorem stopExecution_canceled_or_timeout_is_noop_witness :
    (healthyExecutor (savedRecord ExecutionStatus.canceled)).Repository.Get [] executionE1.Id
      = Except.ok (savedRecord ExecutionStatus.canceled) ∧
    ((savedRecord ExecutionStatus.canceled).ExecutionResult.Status = some ExecutionStatus.canceled ∨
      (savedRecord ExecutionStatus.canceled).ExecutionResult.Status = some ExecutionStatus.timeout) ∧
    ((healthyExecutor (savedRecord ExecutionStatus.canceled)).stopExecution []
        (twoCellHeap {} { Status := some ExecutionStatus.failed }) executionE1 1 true (some "boom")).events
      = [Effect.repositoryGet executionE1.Id (Except.ok (savedRecord ExecutionStatus.canceled))] :=
  ⟨rfl, Or.inl rfl,
    (stopExecution_canceled_or_timeout_is_noop (healthyExecutor (savedRecord ExecutionStatus.canceled)) []
      (twoCellHeap {} { Status := some ExecutionStatus.failed }) executionE1 1 true (some "boom")
      (savedRecord ExecutionStatus.canceled) rfl (Or.inl rfl)).2.2.2.1⟩

theorem TailFrom.stop {c : JobExecutor} {heap : Heap} {execution : Execution} {evt : EventType}
    {k : Nat} (x : Effect) (e : Err) (evs : List Effect) (hk : k ≤ x.stage) (h7 : x.stage < 7)
    (hf : x.failure = some e) : TailFrom c heap execution evt k [x] ⟨heap, execution, evs, some e⟩ := by
  refine ⟨TailOk.single x hk hf (by omega), rfl, rfl, ?_, ?_, ?_⟩
  · intro y hy h
    have : y = x := by simpa using hy
    subst this
    omega
  · intro y hy h
    have : y = x := by simpa using hy
    subst this
    omega
  · intro h
    simp at h

theorem TailFrom.step {c : JobExecutor} {heap : Heap} {execution : Execution} {evt : EventType}
    {k k2 : Nat} {tail : List Effect} {out : StopOutcome} (x : Effect) (hk : k ≤ x.stage)
    (hlt : x.stage < k2) (h7 : x.stage < 7) (hf : x.failure = none)
    (h : TailFrom c heap execution evt k2 tail out) : TailFrom c heap execution evt k (x :: tail) out := by
  obtain ⟨h1, h2, h3, h4, h5, h6⟩ := h
  refine ⟨TailOk.cons x hk hlt hf h1, h2, h3, ?_, ?_, ?_⟩
  · intro y hy hs
    rcases List.mem_cons.1 hy with hy | hy
    · subst hy
      omega
    · exact h4 y hy hs
  · intro y hy hs
    rcases List.mem_cons.1 hy with hy | hy
    · subst hy
      omega
    · exact h5 y hy hs
  · intro herr
    exact ⟨List.mem_cons_of_mem _ (h6 herr).1, List.mem_cons_of_mem _ (h6 herr).2⟩

theorem TailFrom.mono {c : JobExecutor} {heap : Heap} {execution : Execution} {evt : EventType}
    {k k2 : Nat} {tail : List Effect} {out : StopOutcome} (hk : k ≤ k2)
    (h : TailFrom c heap execution evt k2 tail out) : TailFrom c heap execution evt k tail out :=
  ⟨⟨h.1.1, fun x hx => le_trans hk (h.1.2.1 x hx), h.1.2.2⟩, h.2⟩

theorem stopExecutionNotify_tail (c : JobExecutor) (hist : History) (heap : Heap) (execution : Execution)
    (eventToSend : EventType) (ev : List Effect) :
    ∃ tail, (c.stopExecutionNotify hist heap execution eventToSend ev).events = ev ++ tail ∧
      TailFrom c heap execution eventToSend 7 tail
        (c.stopExecutionNotify hist heap execution eventToSend ev) := by
  refine ⟨_ :: _ :: c.sendTelemetry _ _,
    by simp only [JobExecutor.stopExecutionNotify, List.append_assoc]; rfl, ?_, rfl, rfl, ?_, ?_, ?_⟩
  · exact TailOk.cons _ (by simp [Effect.stage]) (by simp [Effect.stage] : _ < 8) rfl
      (TailOk.cons _ (by simp [Effect.stage]) (by simp [Effect.stage] : _ < 9) rfl
        (sendTelemetry_tail _ _ _))
  · intro x hx hs
    rcases List.mem_cons.1 hx with hx | hx
    · exact hx
    · rcases List.mem_cons.1 hx with hx | hx
      · subst hx
        simp [Effect.stage] at hs
      · have := (sendTelemetry_tail _ _ _).2.1 x hx
        omega
  · intro x hx hs
    rcases List.mem_cons.1 hx with hx | hx
    · subst hx
      simp [Effect.stage] at hs
    · rcases List.mem_cons.1 hx with hx | hx
      · exact hx
      · have := (sendTelemetry_tail _ _ _).2.1 x hx
        omega
  · intro _
    exact ⟨by simp, by simp⟩

theorem stopExecutionLinked_tail (c : JobExecutor) (hist : History) (heap : Heap) (execution : Execution)
    (eventToSend : EventType) (ev : List Effect) :
    ∃ tail, (c.stopExecutionLinked hist heap execution eventToSend ev).events = ev ++ tail ∧
      TailFrom c heap execution eventToSend 5 tail
        (c.stopExecutionLinked hist heap execution eventToSend ev) := by
  unfold JobExecutor.stopExecutionLinked
  by_cases hn : (execution.TestExecutionName != "") = true
  · simp only [hn, if_true]
    generalize c.testExecutionsClient.Get (hist ++ ev) execution.TestExecutionName = gotTE
    cases gotTE with
    | error e =>
      refine ⟨[_], rfl, ?_⟩
      exact TailFrom.stop _ e _ (by simp [Effect.stage]) (by simp [Effect.stage]) rfl
    | ok te =>
      simp only []
      generalize c.testExecutionsClient.UpdateStatus _ _ = upd
      cases upd with
      | some e =>
        refine ⟨[_, _], by simp only [List.append_assoc]; rfl, ?_⟩
        exact TailFrom.step _ (by simp [Effect.stage]) (by simp [Effect.stage] : _ < 6)
          (by simp [Effect.stage]) rfl
          (TailFrom.stop _ e _ (by simp [Effect.stage]) (by simp [Effect.stage]) rfl)
      | none =>
        obtain ⟨tail, h1, h2⟩ := stopExecutionNotify_tail c hist heap execution eventToSend
          (ev ++ [Effect.testExecutionsGet execution.TestExecutionName (Except.ok te)] ++
            [Effect.testExecutionsUpdateStatus
              { te with Status := MapAPIToCRD (execution.snap heap) te.Generation } none])
        refine ⟨_ :: _ :: tail, by simp only []; rw [h1]; simp only [List.append_assoc]; rfl, ?_⟩
        exact TailFrom.step _ (by simp [Effect.stage]) (by simp [Effect.stage] : _ < 6)
          (by simp [Effect.stage]) rfl
          (TailFrom.step _ (by simp [Effect.stage]) (by simp [Effect.stage] : _ < 7)
            (by simp [Effect.stage]) rfl h2)
  · simp only [hn]
    obtain ⟨tail, h1, h2⟩ := stopExecutionNotify_tail c hist heap execution eventToSend ev
    exact ⟨tail, h1, h2.mono (by decide)⟩

theorem stopExecutionPropagate_tail (c : JobExecutor) (hist : History) (heap : Heap) (execution : Execution)
    (eventToSend : EventType) (ev : List Effect) :
    ∃ tail, (c.stopExecutionPropagate hist heap execution eventToSend ev).events = ev ++ tail ∧
      TailFrom c heap execution eventToSend 3 tail
        (c.stopExecutionPropagate hist heap execution eventToSend ev) := by
  unfold JobExecutor.stopExecutionPropagate
  simp only []
  generalize c.testsClient.Get (hist ++ ev) execution.TestName = gotTest
  cases gotTest with
  | error e =>
    refine ⟨[_], rfl, ?_⟩
    exact TailFrom.stop _ e _ (by simp [Effect.stage]) (by simp [Effect.stage]) rfl
  | ok test =>
    simp only []
    generalize c.testsClient.UpdateStatus _ _ = upd
    cases upd with
    | some e =>
      refine ⟨[_, _], by simp only [List.append_assoc]; rfl, ?_⟩
      exact TailFrom.step _ (by simp [Effect.stage]) (by simp [Effect.stage] : _ < 4)
        (by simp [Effect.stage]) rfl
        (TailFrom.stop _ e _ (by simp [Effect.stage]) (by simp [Effect.stage]) rfl)
    | none =>
      obtain ⟨tail, h1, h2⟩ := stopExecutionLinked_tail c hist heap execution eventToSend
        (ev ++ [Effect.testsGet execution.TestName (Except.ok test)] ++
          [Effect.testsUpdateStatus
            { test with Status := MapExecutionToTestStatus (execution.snap heap) } none])
      refine ⟨_ :: _ :: tail, by simp only []; rw [h1]; simp only [List.append_assoc]; rfl, ?_⟩
      exact TailFrom.step _ (by simp [Effect.stage]) (by simp [Effect.stage] : _ < 4)
        (by simp [Effect.stage]) rfl
        (TailFrom.step _ (by simp [Effect.stage]) (by simp [Effect.stage] : _ < 5)
          (by simp [Effect.stage]) rfl h2)

theorem stopExecutionUpdate_spec (c : JobExecutor) (hist : History) (heap : Heap) (execution : Execution)
    (result : Ptr) (passedErr : Option Err) (ev : List Effect) :
    ∃ upd tail,
      (c.stopExecutionUpdate hist heap execution result passedErr ev).events
        = ev ++ Effect.repositoryUpdateResult execution.Id
            (Execution.snap { execution with ExecutionResult := result }
              (selectEvent (recordPassedErr heap result passedErr) result).2) upd :: tail ∧
      ((∃ e, upd = some e ∧ tail = [] ∧
          (c.stopExecutionUpdate hist heap execution result passedErr ev).err = some e) ∨
        (upd = none ∧
          TailFrom c (selectEvent (recordPassedErr heap result passedErr) result).2
            { execution with ExecutionResult := result }
            (selectEvent (recordPassedErr heap result passedErr) result).1 3 tail
            (c.stopExecutionUpdate hist heap execution result passedErr ev))) := by
  unfold JobExecutor.stopExecutionUpdate
  simp only []
  generalize c.Repository.UpdateResult _ _ _ = upd
  cases upd with
  | some e => exact ⟨some e, [], rfl, Or.inl ⟨e, rfl, rfl, rfl⟩⟩
  | none =>
    obtain ⟨tail, h1, h2⟩ := stopExecutionPropagate_tail c hist
      (selectEvent (recordPassedErr heap result passedErr) result).2
      { execution with ExecutionResult := result }
      (selectEvent (recordPassedErr heap result passedErr) result).1
      (ev ++ [Effect.repositoryUpdateResult execution.Id
        (Execution.snap { execution with ExecutionResult := result }
          (selectEvent (recordPassedErr heap result passedErr) result).2) none])
    refine ⟨none, tail, ?_, Or.inr ⟨rfl, h2⟩⟩
    simp only []
    rw [h1]
    simp only [List.append_assoc]
    rfl

theorem stopExecutionUpdate_tail (c : JobExecutor) (hist : History) (heap : Heap) (execution : Execution)
    (result : Ptr) (passedErr : Option Err) (ev : List Effect) :
    ∃ tail, (c.stopExecutionUpdate hist heap execution result passedErr ev).events = ev ++ tail ∧
      TailOk 2 tail (c.stopExecutionUpdate hist heap execution result passedErr ev).err := by
  obtain ⟨upd, tail, h1, h2⟩ := stopExecutionUpdate_spec c hist heap execution result passedErr ev
  refine ⟨_, h1, ?_⟩
  rcases h2 with ⟨e, rfl, rfl, herr⟩ | ⟨rfl, h⟩
  · rw [herr]
    exact TailOk.single _ (by simp [Effect.stage]) rfl (by simp [Effect.stage])
  · exact TailOk.cons _ (by simp [Effect.stage]) (by simp [Effect.stage] : _ < 3) rfl h.1

theorem stopExecutionEnd_spec (c : JobExecutor) (hist : History) (heap : Heap) (execution : Execution)
    (result : Ptr) (isNegativeTest : Bool) (passedErr : Option Err) (ev : List Effect) :
    ∃ ended,
      (ended = none →
        c.stopExecutionEnd hist heap execution result isNegativeTest passedErr ev
          = c.stopExecutionUpdate hist
              (negativeTestStep heap (execution.Stop (c.runtime.timeNow (hist ++ ev))) result isNegativeTest)
              (execution.Stop (c.runtime.timeNow (hist ++ ev))) result passedErr
              (ev ++ [Effect.repositoryEndExecution
                ((execution.Stop (c.runtime.timeNow (hist ++ ev))).snap
                  (negativeTestStep heap (execution.Stop (c.runtime.timeNow (hist ++ ev))) result
                    isNegativeTest)) none])) ∧
      (∀ e, ended = some e →
        c.stopExecutionEnd hist heap execution result isNegativeTest passedErr ev
          = ⟨negativeTestStep heap (execution.Stop (c.runtime.timeNow (hist ++ ev))) result isNegativeTest,
              execution.Stop (c.runtime.timeNow (hist ++ ev)),
              ev ++ [Effect.repositoryEndExecution
                ((execution.Stop (c.runtime.timeNow (hist ++ ev))).snap
                  (negativeTestStep heap (execution.Stop (c.runtime.timeNow (hist ++ ev))) result
                    isNegativeTest)) (some e)], some e⟩) := by
  unfold JobExecutor.stopExecutionEnd
  simp only []
  generalize c.Repository.EndExecution _ _ = ended
  cases ended with
  | some e => exact ⟨some e, fun h => by simp at h, fun e2 h => by cases h; rfl⟩
  | none => exact ⟨none, fun _ => rfl, fun e h => by simp at h⟩

theorem stopExecutionEnd_tail (c : JobExecutor) (hist : History) (heap : Heap) (execution : Execution)
    (result : Ptr) (isNegativeTest : Bool) (passedErr : Option Err) (ev : List Effect) :
    ∃ tail, (c.stopExecutionEnd hist heap execution result isNegativeTest passedErr ev).events = ev ++ tail ∧
      TailOk 1 tail (c.stopExecutionEnd hist heap execution result isNegativeTest passedErr ev).err := by
  obtain ⟨ended, hnone, hsome⟩ := stopExecutionEnd_spec c hist heap execution result isNegativeTest passedErr ev
  cases ended with
  | some e =>
    rw [hsome e rfl]
    exact ⟨[_], rfl, TailOk.single _ (by simp [Effect.stage]) rfl (by simp [Effect.stage])⟩
  | none =>
    rw [hnone rfl]
    obtain ⟨tail, h1, h2⟩ := stopExecutionUpdate_tail c hist
      (negativeTestStep heap (execution.Stop (c.runtime.timeNow (hist ++ ev))) result isNegativeTest)
      (execution.Stop (c.runtime.timeNow (hist ++ ev))) result passedErr
      (ev ++ [Effect.repositoryEndExecution
        ((execution.Stop (c.runtime.timeNow (hist ++ ev))).snap
          (negativeTestStep heap (execution.Stop (c.runtime.timeNow (hist ++ ev))) result
            isNegativeTest)) none])
    refine ⟨_ :: tail, by rw [h1]; simp only [List.append_assoc]; rfl, ?_⟩
    exact TailOk.cons _ (by simp [Effect.stage]) (by simp [Effect.stage] : _ < 2) rfl h2

/-- The effects of every run of `stopExecution` come in the fixed order of its steps, only the
last call may have failed, and the error returned is the error of that call. -/
theorem stopExecution_trace (c : JobExecutor) (hist : History) (heap : Heap) (execution : Execution)
    (result : Ptr) (isNegativeTest : Bool) (passedErr : Option Err) :
    TailOk 0 (c.stopExecution hist heap execution result isNegativeTest passedErr).events
      (c.stopExecution hist heap execution result isNegativeTest passedErr).err := by
  unfold JobExecutor.stopExecution
  simp only []
  generalize c.Repository.Get hist execution.Id = got
  cases got with
  | error e => exact TailOk.single _ (by simp [Effect.stage]) rfl (by simp [Effect.stage])
  | ok saved =>
    simp only []
    by_cases hg : (saved.IsCanceled || saved.IsTimeout) = true
    · simp only [hg, if_true]
      exact TailOk.single _ (by simp [Effect.stage]) rfl (by simp [Effect.stage])
    · simp only [hg, Bool.false_eq_true, if_false]
      obtain ⟨tail, h1, h2⟩ := stopExecutionEnd_tail c hist heap execution result isNegativeTest passedErr
        [Effect.repositoryGet execution.Id (Except.ok saved)]
      rw [h1]
      exact TailOk.cons _ (by simp [Effect.stage]) (by simp [Effect.stage] : _ < 1) rfl h2

theorem guard_iff (saved : ExecutionRecord) :
    (saved.IsCanceled || saved.IsTimeout) = true ↔
      (saved.ExecutionResult.Status = some ExecutionStatus.canceled ∨
        saved.ExecutionResult.Status = some ExecutionStatus.timeout) := by
  simp [ExecutionRecord.IsCanceled, ExecutionRecord.IsTimeout, ExecutionResult.IsCanceled,
    ExecutionResult.IsTimeout]

/-- When the persisted record is neither `Canceled` nor `Timeout`, `stopExecution` is its steps
from the end timestamp on, run after the read. -/
theorem stopExecution_unguarded (c : JobExecutor) (hist : History) (heap : Heap) (execution : Execution)
    (result : Ptr) (isNegativeTest : Bool) (passedErr : Option Err) (saved : ExecutionRecord)
    (hget : c.Repository.Get hist execution.Id = Except.ok saved)
    (hc : saved.ExecutionResult.Status ≠ some ExecutionStatus.canceled)
    (ht : saved.ExecutionResult.Status ≠ some ExecutionStatus.timeout) :
    c.stopExecution hist heap execution result isNegativeTest passedErr
      = c.stopExecutionEnd hist heap execution result isNegativeTest passedErr
          [Effect.repositoryGet execution.Id (Except.ok saved)] := by
  have hg : ¬ (saved.IsCanceled || saved.IsTimeout) = true := by
    rw [guard_iff]
    exact fun h => h.elim hc ht
  simp [JobExecutor.stopExecution, hget, hg]

/-- The runs of `stopExecution` on a persisted record that is neither `Canceled` nor `Timeout`:
the read, the first persist and, when that succeeded, the second persist followed by the status
propagation and notification steps. -/
theorem stopExecution_anatomy (c : JobExecutor) (hist : History) (heap : Heap) (execution : Execution)
    (result : Ptr) (isNegativeTest : Bool) (passedErr : Option Err) (saved : ExecutionRecord)
    (hget : c.Repository.Get hist execution.Id = Except.ok saved)
    (hc : saved.ExecutionResult.Status ≠ some ExecutionStatus.canceled)
    (ht : saved.ExecutionResult.Status ≠ some ExecutionStatus.timeout) :
    (∃ e, (c.stopExecution hist heap execution result isNegativeTest passedErr).events
          = [Effect.repositoryGet execution.Id (Except.ok saved),
             Effect.repositoryEndExecution
               (c.endedRecord hist heap execution result isNegativeTest saved) (some e)] ∧
        (c.stopExecution hist heap execution result isNegativeTest passedErr).err = some e) ∨
    (∃ upd tail, (c.stopExecution hist heap execution result isNegativeTest passedErr).events
          = Effect.repositoryGet execution.Id (Except.ok saved) ::
            Effect.repositoryEndExecution
              (c.endedRecord hist heap execution result isNegativeTest saved) none ::
            Effect.repositoryUpdateResult execution.Id
              (c.updatedRecord hist heap execution result isNegativeTest passedErr saved) upd :: tail ∧
        ((∃ e, upd = some e ∧ tail = [] ∧
            (c.stopExecution hist heap execution result isNegativeTest passedErr).err = some e) ∨
          (upd = none ∧
            TailFrom c (c.finalHeap hist heap execution result isNegativeTest passedErr saved)
              (c.finalExecution hist execution result saved)
              (c.finalEvent hist heap execution result isNegativeTest passedErr saved) 3 tail
              (c.stopExecution hist heap execution result isNegativeTest passedErr)))) := by
  rw [stopExecution_unguarded c hist heap execution result isNegativeTest passedErr saved hget hc ht]
  obtain ⟨ended, hnone, hsome⟩ := stopExecutionEnd_spec c hist heap execution result isNegativeTest
    passedErr [Effect.repositoryGet execution.Id (Except.ok saved)]
  cases ended with
  | some e =>
    left
    rw [hsome e rfl]
    exact ⟨e, rfl, rfl⟩
  | none =>
    right
    rw [hnone rfl]
    obtain ⟨upd, tail, h1, h2⟩ := stopExecutionUpdate_spec c hist
      (negativeTestStep heap (c.endedExecution hist execution saved) result isNegativeTest)
      (c.endedExecution hist execution saved) result passedErr
      ([Effect.repositoryGet execution.Id (Except.ok saved)] ++ [Effect.repositoryEndExecution
        (c.endedRecord hist heap execution result isNegativeTest saved) none])
    exact ⟨upd, tail, h1, h2⟩

theorem Heap.read_write_same (h : Heap) (p : Ptr) (v : ExecutionResult) : (h.write p v).read p = v := by
  simp [Heap.read, Heap.write]

theorem Heap.read_write_ne (h : Heap) {p q : Ptr} (v : ExecutionResult) (hne : q ≠ p) :
    (h.write p v).read q = h.read q := by
  simp [Heap.read, Heap.write, Function.update_noteq hne]

theorem negativeTestStep_status (heap : Heap) (execution : Execution) (result : Ptr)
    (isNegativeTest : Bool) :
    ((negativeTestStep heap execution result isNegativeTest).read result).Status
      = specFinalStatus isNegativeTest (heap.read result).Status := by
  unfold negativeTestStep specFinalStatus
  cases isNegativeTest with
  | false => simp
  | true =>
    by_cases hf : (heap.read result).Status = some ExecutionStatus.failed
    · simp [ExecutionResult.IsFailed, hf, Heap.read_write_same]
    · simp [ExecutionResult.IsFailed, hf, Heap.read_write_same]

theorem selectEvent_status (heap : Heap) (result : Ptr) :
    ((selectEvent heap result).2.read result).Status = (heap.read result).Status := by
  unfold selectEvent
  split
  · simp [Heap.read_write_same]
  · split
    · simp [Heap.read_write_same]
    · split <;> rfl

theorem selectEvent_errorMessage (heap : Heap) (result : Ptr) :
    ((selectEvent heap result).2.read result).ErrorMessage = (heap.read result).ErrorMessage := by
  unfold selectEvent
  split
  · simp [Heap.read_write_same]
  · split
    · simp [Heap.read_write_same]
    · split <;> rfl

theorem selectEvent_type (heap : Heap) (result : Ptr) :
    (selectEvent heap result).1 = specEventType (heap.read result).Status := by
  unfold selectEvent specEventType
  simp only [ExecutionResult.IsAborted, ExecutionResult.IsTimeout, ExecutionResult.IsFailed, beq_iff_eq]
  split
  · rfl
  · split
    · rfl
    · split <;> rfl

theorem updatedRecord_result (c : JobExecutor) (hist : History) (heap : Heap) (execution : Execution)
    (result : Ptr) (isNegativeTest : Bool) (passedErr : Option Err) (saved : ExecutionRecord) :
    (c.updatedRecord hist heap execution result isNegativeTest passedErr saved).ExecutionResult
      = (c.finalHeap hist heap execution result isNegativeTest passedErr saved).read result := rfl

theorem finalEvent_eq (c : JobExecutor) (hist : History) (heap : Heap) (execution : Execution)
    (result : Ptr) (isNegativeTest : Bool) (passedErr : Option Err) (saved : ExecutionRecord) :
    c.finalEvent hist heap execution result isNegativeTest passedErr saved
      = specEventType
          (c.updatedRecord hist heap execution result isNegativeTest passedErr saved).ExecutionResult.Status := by
  rw [updatedRecord_result]
  unfold JobExecutor.finalEvent JobExecutor.finalHeap
  rw [selectEvent_type, selectEvent_status]

theorem updatedRecord_status_of_no_error (c : JobExecutor) (hist : History) (heap : Heap)
    (execution : Execution) (result : Ptr) (isNegativeTest : Bool) (saved : ExecutionRecord) :
    (c.updatedRecord hist heap execution result isNegativeTest none saved).ExecutionResult.Status
      = specFinalStatus isNegativeTest (heap.read result).Status := by
  rw [updatedRecord_result]
  unfold JobExecutor.finalHeap
  rw [selectEvent_status]
  simp only [recordPassedErr]
  exact negativeTestStep_status _ _ _ _

theorem updatedRecord_of_error (c : JobExecutor) (hist : History) (heap : Heap)
    (execution : Execution) (result : Ptr) (isNegativeTest : Bool) (e : Err) (saved : ExecutionRecord) :
    (c.updatedRecord hist heap execution result isNegativeTest (some e) saved).ExecutionResult.Status
        = some ExecutionStatus.failed ∧
      (c.updatedRecord hist heap execution result isNegativeTest (some e) saved).ExecutionResult.ErrorMessage
        = e := by
  rw [updatedRecord_result]
  unfold JobExecutor.finalHeap
  rw [selectEvent_status, selectEvent_errorMessage]
  simp [recordPassedErr, Heap.read_write_same, ExecutionResult.Err]

/-- A run of `stopExecution` either consists of the read alone (the read failed, or the guard
returned) or goes on from a persisted record that is neither `Canceled` nor `Timeout`. -/
theorem stopExecution_cases (c : JobExecutor) (hist : History) (heap : Heap) (execution : Execution)
    (result : Ptr) (isNegativeTest : Bool) (passedErr : Option Err) :
    (∃ got, (c.stopExecution hist heap execution result isNegativeTest passedErr).events
        = [Effect.repositoryGet execution.Id got]) ∨
    (∃ saved, c.Repository.Get hist execution.Id = Except.ok saved ∧
      saved.ExecutionResult.Status ≠ some ExecutionStatus.canceled ∧
      saved.ExecutionResult.Status ≠ some ExecutionStatus.timeout) := by
  cases hget : c.Repository.Get hist execution.Id with
  | error e =>
    left
    exact ⟨Except.error e, by simp [JobExecutor.stopExecution, hget]⟩
  | ok saved =>
    by_cases hg : (saved.IsCanceled || saved.IsTimeout) = true
    · left
      exact ⟨Except.ok saved, by simp [JobExecutor.stopExecution, hget, hg]⟩
    · right
      rw [guard_iff] at hg
      exact ⟨saved, rfl, fun h => hg (Or.inl h), fun h => hg (Or.inr h)⟩

/-- On a persisted record that is neither `Canceled` nor `Timeout`, the only record a run hands to
`UpdateResult` is `updatedRecord`, under the execution's id. -/
theorem stopExecution_update_mem (c : JobExecutor) (hist : History) (heap : Heap) (execution : Execution)
    (result : Ptr) (isNegativeTest : Bool) (passedErr : Option Err) (saved : ExecutionRecord)
    (hget : c.Repository.Get hist execution.Id = Except.ok saved)
    (hc : saved.ExecutionResult.Status ≠ some ExecutionStatus.canceled)
    (ht : saved.ExecutionResult.Status ≠ some ExecutionStatus.timeout)
    {id : String} {r : ExecutionRecord} {upd : Option Err}
    (hmem : Effect.repositoryUpdateResult id r upd ∈
      (c.stopExecution hist heap execution result isNegativeTest passedErr).events) :
    id = execution.Id ∧ r = c.updatedRecord hist heap execution result isNegativeTest passedErr saved := by
  rcases stopExecution_anatomy c hist heap execution result isNegativeTest passedErr saved hget hc ht with
    ⟨e, hev, _⟩ | ⟨upd2, tail, hev, h⟩
  · rw [hev] at hmem
    simp at hmem
  · rw [hev] at hmem
    simp only [List.mem_cons, reduceCtorEq, false_or, Effect.repositoryUpdateResult.injEq] at hmem
    rcases hmem with ⟨h1, h2, _⟩ | hmem
    · exact ⟨h1, h2⟩
    · rcases h with ⟨e, _, rfl, _⟩ | ⟨_, htail⟩
      · simp at hmem
      · have := htail.1.2.1 _ hmem
        simp [Effect.stage] at this

/-- On a persisted record that is neither `Canceled` nor `Timeout`, a run whose first persist
succeeded performs the second persist. -/
theorem stopExecution_update_of_end (c : JobExecutor) (hist : History) (heap : Heap) (execution : Execution)
    (result : Ptr) (isNegativeTest : Bool) (passedErr : Option Err) (saved : ExecutionRecord)
    (hget : c.Repository.Get hist execution.Id = Except.ok saved)
    (hc : saved.ExecutionResult.Status ≠ some ExecutionStatus.canceled)
    (ht : saved.ExecutionResult.Status ≠ some ExecutionStatus.timeout)
    {r : ExecutionRecord}
    (hmem : Effect.repositoryEndExecution r none ∈
      (c.stopExecution hist heap execution result isNegativeTest passedErr).events) :
    ∃ upd, Effect.repositoryUpdateResult execution.Id
      (c.updatedRecord hist heap execution result isNegativeTest passedErr saved) upd ∈
      (c.stopExecution hist heap execution result isNegativeTest passedErr).events := by
  rcases stopExecution_anatomy c hist heap execution result isNegativeTest passedErr saved hget hc ht with
    ⟨e, hev, _⟩ | ⟨upd2, tail, hev, _⟩
  · rw [hev] at hmem
    simp at hmem
  · exact ⟨upd2, by rw [hev]; simp⟩

/-- On a persisted record that is neither `Canceled` nor `Timeout`, the only event a run emits is
the chosen one, pointing to the record of the second persist. -/
theorem stopExecution_notify_mem (c : JobExecutor) (hist : History) (heap : Heap) (execution : Execution)
    (result : Ptr) (isNegativeTest : Bool) (passedErr : Option Err) (saved : ExecutionRecord)
    (hget : c.Repository.Get hist execution.Id = Except.ok saved)
    (hc : saved.ExecutionResult.Status ≠ some ExecutionStatus.canceled)
    (ht : saved.ExecutionResult.Status ≠ some ExecutionStatus.timeout)
    {n : Event}
    (hmem : Effect.notify n ∈ (c.stopExecution hist heap execution result isNegativeTest passedErr).events) :
    n = ⟨c.finalEvent hist heap execution result isNegativeTest passedErr saved,
      c.updatedRecord hist heap execution result isNegativeTest passedErr saved⟩ := by
  rcases stopExecution_anatomy c hist heap execution result isNegativeTest passedErr saved hget hc ht with
    ⟨e, hev, _⟩ | ⟨upd2, tail, hev, h⟩
  · rw [hev] at hmem
    simp at hmem
  · rw [hev] at hmem
    simp only [List.mem_cons, reduceCtorEq, false_or] at hmem
    rcases h with ⟨e, _, rfl, _⟩ | ⟨_, htail⟩
    · simp at hmem
    · have := htail.2.2.2.2.1 _ hmem (by simp [Effect.stage])
      simpa using this

/-- On a persisted record that is neither `Canceled` nor `Timeout`, a run that returns nil has
incremented the metric and emitted the chosen event. -/
theorem stopExecution_notify_of_ok (c : JobExecutor) (hist : History) (heap : Heap) (execution : Execution)
    (result : Ptr) (isNegativeTest : Bool) (passedErr : Option Err) (saved : ExecutionRecord)
    (hget : c.Repository.Get hist execution.Id = Except.ok saved)
    (hc : saved.ExecutionResult.Status ≠ some ExecutionStatus.canceled)
    (ht : saved.ExecutionResult.Status ≠ some ExecutionStatus.timeout)
    (herr : (c.stopExecution hist heap execution result isNegativeTest passedErr).err = none) :
    Effect.incExecuteTest (c.updatedRecord hist heap execution result isNegativeTest passedErr saved)
        c.dashboardURI ∈ (c.stopExecution hist heap execution result isNegativeTest passedErr).events ∧
    Effect.notify ⟨c.finalEvent hist heap execution result isNegativeTest passedErr saved,
        c.updatedRecord hist heap execution result isNegativeTest passedErr saved⟩ ∈
      (c.stopExecution hist heap execution result isNegativeTest passedErr).events := by
  rcases stopExecution_anatomy c hist heap execution result isNegativeTest passedErr saved hget hc ht with
    ⟨e, _, he⟩ | ⟨upd2, tail, hev, h⟩
  · rw [he] at herr
    simp at herr
  · rcases h with ⟨e, _, _, he⟩ | ⟨_, htail⟩
    · rw [he] at herr
      simp at herr
    · have := htail.2.2.2.2.2 herr
      rw [hev]
      exact ⟨List.mem_cons_of_mem _ (List.mem_cons_of_mem _ (List.mem_cons_of_mem _ this.1)),
        List.mem_cons_of_mem _ (List.mem_cons_of_mem _ (List.mem_cons_of_mem _ this.2))⟩

/-! ### Claims on `stopExecution` -/

/-- C2, as stated, fails: on a persisted record of terminal status `Passed`, a later forced
timeout finalization (`result` of status `Timeout`) writes twice, and the second write carries
status `Timeout`. -/
theorem stopExecution_terminal_passed_is_overwritten :
    (healthyExecutor (savedRecord ExecutionStatus.passed)).Repository.Get [] executionE1.Id
      = Except.ok (savedRecord ExecutionStatus.passed) ∧
    ExecutionStatus.passed.isTerminal = true ∧
    persistedStatuses ((healthyExecutor (savedRecord ExecutionStatus.passed)).stopExecution []
      (twoCellHeap { Status := some ExecutionStatus.passed } { Status := some ExecutionStatus.timeout })
      executionE1 1 false none).events
      = [some ExecutionStatus.passed, some ExecutionStatus.timeout] := by
  decide

/-- C2, amended: a `stopExecution` call whose read succeeds is a no-op on the repository exactly
when the persisted record is `Canceled` or `Timeout`; on every other persisted status, terminal
or not, it goes on to the first persist. -/
theorem stopExecution_repository_noop_iff (c : JobExecutor) (hist : History) (heap : Heap)
    (execution : Execution) (result : Ptr) (isNegativeTest : Bool) (passedErr : Option Err)
    (saved : ExecutionRecord)
    (hget : c.Repository.Get hist execution.Id = Except.ok saved) :
    (∀ e ∈ (c.stopExecution hist heap execution result isNegativeTest passedErr).events,
        e.isRepositoryWrite = false) ↔
      (saved.ExecutionResult.Status = some ExecutionStatus.canceled ∨
        saved.ExecutionResult.Status = some ExecutionStatus.timeout) := by
  constructor
  · intro h
    by_contra hno
    have hc : saved.ExecutionResult.Status ≠ some ExecutionStatus.canceled := fun h => hno (Or.inl h)
    have ht : saved.ExecutionResult.Status ≠ some ExecutionStatus.timeout := fun h => hno (Or.inr h)
    rcases stopExecution_anatomy c hist heap execution result isNegativeTest passedErr saved hget hc ht with
      ⟨e, hev, _⟩ | ⟨upd, tail, hev, _⟩
    · have := h (Effect.repositoryEndExecution
        (c.endedRecord hist heap execution result isNegativeTest saved) (some e)) (by rw [hev]; simp)
      simp [Effect.isRepositoryWrite] at this
    · have := h (Effect.repositoryEndExecution
        (c.endedRecord hist heap execution result isNegativeTest saved) none) (by rw [hev]; simp)
      simp [Effect.isRepositoryWrite] at this
  · intro h
    have hg := (guard_iff saved).2 h
    simp [JobExecutor.stopExecution, hget, hg, Effect.isRepositoryWrite]

/-- Witness of amended C2: on a record persisted as `Timeout` the run writes nothing. -/
theorem stopExecution_repository_noop_iff_witness :
    (healthyExecutor (savedRecord ExecutionStatus.timeout)).Repository.Get [] executionE1.Id
      = Except.ok (savedRecord ExecutionStatus.timeout) ∧
    ((∀ e ∈ ((healthyExecutor (savedRecord ExecutionStatus.timeout)).stopExecution []
        (twoCellHeap {} { Status := some ExecutionStatus.passed }) executionE1 1 false none).events,
        e.isRepositoryWrite = false) ↔
      ((savedRecord ExecutionStatus.timeout).ExecutionResult.Status = some ExecutionStatus.canceled ∨
        (savedRecord ExecutionStatus.timeout).ExecutionResult.Status = some ExecutionStatus.timeout)) :=
  ⟨rfl, stopExecution_repository_noop_iff (healthyExecutor (savedRecord ExecutionStatus.timeout)) []
    (twoCellHeap {} { Status := some ExecutionStatus.passed }) executionE1 1 false none
    (savedRecord ExecutionStatus.timeout) rfl⟩

/-- C3: on a persisted record that is neither `Canceled` nor `Timeout` and with no `passedErr`,
a run whose first persist succeeded performs the second persist (`UpdateResult`), and the status
of every record it hands to `UpdateResult` is `Passed` for a negative test whose raw result was
`Failed`, `Failed` for a negative test whose raw result was anything else, and the raw status of
`result` for a test that is not negative. -/
theorem stopExecution_final_status (c : JobExecutor) (hist : History) (heap : Heap)
    (execution : Execution) (result : Ptr) (isNegativeTest : Bool) (saved : ExecutionRecord)
    (hget : c.Repository.Get hist execution.Id = Except.ok saved)
    (hc : saved.ExecutionResult.Status ≠ some ExecutionStatus.canceled)
    (ht : saved.ExecutionResult.Status ≠ some ExecutionStatus.timeout) :
    (∀ r, Effect.repositoryEndExecution r none ∈
        (c.stopExecution hist heap execution result isNegativeTest none).events →
      ∃ r2 upd, Effect.repositoryUpdateResult execution.Id r2 upd ∈
        (c.stopExecution hist heap execution result isNegativeTest none).events) ∧
    (∀ id r upd, Effect.repositoryUpdateResult id r upd ∈
        (c.stopExecution hist heap execution result isNegativeTest none).events →
      (isNegativeTest = true → (heap.read result).Status = some ExecutionStatus.failed →
        r.ExecutionResult.Status = some ExecutionStatus.passed) ∧
      (isNegativeTest = true → (heap.read result).Status ≠ some ExecutionStatus.failed →
        r.ExecutionResult.Status = some ExecutionStatus.failed) ∧
      (isNegativeTest = false → r.ExecutionResult.Status = (heap.read result).Status)) := by
  refine ⟨fun r hr => ?_, fun id r upd hr => ?_⟩
  · obtain ⟨upd, h⟩ := stopExecution_update_of_end c hist heap execution result isNegativeTest none saved
      hget hc ht hr
    exact ⟨_, upd, h⟩
  · obtain ⟨_, rfl⟩ := stopExecution_update_mem c hist heap execution result isNegativeTest none saved
      hget hc ht hr
    rw [updatedRecord_status_of_no_error]
    refine ⟨fun hn hf => ?_, fun hn hf => ?_, fun hn => ?_⟩
    · simp [specFinalStatus, hn, hf]
    · simp [specFinalStatus, hn, hf]
    · simp [specFinalStatus, hn]

/-- Witness of C3: the negative test `e1` whose raw result is `Failed` is persisted as `Passed`. -/
theorem stopExecution_final_status_witness :
    (healthyExecutor (savedRecord ExecutionStatus.running)).Repository.Get [] executionE1.Id
      = Except.ok (savedRecord ExecutionStatus.running) ∧
    Effect.repositoryUpdateResult "e1"
        (finalizedE1 ExecutionStatus.passed
          "\nTest run was expected to fail, and it failed as expected") none ∈
      ((healthyExecutor (savedRecord ExecutionStatus.running)).stopExecution []
        (twoCellHeap { Status := some ExecutionStatus.failed } {}) executionE1 0 true none).events ∧
    ((twoCellHeap { Status := some ExecutionStatus.failed } {}).read 0).Status
      = some ExecutionStatus.failed ∧
    (finalizedE1 ExecutionStatus.passed
      "\nTest run was expected to fail, and it failed as expected").ExecutionResult.Status
      = some ExecutionStatus.passed :=
  ⟨rfl, by decide, by decide,
    ((stopExecution_final_status (healthyExecutor (savedRecord ExecutionStatus.running)) []
      (twoCellHeap { Status := some ExecutionStatus.failed } {}) executionE1 0 true
      (savedRecord ExecutionStatus.running) rfl (by decide) (by decide)).2 "e1"
        (finalizedE1 ExecutionStatus.passed
          "\nTest run was expected to fail, and it failed as expected") none
        (by decide)).1 rfl (by decide)⟩

/-- C4, as stated, fails: for the negative test `e1` whose raw result is `Failed`, step 3 sets
status `Passed` (the status the first persist carries), and with a `passedErr` the second persist
carries status `Failed`. -/
theorem stopExecution_passedErr_changes_status :
    ((negativeTestStep (twoCellHeap { Status := some ExecutionStatus.failed } {}) executionE1 0 true).read
      0).Status = some ExecutionStatus.passed ∧
    persistedStatuses ((healthyExecutor (savedRecord ExecutionStatus.running)).stopExecution []
      (twoCellHeap { Status := some ExecutionStatus.failed } {}) executionE1 0 true
      (some "logs unavailable")).events
      = [some ExecutionStatus.passed, some ExecutionStatus.failed] := by
  decide

/-- C4, amended: on a persisted record that is neither `Canceled` nor `Timeout` and with a
`passedErr` of message `e`, a run whose first persist succeeded performs the second persist, and
every record it hands to `UpdateResult` has `e` as error message and status `Failed`, whatever
status step 3 had set. -/
theorem stopExecution_passedErr_marks_failed (c : JobExecutor) (hist : History) (heap : Heap)
    (execution : Execution) (result : Ptr) (isNegativeTest : Bool) (e : Err) (saved : ExecutionRecord)
    (hget : c.Repository.Get hist execution.Id = Except.ok saved)
    (hc : saved.ExecutionResult.Status ≠ some ExecutionStatus.canceled)
    (ht : saved.ExecutionResult.Status ≠ some ExecutionStatus.timeout) :
    (∀ r, Effect.repositoryEndExecution r none ∈
        (c.stopExecution hist heap execution result isNegativeTest (some e)).events →
      ∃ r2 upd, Effect.repositoryUpdateResult execution.Id r2 upd ∈
        (c.stopExecution hist heap execution result isNegativeTest (some e)).events) ∧
    (∀ id r upd, Effect.repositoryUpdateResult id r upd ∈
        (c.stopExecution hist heap execution result isNegativeTest (some e)).events →
      r.ExecutionResult.ErrorMessage = e ∧ r.ExecutionResult.Status = some ExecutionStatus.failed) := by
  refine ⟨fun r hr => ?_, fun id r upd hr => ?_⟩
  · obtain ⟨upd, h⟩ := stopExecution_update_of_end c hist heap execution result isNegativeTest (some e)
      saved hget hc ht hr
    exact ⟨_, upd, h⟩
  · obtain ⟨_, rfl⟩ := stopExecution_update_mem c hist heap execution result isNegativeTest (some e) saved
      hget hc ht hr
    exact ⟨(updatedRecord_of_error c hist heap execution result isNegativeTest e saved).2,
      (updatedRecord_of_error c hist heap execution result isNegativeTest e saved).1⟩

/-- Witness of amended C4: the non-negative execution `e1` with raw result `Passed` and a
`passedErr`. -/
theorem stopExecution_passedErr_marks_failed_witness :
    (healthyExecutor (savedRecord ExecutionStatus.running)).Repository.Get [] executionE1.Id
      = Except.ok (savedRecord ExecutionStatus.running) ∧
    persistedStatuses ((healthyExecutor (savedRecord ExecutionStatus.running)).stopExecution []
      (twoCellHeap { Status := some ExecutionStatus.passed } {}) executionE1 0 false
      (some "logs unavailable")).events
      = [some ExecutionStatus.passed, some ExecutionStatus.failed] ∧
    (∀ id r upd, Effect.repositoryUpdateResult id r upd ∈
        ((healthyExecutor (savedRecord ExecutionStatus.running)).stopExecution []
          (twoCellHeap { Status := some ExecutionStatus.passed } {}) executionE1 0 false
          (some "logs unavailable")).events →
      r.ExecutionResult.ErrorMessage = "logs unavailable" ∧
        r.ExecutionResult.Status = some ExecutionStatus.failed) :=
  ⟨rfl, by decide,
    (stopExecution_passedErr_marks_failed (healthyExecutor (savedRecord ExecutionStatus.running)) []
      (twoCellHeap { Status := some ExecutionStatus.passed } {}) executionE1 0 false "logs unavailable"
      (savedRecord ExecutionStatus.running) rfl (by decide) (by decide)).2⟩

/-- C5: the event a run of `stopExecution` emits is chosen from the final status of the result
(the status of the record handed to `UpdateResult`) with precedence `Aborted` > `Timeout` >
`Failed` > success, and it points to that record; a finalization that returns nil emits it;
the four cases give four different variants. -/
theorem stopExecution_event_by_precedence (c : JobExecutor) (hist : History) (heap : Heap)
    (execution : Execution) (result : Ptr) (isNegativeTest : Bool) (passedErr : Option Err) :
    (∀ n id r upd,
      Effect.notify n ∈ (c.stopExecution hist heap execution result isNegativeTest passedErr).events →
      Effect.repositoryUpdateResult id r upd ∈
        (c.stopExecution hist heap execution result isNegativeTest passedErr).events →
      n.TestExecution = r ∧
      n.Type_ = (if r.ExecutionResult.Status = some ExecutionStatus.aborted then EventType.endTestAborted
        else if r.ExecutionResult.Status = some ExecutionStatus.timeout then EventType.endTestTimeout
        else if r.ExecutionResult.Status = some ExecutionStatus.failed then EventType.endTestFailed
        else EventType.endTestSuccess)) ∧
    (∀ r, Effect.repositoryEndExecution r none ∈
        (c.stopExecution hist heap execution result isNegativeTest passedErr).events →
      (c.stopExecution hist heap execution result isNegativeTest passedErr).err = none →
      ∃ n, Effect.notify n ∈ (c.stopExecution hist heap execution result isNegativeTest passedErr).events) ∧
    [specEventType (some ExecutionStatus.aborted), specEventType (some ExecutionStatus.timeout),
      specEventType (some ExecutionStatus.failed), specEventType (some ExecutionStatus.passed)]
      = [EventType.endTestAborted, EventType.endTestTimeout, EventType.endTestFailed,
          EventType.endTestSuccess] ∧
    [EventType.endTestAborted, EventType.endTestTimeout, EventType.endTestFailed,
      EventType.endTestSuccess].Nodup := by
  refine ⟨?_, ?_, by decide, by decide⟩
  · intro n id r upd hn hr
    rcases stopExecution_cases c hist heap execution result isNegativeTest passedErr with
      ⟨got, hev⟩ | ⟨saved, hget, hc, ht⟩
    · rw [hev] at hn
      simp at hn
    · obtain ⟨_, rfl⟩ := stopExecution_update_mem c hist heap execution result isNegativeTest passedErr
        saved hget hc ht hr
      have h := stopExecution_notify_mem c hist heap execution result isNegativeTest passedErr
        saved hget hc ht hn
      subst h
      exact ⟨rfl, finalEvent_eq c hist heap execution result isNegativeTest passedErr saved⟩
  · intro r hr herr
    rcases stopExecution_cases c hist heap execution result isNegativeTest passedErr with
      ⟨got, hev⟩ | ⟨saved, hget, hc, ht⟩
    · rw [hev] at hr
      simp at hr
    · exact ⟨_, (stopExecution_notify_of_ok c hist heap execution result isNegativeTest passedErr
        saved hget hc ht herr).2⟩

/-- Witness of C5: the forced timeout of `e1` emits the end-test-timeout event. -/
theorem stopExecution_event_by_precedence_witness :
    Effect.notify ⟨EventType.endTestTimeout,
        finalizedE1 ExecutionStatus.timeout "\nTest run was aborted due to timeout."⟩ ∈
      ((healthyExecutor (savedRecord ExecutionStatus.running)).stopExecution []
        (twoCellHeap {} { Status := some ExecutionStatus.timeout }) executionE1 1 false none).events ∧
    Effect.repositoryUpdateResult "e1"
        (finalizedE1 ExecutionStatus.timeout "\nTest run was aborted due to timeout.") none ∈
      ((healthyExecutor (savedRecord ExecutionStatus.running)).stopExecution []
        (twoCellHeap {} { Status := some ExecutionStatus.timeout }) executionE1 1 false none).events ∧
    (finalizedE1 ExecutionStatus.timeout "\nTest run was aborted due to timeout.")
      = finalizedE1 ExecutionStatus.timeout "\nTest run was aborted due to timeout." :=
  ⟨by decide, by decide,
    ((stopExecution_event_by_precedence (healthyExecutor (savedRecord ExecutionStatus.running)) []
      (twoCellHeap {} { Status := some ExecutionStatus.timeout }) executionE1 1 false none).1
      ⟨EventType.endTestTimeout,
        finalizedE1 ExecutionStatus.timeout "\nTest run was aborted due to timeout."⟩ "e1"
      (finalizedE1 ExecutionStatus.timeout "\nTest run was aborted due to timeout.") none
      (by decide) (by decide)).1⟩

/-- C6: if the first persist (`Repository.EndExecution`) of a run fails with `e`, then
`stopExecution` returns `e` and stops there: apart from that call the run has only the read, so
no `UpdateResult`, no status update, no metric increment and no notification. -/
theorem stopExecution_first_persist_failure (c : JobExecutor) (hist : History) (heap : Heap)
    (execution : Execution) (result : Ptr) (isNegativeTest : Bool) (passedErr : Option Err)
    (r : ExecutionRecord) (e : Err)
    (hfail : Effect.repositoryEndExecution r (some e) ∈
      (c.stopExecution hist heap execution result isNegativeTest passedErr).events) :
    (c.stopExecution hist heap execution result isNegativeTest passedErr).err = some e ∧
    ∀ x ∈ (c.stopExecution hist heap execution result isNegativeTest passedErr).events,
      x = Effect.repositoryEndExecution r (some e) ∨ ∃ id got, x = Effect.repositoryGet id got := by
  have htrace := stopExecution_trace c hist heap execution result isNegativeTest passedErr
  obtain ⟨herr, hle⟩ := htrace.failed_is_last hfail rfl
  refine ⟨herr, fun x hx => ?_⟩
  have hxs := hle x hx
  cases x with
  | repositoryGet id got => exact Or.inr ⟨id, got, rfl⟩
  | repositoryEndExecution r2 res => exact Or.inl (htrace.same_stage_eq hx hfail rfl)
  | _ => simp [Effect.stage] at hxs

/-- Witness of C6: the repository of `e1` refuses the first persist. -/
theorem stopExecution_first_persist_failure_witness :
    Effect.repositoryEndExecution (finalizedE1 ExecutionStatus.passed "") (some "db down") ∈
      ((endFailingExecutor (savedRecord ExecutionStatus.running) "db down").stopExecution []
        (twoCellHeap { Status := some ExecutionStatus.passed } {}) executionE1 0 false none).events ∧
    ((endFailingExecutor (savedRecord ExecutionStatus.running) "db down").stopExecution []
        (twoCellHeap { Status := some ExecutionStatus.passed } {}) executionE1 0 false none).err
      = some "db down" :=
  ⟨by decide,
    (stopExecution_first_persist_failure (endFailingExecutor (savedRecord ExecutionStatus.running) "db down")
      [] (twoCellHeap { Status := some ExecutionStatus.passed } {}) executionE1 0 false none
      (finalizedE1 ExecutionStatus.passed "") "db down" (by decide)).1⟩

/-- C7: if in a run of `stopExecution` getting or updating the owning `Test`, or getting or
updating the linked `TestExecution`, fails with `e`, then `stopExecution` returns `e`, and the
run neither increments the execution counter nor emits the event. -/
theorem stopExecution_propagation_failure (c : JobExecutor) (hist : History) (heap : Heap)
    (execution : Execution) (result : Ptr) (isNegativeTest : Bool) (passedErr : Option Err) (e : Err)
    (hfail :
      (∃ name, Effect.testsGet name (Except.error e) ∈
        (c.stopExecution hist heap execution result isNegativeTest passedErr).events) ∨
      (∃ test, Effect.testsUpdateStatus test (some e) ∈
        (c.stopExecution hist heap execution result isNegativeTest passedErr).events) ∨
      (∃ name, Effect.testExecutionsGet name (Except.error e) ∈
        (c.stopExecution hist heap execution result isNegativeTest passedErr).events) ∨
      (∃ te, Effect.testExecutionsUpdateStatus te (some e) ∈
        (c.stopExecution hist heap execution result isNegativeTest passedErr).events)) :
    (c.stopExecution hist heap execution result isNegativeTest passedErr).err = some e ∧
    (∀ r uri, Effect.incExecuteTest r uri ∉
      (c.stopExecution hist heap execution result isNegativeTest passedErr).events) ∧
    (∀ n, Effect.notify n ∉
      (c.stopExecution hist heap execution result isNegativeTest passedErr).events) := by
  have htrace := stopExecution_trace c hist heap execution result isNegativeTest passedErr
  have key : ∃ x ∈ (c.stopExecution hist heap execution result isNegativeTest passedErr).events,
      x.failure = some e ∧ x.stage < 7 := by
    rcases hfail with ⟨n, h⟩ | ⟨t, h⟩ | ⟨n, h⟩ | ⟨t, h⟩
    · exact ⟨_, h, rfl, by simp [Effect.stage]⟩
    · exact ⟨_, h, rfl, by simp [Effect.stage]⟩
    · exact ⟨_, h, rfl, by simp [Effect.stage]⟩
    · exact ⟨_, h, rfl, by simp [Effect.stage]⟩
  obtain ⟨x, hx, hf, hs⟩ := key
  obtain ⟨herr, hle⟩ := htrace.failed_is_last hx hf
  refine ⟨herr, fun r uri hmem => ?_, fun n hmem => ?_⟩
  · have h7 : (Effect.incExecuteTest r uri).stage = 7 := rfl
    have := hle _ hmem
    omega
  · have h8 : (Effect.notify n).stage = 8 := rfl
    have := hle _ hmem
    omega

/-- Witness of C7: the `Test` resource of `e1` cannot be found. -/
theorem stopExecution_propagation_failure_witness :
    Effect.testsGet "t1" (Except.error "test not found") ∈
      ((testlessExecutor (savedRecord ExecutionStatus.running) "test not found").stopExecution []
        (twoCellHeap { Status := some ExecutionStatus.passed } {}) executionE1 0 false none).events ∧
    ((testlessExecutor (savedRecord ExecutionStatus.running) "test not found").stopExecution []
        (twoCellHeap { Status := some ExecutionStatus.passed } {}) executionE1 0 false none).err
      = some "test not found" :=
  ⟨by decide,
    (stopExecution_propagation_failure
      (testlessExecutor (savedRecord ExecutionStatus.running) "test not found")
      [] (twoCellHeap { Status := some ExecutionStatus.passed } {}) executionE1 0 false none
      "test not found" (Or.inl ⟨"t1", by decide⟩)).1⟩

/-! ### Claims on the timeout monitor -/

theorem countTimeoutCalls_append (a b : List Effect) :
    countTimeoutCalls (a ++ b) = countTimeoutCalls a + countTimeoutCalls b := by
  simp [countTimeoutCalls, List.filter_append]

theorem countTimeoutCalls_of_stage (evs : List Effect) (h : ∀ x ∈ evs, x.stage ≤ 12) :
    countTimeoutCalls evs = 0 := by
  unfold countTimeoutCalls
  rw [List.length_eq_zero, List.filter_eq_nil_iff]
  intro x hx
  have := h x hx
  cases x <;> simp [Effect.stage] at this ⊢

theorem Timeout_count (c : JobExecutor) (hist : History) (heap : Heap) (jobName : String) :
    countTimeoutCalls (c.Timeout hist heap jobName).events = 1 := by
  unfold JobExecutor.Timeout
  simp only []
  generalize c.Repository.Get _ jobName = got
  cases got with
  | error e => simp [countTimeoutCalls]
  | ok saved =>
    simp only []
    rw [countTimeoutCalls_append, countTimeoutCalls_of_stage _ (stopExecution_trace _ _ _ _ _ _ _).2.2.2]
    simp [countTimeoutCalls]

theorem monitorConditions_count (c : JobExecutor) (jobName : String) (conditions : List JobCondition) :
    ∀ (hist : History) (heap : Heap),
      countTimeoutCalls (c.monitorConditions hist heap jobName conditions).2
        = (conditions.filter (fun cd => cd.Reason == timeoutIndicator)).length := by
  induction conditions with
  | nil =>
    intro hist heap
    simp [JobExecutor.monitorConditions, countTimeoutCalls]
  | cons cd rest ih =>
    intro hist heap
    unfold JobExecutor.monitorConditions
    by_cases h : (cd.Reason == timeoutIndicator) = true
    · simp only [h, if_true, List.filter_cons_of_pos, List.length_cons]
      rw [countTimeoutCalls_append, Timeout_count, ih]
      omega
    · simp only [h, Bool.false_eq_true, if_false]
      rw [ih]
      simp [List.filter_cons, h]

theorem monitorConditions_of_no_indicator (c : JobExecutor) (jobName : String)
    (conditions : List JobCondition) (h : ∀ cd ∈ conditions, cd.Reason ≠ timeoutIndicator) :
    ∀ (hist : History) (heap : Heap), c.monitorConditions hist heap jobName conditions = (heap, []) := by
  induction conditions with
  | nil =>
    intro hist heap
    simp [JobExecutor.monitorConditions]
  | cons cd rest ih =>
    intro hist heap
    unfold JobExecutor.monitorConditions
    have h1 : (cd.Reason == timeoutIndicator) = false := by
      simpa using h cd (by simp)
    simp only [h1, Bool.false_eq_true, if_false]
    exact ih (fun x hx => h x (by simp [hx])) hist heap

/-- C8, as stated, fails: a failed job carrying two conditions of reason `DeadlineExceeded`
makes one tick of the monitor enter `Timeout` twice. -/
theorem MonitorJobForTimeout_two_deadline_conditions :
    countTimeoutCalls ((monitoredExecutor (savedRecord ExecutionStatus.running)
      [failedJob [{ Type_ := "FailureTarget", Reason := "DeadlineExceeded" },
        { Type_ := "Failed", Reason := "DeadlineExceeded" }]]).MonitorJobForTimeout [] Heap.empty "e1"
      [Wake.tick]).events = 2 := by
  decide

/-- C8, amended: on a tick where the first listed job reports no success, `Failed > 0` and a
condition of reason `DeadlineExceeded`, the monitor enters `Timeout` once for each condition of
that reason, in particular at least once, and exactly once when exactly one condition carries it,
and then stops, whatever wake-ups follow. -/
theorem MonitorJobForTimeout_deadline_exceeded (c : JobExecutor) (hist : History) (heap : Heap)
    (jobName : String) (job : Job) (others : List Job) (wakes : List Wake)
    (hlist : c.ClientSet.JobsList hist c.Namespace ("job-name=" ++ jobName)
      = Except.ok (some (job :: others)))
    (hsucc : job.Status.Succeeded = 0) (hfail : 0 < job.Status.Failed)
    (hcond : ∃ cd ∈ job.Status.Conditions, cd.Reason = "DeadlineExceeded") :
    (c.MonitorJobForTimeout hist heap jobName (Wake.tick :: wakes)).stopped = true ∧
    countTimeoutCalls (c.MonitorJobForTimeout hist heap jobName (Wake.tick :: wakes)).events
      = (job.Status.Conditions.filter (fun cd => cd.Reason == "DeadlineExceeded")).length ∧
    1 ≤ countTimeoutCalls (c.MonitorJobForTimeout hist heap jobName (Wake.tick :: wakes)).events := by
  have htick : c.monitorTick hist heap jobName
      = ⟨(c.monitorConditions (hist ++ [Effect.jobsList ("job-name=" ++ jobName)
            (Except.ok (some (job :: others)))]) heap jobName job.Status.Conditions).1,
          [Effect.jobsList ("job-name=" ++ jobName) (Except.ok (some (job :: others)))] ++
            (c.monitorConditions (hist ++ [Effect.jobsList ("job-name=" ++ jobName)
              (Except.ok (some (job :: others)))]) heap jobName job.Status.Conditions).2, true⟩ := by
    simp [JobExecutor.monitorTick, hlist, hsucc, hfail]
  have hcount : countTimeoutCalls (c.MonitorJobForTimeout hist heap jobName (Wake.tick :: wakes)).events
      = (job.Status.Conditions.filter (fun cd => cd.Reason == "DeadlineExceeded")).length := by
    simp only [JobExecutor.MonitorJobForTimeout, htick, if_true]
    rw [countTimeoutCalls_append, monitorConditions_count]
    simp [countTimeoutCalls, timeoutIndicator]
  refine ⟨by simp [JobExecutor.MonitorJobForTimeout, htick], hcount, ?_⟩
  rw [hcount]
  obtain ⟨cd, hmem, hreason⟩ := hcond
  exact List.length_pos_of_mem (List.mem_filter.2 ⟨hmem, by simp [hreason]⟩)

/-- Witness of amended C8: a failed job with a single `DeadlineExceeded` condition. -/
theorem MonitorJobForTimeout_deadline_exceeded_witness :
    (failedJob [{ Type_ := "Failed", Reason := "DeadlineExceeded" }]).Status.Succeeded = 0 ∧
    0 < (failedJob [{ Type_ := "Failed", Reason := "DeadlineExceeded" }]).Status.Failed ∧
    countTimeoutCalls ((monitoredExecutor (savedRecord ExecutionStatus.running)
      [failedJob [{ Type_ := "Failed", Reason := "DeadlineExceeded" }]]).MonitorJobForTimeout []
        Heap.empty "e1" [Wake.tick]).events
      = ([({ Type_ := "Failed", Reason := "DeadlineExceeded" } : JobCondition)].filter
          (fun cd => cd.Reason == "DeadlineExceeded")).length :=
  ⟨rfl, by decide,
    (MonitorJobForTimeout_deadline_exceeded (monitoredExecutor (savedRecord ExecutionStatus.running)
      [failedJob [{ Type_ := "Failed", Reason := "DeadlineExceeded" }]]) [] Heap.empty "e1"
      (failedJob [{ Type_ := "Failed", Reason := "DeadlineExceeded" }]) [] [] rfl rfl (by decide)
      ⟨{ Type_ := "Failed", Reason := "DeadlineExceeded" }, by simp [failedJob], rfl⟩).2.1⟩

/-- C9: on a tick where the first listed job reports no success, `Failed > 0` and no condition
of reason `DeadlineExceeded` (the empty list included), the monitor makes no finalization call,
its only effect is the listing of the jobs, the store is untouched, and it stops polling whatever
wake-ups follow. -/
theorem MonitorJobForTimeout_failed_without_deadline (c : JobExecutor) (hist : History) (heap : Heap)
    (jobName : String) (job : Job) (others : List Job) (wakes : List Wake)
    (hlist : c.ClientSet.JobsList hist c.Namespace ("job-name=" ++ jobName)
      = Except.ok (some (job :: others)))
    (hsucc : job.Status.Succeeded = 0) (hfail : 0 < job.Status.Failed)
    (hcond : ∀ cd ∈ job.Status.Conditions, cd.Reason ≠ "DeadlineExceeded") :
    (c.MonitorJobForTimeout hist heap jobName (Wake.tick :: wakes)).stopped = true ∧
    (c.MonitorJobForTimeout hist heap jobName (Wake.tick :: wakes)).events
      = [Effect.jobsList ("job-name=" ++ jobName) (Except.ok (some (job :: others)))] ∧
    countTimeoutCalls (c.MonitorJobForTimeout hist heap jobName (Wake.tick :: wakes)).events = 0 ∧
    (c.MonitorJobForTimeout hist heap jobName (Wake.tick :: wakes)).heap = heap := by
  have htick : c.monitorTick hist heap jobName
      = ⟨heap, [Effect.jobsList ("job-name=" ++ jobName) (Except.ok (some (job :: others)))], true⟩ := by
    simp [JobExecutor.monitorTick, hlist, hsucc, hfail,
      monitorConditions_of_no_indicator c jobName job.Status.Conditions hcond]
  simp [JobExecutor.MonitorJobForTimeout, htick, countTimeoutCalls]

/-- Witness of C9: a failed job whose only condition has reason `BackoffLimitExceeded`. -/
theorem MonitorJobForTimeout_failed_without_deadline_witness :
    (failedJob [{ Type_ := "Failed", Reason := "BackoffLimitExceeded" }]).Status.Succeeded = 0 ∧
    0 < (failedJob [{ Type_ := "Failed", Reason := "BackoffLimitExceeded" }]).Status.Failed ∧
    countTimeoutCalls ((monitoredExecutor (savedRecord ExecutionStatus.running)
      [failedJob [{ Type_ := "Failed", Reason := "BackoffLimitExceeded" }]]).MonitorJobForTimeout []
        Heap.empty "e1" [Wake.tick, Wake.tick]).events = 0 :=
  ⟨rfl, by decide,
    (MonitorJobForTimeout_failed_without_deadline (monitoredExecutor (savedRecord ExecutionStatus.running)
      [failedJob [{ Type_ := "Failed", Reason := "BackoffLimitExceeded" }]]) [] Heap.empty "e1"
      (failedJob [{ Type_ := "Failed", Reason := "BackoffLimitExceeded" }]) [] [Wake.tick] rfl rfl
      (by decide) (by simp [failedJob])).2.2.1⟩

/-! ### Claims on `Execute` -/

theorem newJobOptionsFinish_events (lib : Library) (initImage serviceAccountName registry clusterID : String)
    (execution : ExecutionRecord) (options : ExecuteOptions) (jobOptions : JobOptions) (ev : List Effect) :
    (newJobOptionsFinish lib initImage serviceAccountName registry clusterID execution options jobOptions
      ev).events = ev := by
  unfold newJobOptionsFinish
  simp only []
  split <;> rfl

theorem newJobOptionsRequestTemplate_events (lib : Library) (templatesClient : TemplatesClient)
    (hist : History) (initImage serviceAccountName registry clusterID : String)
    (execution : ExecutionRecord) (options : ExecuteOptions) (jobOptions : JobOptions) (ev : List Effect)
    (hev : ∀ x ∈ ev, ∃ n r, x = Effect.templatesGet n r) :
    ∀ x ∈ (newJobOptionsRequestTemplate lib templatesClient hist initImage serviceAccountName registry
      clusterID execution options jobOptions ev).events, ∃ n r, x = Effect.templatesGet n r := by
  unfold newJobOptionsRequestTemplate
  split
  · simp only []
    generalize templatesClient.Get _ _ = got
    have hev2 : ∀ x ∈ ev ++ [Effect.templatesGet options.Request.JobTemplateReference got],
        ∃ n r, x = Effect.templatesGet n r := by
      intro x hx
      rcases List.mem_append.1 hx with hx | hx
      · exact hev x hx
      · exact ⟨_, _, by simpa using hx⟩
    cases got with
    | error e => exact hev2
    | ok template =>
      simp only []
      rw [newJobOptionsFinish_events]
      exact hev2
  · rw [newJobOptionsFinish_events]
    exact hev

theorem NewJobOptions_events (lib : Library) (templatesClient : TemplatesClient)
    (hist : History) (initImage jobTemplate serviceAccountName registry clusterID : String)
    (execution : ExecutionRecord) (options : ExecuteOptions) :
    ∀ x ∈ (NewJobOptions lib templatesClient hist initImage jobTemplate serviceAccountName registry
      clusterID execution options).events, ∃ n r, x = Effect.templatesGet n r := by
  unfold NewJobOptions
  cases lib.MarshalExecution execution with
  | error e => simp
  | ok jsn =>
    simp only []
    split
    · generalize templatesClient.Get _ _ = got
      cases got with
      | error e =>
        intro x hx
        exact ⟨_, _, by simpa using hx⟩
      | ok template =>
        simp only []
        apply newJobOptionsRequestTemplate_events
        intro x hx
        exact ⟨_, _, by simpa using hx⟩
    · apply newJobOptionsRequestTemplate_events
      simp

theorem CreateJob_events (c : JobExecutor) (hist : History) (execution : ExecutionRecord)
    (options : ExecuteOptions) :
    ∀ x ∈ (c.CreateJob hist execution options).events,
      (∃ n r, x = Effect.templatesGet n r) ∨ (∃ j r, x = Effect.jobsCreate j r) := by
  have hbuilt := NewJobOptions_events c.lib c.templatesClient hist c.initImage c.jobTemplate
    c.serviceAccountName c.registry c.clusterID execution options
  unfold JobExecutor.CreateJob
  simp only []
  split
  · exact fun x hx => Or.inl (hbuilt x hx)
  · split
    · exact fun x hx => Or.inl (hbuilt x hx)
    · intro x hx
      rcases List.mem_append.1 hx with hx | hx
      · exact Or.inl (hbuilt x hx)
      · exact Or.inr ⟨_, _, by simpa using hx⟩

/-- C10: if `CreateJob` fails with `e` (while building the job options, building the manifest or
in the cluster's create call), `Execute` returns `e` together with the result it allocated,
marked `Failed` and carrying `e` as error message, and does nothing further: its effects are those
of `CreateJob` (template lookups and the create call), so no monitor is started, no pod is looked
up and no finalization runs. -/
theorem Execute_create_failure (c : JobExecutor) (hist : History) (heap : Heap) (execution : Execution)
    (options : ExecuteOptions) (e : Err)
    (hfail : (c.CreateJob hist (executionAtCreate heap execution) options).err = some e) :
    (c.Execute hist heap execution options).err = some e ∧
    ((c.Execute hist heap execution options).heap.read (c.Execute hist heap execution options).result).Status
      = some ExecutionStatus.failed ∧
    ((c.Execute hist heap execution options).heap.read
      (c.Execute hist heap execution options).result).ErrorMessage = e ∧
    (c.Execute hist heap execution options).execution.ExecutionResult
      = (c.Execute hist heap execution options).result ∧
    (c.Execute hist heap execution options).events
      = (c.CreateJob hist (executionAtCreate heap execution) options).events ∧
    ∀ x ∈ (c.Execute hist heap execution options).events,
      (∃ n r, x = Effect.templatesGet n r) ∨ (∃ j r, x = Effect.jobsCreate j r) := by
  have hout : c.Execute hist heap execution options
      = ⟨(heap.alloc NewRunningExecutionResult).2.write (heap.alloc NewRunningExecutionResult).1
            (((heap.alloc NewRunningExecutionResult).2.read (heap.alloc NewRunningExecutionResult).1).Err e),
          { execution with
            ExecutionResult := (heap.alloc NewRunningExecutionResult).1
            Variables := (c.CreateJob hist (executionAtCreate heap execution) options).sharedVariables },
          (c.CreateJob hist (executionAtCreate heap execution) options).events,
          (heap.alloc NewRunningExecutionResult).1, some e⟩ := by
    unfold executionAtCreate at hfail ⊢
    unfold JobExecutor.Execute
    simp only [hfail]
  rw [hout]
  refine ⟨rfl, ?_, ?_, rfl, rfl, CreateJob_events c hist _ options⟩
  · simp [Heap.read_write_same, ExecutionResult.Err]
  · simp [Heap.read_write_same, ExecutionResult.Err]

/-- Witness of C10: the cluster refuses to create the job of `e1`. -/
theorem Execute_create_failure_witness :
    ((createFailingExecutor (savedRecord ExecutionStatus.queued) "quota exceeded").CreateJob []
      (executionAtCreate Heap.empty executionE1) {}).err = some "quota exceeded" ∧
    ((createFailingExecutor (savedRecord ExecutionStatus.queued) "quota exceeded").Execute []
      Heap.empty executionE1 {}).err = some "quota exceeded" :=
  ⟨by decide,
    (Execute_create_failure (createFailingExecutor (savedRecord ExecutionStatus.queued) "quota exceeded")
      [] Heap.empty executionE1 {} "quota exceeded" (by decide)).1⟩

/-! ### More on the runs of `stopExecution` -/

/-- Every run of `stopExecution` starts with the read of the persisted execution, and nothing
after it is a read of the repository. -/
theorem stopExecution_events_head (c : JobExecutor) (hist : History) (heap : Heap) (execution : Execution)
    (result : Ptr) (isNegativeTest : Bool) (passedErr : Option Err) :
    ∃ got tail, (c.stopExecution hist heap execution result isNegativeTest passedErr).events
        = Effect.repositoryGet execution.Id got :: tail ∧ ∀ x ∈ tail, 1 ≤ x.stage := by
  unfold JobExecutor.stopExecution
  simp only []
  generalize c.Repository.Get hist execution.Id = got
  cases got with
  | error e => exact ⟨_, [], rfl, by simp⟩
  | ok saved =>
    simp only []
    by_cases hg : (saved.IsCanceled || saved.IsTimeout) = true
    · simp only [hg, if_true]
      exact ⟨_, [], rfl, by simp⟩
    · simp only [hg, Bool.false_eq_true, if_false]
      obtain ⟨tail, h1, h2⟩ := stopExecutionEnd_tail c hist heap execution result isNegativeTest passedErr
        [Effect.repositoryGet execution.Id (Except.ok saved)]
      exact ⟨_, tail, h1, h2.2.1⟩

theorem countRepositoryGets_stopExecution (c : JobExecutor) (hist : History) (heap : Heap)
    (execution : Execution) (result : Ptr) (isNegativeTest : Bool) (passedErr : Option Err) :
    countRepositoryGets (c.stopExecution hist heap execution result isNegativeTest passedErr).events = 1 := by
  obtain ⟨got, tail, hev, htail⟩ :=
    stopExecution_events_head c hist heap execution result isNegativeTest passedErr
  rw [hev]
  have h0 : tail.filter (fun e => e.stage == 0) = [] := by
    rw [List.filter_eq_nil_iff]
    intro x hx
    have := htail x hx
    simp only [beq_iff_eq]
    omega
  unfold countRepositoryGets
  rw [List.filter_cons_of_pos (by simp [Effect.stage]), h0]
  rfl

/-- Effects in strictly increasing position hold at most one effect of each position. -/
theorem filter_stage_length_le_one (k : Nat) (l : List Effect)
    (hp : l.Pairwise (fun a b => a.stage < b.stage)) :
    (l.filter (fun e => e.stage == k)).length ≤ 1 := by
  induction l with
  | nil => simp
  | cons a t ih =>
    rw [List.pairwise_cons] at hp
    by_cases ha : a.stage = k
    · have ht : t.filter (fun e => e.stage == k) = [] := by
        rw [List.filter_eq_nil_iff]
        intro x hx
        have := hp.1 x hx
        simp only [beq_iff_eq]
        omega
      simp [List.filter_cons, ha, ht]
    · simpa [List.filter_cons, ha] using ih hp.2

theorem filter_stage_length_eq_one (k : Nat) (l : List Effect)
    (hp : l.Pairwise (fun a b => a.stage < b.stage)) {x : Effect} (hx : x ∈ l) (hs : x.stage = k) :
    (l.filter (fun e => e.stage == k)).length = 1 := by
  have hle := filter_stage_length_le_one k l hp
  have hpos : 0 < (l.filter (fun e => e.stage == k)).length :=
    List.length_pos_of_mem (List.mem_filter.2 ⟨hx, by simp [hs]⟩)
  omega

theorem stopExecutionUpdate_heap (c : JobExecutor) (hist : History) (heap : Heap) (execution : Execution)
    (result : Ptr) (passedErr : Option Err) (ev : List Effect) :
    (c.stopExecutionUpdate hist heap execution result passedErr ev).heap
      = (selectEvent (recordPassedErr heap result passedErr) result).2 := by
  obtain ⟨upd, tail, _, h⟩ := stopExecutionUpdate_spec c hist heap execution result passedErr ev
  rcases h with ⟨e, _, _, _⟩ | ⟨_, htail⟩
  · unfold JobExecutor.stopExecutionUpdate
    simp only []
    generalize c.Repository.UpdateResult _ _ _ = upd2
    cases upd2 with
    | some e2 => rfl
    | none => exact (stopExecutionPropagate_tail c hist _ _ _ _).choose_spec.2.2.1
  · exact htail.2.1

/-- The store a run of `stopExecution` leaves is the one it was given (the read failed or the
guard returned), the one after the negative-test step (the first persist failed), or the one
after the event was chosen. -/
theorem stopExecution_heap_cases (c : JobExecutor) (hist : History) (heap : Heap) (execution : Execution)
    (result : Ptr) (isNegativeTest : Bool) (passedErr : Option Err) :
    (c.stopExecution hist heap execution result isNegativeTest passedErr).heap = heap ∨
    (∃ ended, (c.stopExecution hist heap execution result isNegativeTest passedErr).heap
        = negativeTestStep heap ended result isNegativeTest ∧
        ended.ExecutionResult = execution.ExecutionResult) ∨
    (∃ ended, (c.stopExecution hist heap execution result isNegativeTest passedErr).heap
        = (selectEvent (recordPassedErr (negativeTestStep heap ended result isNegativeTest) result
            passedErr) result).2 ∧
        ended.ExecutionResult = execution.ExecutionResult) := by
  cases hgot : c.Repository.Get hist execution.Id with
  | error e =>
    left
    simp [JobExecutor.stopExecution, hgot]
  | ok saved =>
    by_cases hg : (saved.IsCanceled || saved.IsTimeout) = true
    · left
      simp [JobExecutor.stopExecution, hgot, hg]
    · have hun : c.stopExecution hist heap execution result isNegativeTest passedErr
          = c.stopExecutionEnd hist heap execution result isNegativeTest passedErr
              [Effect.repositoryGet execution.Id (Except.ok saved)] := by
        simp [JobExecutor.stopExecution, hgot, hg]
      rw [hun]
      obtain ⟨ended, hnone, hsome⟩ := stopExecutionEnd_spec c hist heap execution result isNegativeTest
        passedErr [Effect.repositoryGet execution.Id (Except.ok saved)]
      cases ended with
      | some e =>
        rw [hsome e rfl]
        exact Or.inr (Or.inl ⟨_, rfl, rfl⟩)
      | none =>
        rw [hnone rfl, stopExecutionUpdate_heap]
        exact Or.inr (Or.inr ⟨_, rfl, rfl⟩)

/-- A finalization of a test that is not negative and without `passedErr` leaves the status of
`*result` as it was. -/
theorem stopExecution_status_plain (c : JobExecutor) (hist : History) (heap : Heap) (execution : Execution)
    (result : Ptr) :
    ((c.stopExecution hist heap execution result false none).heap.read result).Status
      = (heap.read result).Status := by
  rcases stopExecution_heap_cases c hist heap execution result false none with
    h | ⟨ended, h, _⟩ | ⟨ended, h, _⟩
  · rw [h]
  · rw [h, negativeTestStep_status]
    rfl
  · rw [h, selectEvent_status]
    simp only [recordPassedErr]
    rw [negativeTestStep_status]
    rfl

/-- On a persisted record that is neither `Canceled` nor `Timeout`, a run that reached the second
persist leaves the store as it was when the record of that persist was read. -/
theorem stopExecution_heap_of_update (c : JobExecutor) (hist : History) (heap : Heap) (execution : Execution)
    (result : Ptr) (isNegativeTest : Bool) (passedErr : Option Err) (saved : ExecutionRecord)
    (hget : c.Repository.Get hist execution.Id = Except.ok saved)
    (hc : saved.ExecutionResult.Status ≠ some ExecutionStatus.canceled)
    (ht : saved.ExecutionResult.Status ≠ some ExecutionStatus.timeout)
    {id : String} {r : ExecutionRecord} {upd : Option Err}
    (hmem : Effect.repositoryUpdateResult id r upd ∈
      (c.stopExecution hist heap execution result isNegativeTest passedErr).events) :
    (c.stopExecution hist heap execution result isNegativeTest passedErr).heap
      = c.finalHeap hist heap execution result isNegativeTest passedErr saved := by
  rw [stopExecution_unguarded c hist heap execution result isNegativeTest passedErr saved hget hc ht]
    at hmem ⊢
  obtain ⟨ended, hnone, hsome⟩ := stopExecutionEnd_spec c hist heap execution result isNegativeTest
    passedErr [Effect.repositoryGet execution.Id (Except.ok saved)]
  cases ended with
  | some e =>
    rw [hsome e rfl] at hmem
    simp at hmem
  | none =>
    rw [hnone rfl, stopExecutionUpdate_heap]
    rfl

/-! ### Claims on `Abort`, `Timeout` and the notification step -/

/-- C19, as stated, fails: for a result of status `Failed` the notification-selection step
chooses the end-test-failed event and leaves the output as it was, so the output is not extended
by a non-empty trailer. -/
theorem selectEvent_failed_appends_nothing :
    (selectEvent (twoCellHeap {} { Status := some ExecutionStatus.failed, Output := "log" }) 1).1
      = EventType.endTestFailed ∧
    ((selectEvent (twoCellHeap {} { Status := some ExecutionStatus.failed, Output := "log" }) 1).2.read
      1).Output = "log" ∧
    ¬ ∃ trailer : String, trailer ≠ "" ∧
      ((selectEvent (twoCellHeap {} { Status := some ExecutionStatus.failed, Output := "log" }) 1).2.read
        1).Output = "log" ++ trailer := by
  refine ⟨by decide, by decide, ?_⟩
  rintro ⟨trailer, hne, h⟩
  have hout : ((selectEvent (twoCellHeap {} { Status := some ExecutionStatus.failed, Output := "log" })
      1).2.read 1).Output = "log" := by decide
  rw [hout] at h
  have hlen := congrArg String.length h
  rw [String.length_append] at hlen
  have h0 : trailer.length = 0 := by
    have h3 : "log".length = 3 := by decide
    omega
  cases trailer with
  | mk data =>
    have hd : data = [] := List.length_eq_zero.1 h0
    subst hd
    exact hne rfl

/-- C19, amended: in the notification-selection step the `Aborted` variant appends the
manual-abort trailer and the `Timeout` variant appends the timeout trailer to the output of the
result; for every other status, so for the `Failed` and the success variant, the step leaves the
store, and with it the output, unchanged. -/
theorem selectEvent_trailers (heap : Heap) (result : Ptr) :
    ((heap.read result).Status = some ExecutionStatus.aborted →
      (selectEvent heap result).1 = EventType.endTestAborted ∧
      ((selectEvent heap result).2.read result).Output
        = (heap.read result).Output ++ "\nTest run was aborted manually.") ∧
    ((heap.read result).Status = some ExecutionStatus.timeout →
      (selectEvent heap result).1 = EventType.endTestTimeout ∧
      ((selectEvent heap result).2.read result).Output
        = (heap.read result).Output ++ "\nTest run was aborted due to timeout.") ∧
    ((heap.read result).Status = some ExecutionStatus.failed →
      (selectEvent heap result).1 = EventType.endTestFailed ∧ (selectEvent heap result).2 = heap) ∧
    ((heap.read result).Status ≠ some ExecutionStatus.aborted →
      (heap.read result).Status ≠ some ExecutionStatus.timeout →
      (heap.read result).Status ≠ some ExecutionStatus.failed →
      (selectEvent heap result).1 = EventType.endTestSuccess ∧ (selectEvent heap result).2 = heap) := by
  refine ⟨fun h => ?_, fun h => ?_, fun h => ?_, fun ha ht hf => ?_⟩
  · simp [selectEvent, ExecutionResult.IsAborted, h, Heap.read_write_same]
  · simp [selectEvent, ExecutionResult.IsAborted, ExecutionResult.IsTimeout, h, Heap.read_write_same]
  · simp [selectEvent, ExecutionResult.IsAborted, ExecutionResult.IsTimeout, ExecutionResult.IsFailed, h]
  · simp [selectEvent, ExecutionResult.IsAborted, ExecutionResult.IsTimeout, ExecutionResult.IsFailed,
      ha, ht, hf]

/-- Witness of amended C19: an aborted result whose output so far is `log`. -/
theorem selectEvent_trailers_witness :
    ((twoCellHeap {} { Status := some ExecutionStatus.aborted, Output := "log" }).read 1).Status
      = some ExecutionStatus.aborted ∧
    ((selectEvent (twoCellHeap {} { Status := some ExecutionStatus.aborted, Output := "log" }) 1).2.read
      1).Output
      = ((twoCellHeap {} { Status := some ExecutionStatus.aborted, Output := "log" }).read 1).Output
        ++ "\nTest run was aborted manually." :=
  ⟨rfl, ((selectEvent_trailers (twoCellHeap {} { Status := some ExecutionStatus.aborted, Output := "log" })
    1).1 rfl).2⟩

/-- C12: `Abort` calls the job termination and then runs `stopExecution` exactly once (its
effects are the termination call followed by those of one finalization, which holds the only
read of the repository), on the result the termination call returned, with `isNegativeTest`
false and no `passedErr`, whatever error the termination call returned; it returns that result
and always a nil error, also when the termination or the finalization failed. -/
theorem Abort_finalizes_once (c : JobExecutor) (hist : History) (heap : Heap) (execution : Execution) :
    (c.Abort hist heap execution).err = none ∧
    (c.Abort hist heap execution).events
      = Effect.abortJob execution.Id (c.ClientSet.AbortJob hist c.Namespace execution.Id) ::
        (c.stopExecution
          (hist ++ [Effect.abortJob execution.Id (c.ClientSet.AbortJob hist c.Namespace execution.Id)])
          (heap.alloc (c.ClientSet.AbortJob hist c.Namespace execution.Id).1).2 execution
          (c.Abort hist heap execution).result false none).events ∧
    ((heap.alloc (c.ClientSet.AbortJob hist c.Namespace execution.Id).1).2.read
      (c.Abort hist heap execution).result) = (c.ClientSet.AbortJob hist c.Namespace execution.Id).1 ∧
    countRepositoryGets (c.Abort hist heap execution).events = 1 := by
  refine ⟨rfl, rfl, ?_, ?_⟩
  · simp [JobExecutor.Abort, Heap.alloc, Heap.read]
  · have h := countRepositoryGets_stopExecution c
      (hist ++ [Effect.abortJob execution.Id (c.ClientSet.AbortJob hist c.Namespace execution.Id)])
      (heap.alloc (c.ClientSet.AbortJob hist c.Namespace execution.Id).1).2 execution
      (heap.alloc (c.ClientSet.AbortJob hist c.Namespace execution.Id).1).1 false none
    unfold countRepositoryGets at h ⊢
    simp only [JobExecutor.Abort, List.singleton_append, List.filter_cons]
    simpa [Effect.stage] using h

theorem Heap.read_alloc (h : Heap) (v : ExecutionResult) : (h.alloc v).2.read (h.alloc v).1 = v := by
  simp [Heap.alloc, Heap.read]

theorem stopExecutionUpdate_eq (c : JobExecutor) (hist : History) (heap : Heap) (execution : Execution)
    (result : Ptr) (passedErr : Option Err) (ev : List Effect) :
    ∃ upd,
      (upd = none →
        c.stopExecutionUpdate hist heap execution result passedErr ev
          = c.stopExecutionPropagate hist (selectEvent (recordPassedErr heap result passedErr) result).2
              { execution with ExecutionResult := result }
              (selectEvent (recordPassedErr heap result passedErr) result).1
              (ev ++ [Effect.repositoryUpdateResult execution.Id
                (Execution.snap { execution with ExecutionResult := result }
                  (selectEvent (recordPassedErr heap result passedErr) result).2) none])) ∧
      (∀ e, upd = some e →
        (c.stopExecutionUpdate hist heap execution result passedErr ev).err = some e) := by
  unfold JobExecutor.stopExecutionUpdate
  simp only []
  generalize c.Repository.UpdateResult _ _ _ = upd
  cases upd with
  | some e => exact ⟨some e, fun h => by simp at h, fun e2 h => by cases h; rfl⟩
  | none => exact ⟨none, fun _ => rfl, fun e h => by simp at h⟩

theorem stopExecutionPropagate_updates_test (c : JobExecutor) (hist : History) (heap : Heap)
    (execution : Execution) (eventToSend : EventType) (ev : List Effect) :
    (c.stopExecutionPropagate hist heap execution eventToSend ev).err = none →
    ∃ test : Test, Effect.testsUpdateStatus
        ⟨test.Name, MapExecutionToTestStatus (execution.snap heap)⟩ none ∈
      (c.stopExecutionPropagate hist heap execution eventToSend ev).events := by
  unfold JobExecutor.stopExecutionPropagate
  simp only []
  generalize c.testsClient.Get (hist ++ ev) execution.TestName = gotTest
  cases gotTest with
  | error e =>
    intro h
    simp at h
  | ok test =>
    simp only []
    generalize c.testsClient.UpdateStatus _ _ = upd
    cases upd with
    | some e =>
      intro h
      simp at h
    | none =>
      intro _
      obtain ⟨tail, h1, _⟩ := stopExecutionLinked_tail c hist heap execution eventToSend
        (ev ++ [Effect.testsGet execution.TestName (Except.ok test)] ++
          [Effect.testsUpdateStatus
            { test with Status := MapExecutionToTestStatus (execution.snap heap) } none])
      refine ⟨test, ?_⟩
      simp only []
      rw [h1]
      simp

/-- On a persisted record that is neither `Canceled` nor `Timeout`, a run that returns nil has
updated the status of the owning `Test` from the record of the second persist. -/
theorem stopExecution_updates_test (c : JobExecutor) (hist : History) (heap : Heap) (execution : Execution)
    (result : Ptr) (isNegativeTest : Bool) (passedErr : Option Err) (saved : ExecutionRecord)
    (hget : c.Repository.Get hist execution.Id = Except.ok saved)
    (hc : saved.ExecutionResult.Status ≠ some ExecutionStatus.canceled)
    (ht : saved.ExecutionResult.Status ≠ some ExecutionStatus.timeout)
    (herr : (c.stopExecution hist heap execution result isNegativeTest passedErr).err = none) :
    ∃ test : Test, Effect.testsUpdateStatus
        ⟨test.Name, MapExecutionToTestStatus
          (c.updatedRecord hist heap execution result isNegativeTest passedErr saved)⟩ none ∈
      (c.stopExecution hist heap execution result isNegativeTest passedErr).events := by
  rw [stopExecution_unguarded c hist heap execution result isNegativeTest passedErr saved hget hc ht]
    at herr ⊢
  obtain ⟨ended, hnone, hsome⟩ := stopExecutionEnd_spec c hist heap execution result isNegativeTest
    passedErr [Effect.repositoryGet execution.Id (Except.ok saved)]
  cases ended with
  | some e =>
    rw [hsome e rfl] at herr
    simp at herr
  | none =>
    rw [hnone rfl] at herr ⊢
    obtain ⟨upd, hunone, husome⟩ := stopExecutionUpdate_eq c hist
      (negativeTestStep heap (execution.Stop (c.runtime.timeNow
        (hist ++ [Effect.repositoryGet execution.Id (Except.ok saved)]))) result isNegativeTest)
      (execution.Stop (c.runtime.timeNow (hist ++ [Effect.repositoryGet execution.Id (Except.ok saved)])))
      result passedErr
      ([Effect.repositoryGet execution.Id (Except.ok saved)] ++ [Effect.repositoryEndExecution
        ((execution.Stop (c.runtime.timeNow
          (hist ++ [Effect.repositoryGet execution.Id (Except.ok saved)]))).snap
          (negativeTestStep heap (execution.Stop (c.runtime.timeNow
            (hist ++ [Effect.repositoryGet execution.Id (Except.ok saved)]))) result
            isNegativeTest)) none])
    cases upd with
    | some e =>
      rw [husome e rfl] at herr
      simp at herr
    | none =>
      rw [hunone rfl] at herr ⊢
      exact stopExecutionPropagate_updates_test c hist _ _ _ _ herr

/-- C18: for an execution that is not negative, whose raw result is `Passed`, whose persisted
record is neither `Canceled` nor `Timeout`, with no error passed from the log steps and with
collaborators that all succeed (the run returns nil), one run of `stopExecution` hands a record of
status `Passed` with the end timestamp set to `UpdateResult`, updates the status of the `Test`
resource to `Passed`, increments the execution counter exactly once and emits exactly one event,
the end-test-success event of that record. -/
theorem stopExecution_passed_scenario (c : JobExecutor) (hist : History) (heap : Heap)
    (execution : Execution) (result : Ptr) (saved : ExecutionRecord)
    (hget : c.Repository.Get hist execution.Id = Except.ok saved)
    (hc : saved.ExecutionResult.Status ≠ some ExecutionStatus.canceled)
    (ht : saved.ExecutionResult.Status ≠ some ExecutionStatus.timeout)
    (hraw : (heap.read result).Status = some ExecutionStatus.passed)
    (hok : (c.stopExecution hist heap execution result false none).err = none) :
    (∃ r, Effect.repositoryUpdateResult execution.Id r none ∈
        (c.stopExecution hist heap execution result false none).events ∧
      r.ExecutionResult.Status = some ExecutionStatus.passed ∧ r.EndTime.isSome = true ∧
      Effect.notify ⟨EventType.endTestSuccess, r⟩ ∈
        (c.stopExecution hist heap execution result false none).events ∧
      Effect.incExecuteTest r c.dashboardURI ∈
        (c.stopExecution hist heap execution result false none).events) ∧
    (∃ test, Effect.testsUpdateStatus test none ∈
        (c.stopExecution hist heap execution result false none).events ∧
      test.Status.LatestStatus = some ExecutionStatus.passed) ∧
    countIncrements (c.stopExecution hist heap execution result false none).events = 1 ∧
    countNotifications (c.stopExecution hist heap execution result false none).events = 1 ∧
    (∀ n, Effect.notify n ∈ (c.stopExecution hist heap execution result false none).events →
      n.Type_ = EventType.endTestSuccess) := by
  have hstatus : (c.updatedRecord hist heap execution result false none saved).ExecutionResult.Status
      = some ExecutionStatus.passed := by
    rw [updatedRecord_status_of_no_error, hraw]
    rfl
  have hevt : c.finalEvent hist heap execution result false none saved = EventType.endTestSuccess := by
    rw [finalEvent_eq, hstatus]
    rfl
  have hnotify := stopExecution_notify_of_ok c hist heap execution result false none saved hget hc ht hok
  rw [hevt] at hnotify
  have htrace := stopExecution_trace c hist heap execution result false none
  refine ⟨⟨_, ?_, hstatus, rfl, hnotify.2, hnotify.1⟩, ?_, ?_, ?_, ?_⟩
  · rcases stopExecution_anatomy c hist heap execution result false none saved hget hc ht with
      ⟨e, _, he⟩ | ⟨upd, tail, hev, h⟩
    · rw [he] at hok
      simp at hok
    · rcases h with ⟨e, _, _, he⟩ | ⟨hupd, _⟩
      · rw [he] at hok
        simp at hok
      · rw [hev, hupd]
        simp
  · obtain ⟨test, h⟩ := stopExecution_updates_test c hist heap execution result false none saved
      hget hc ht hok
    exact ⟨_, h, by simp [MapExecutionToTestStatus, hstatus]⟩
  · exact filter_stage_length_eq_one 7 _ htrace.1 hnotify.1 rfl
  · exact filter_stage_length_eq_one 8 _ htrace.1 hnotify.2 rfl
  · intro n hn
    rw [stopExecution_notify_mem c hist heap execution result false none saved hget hc ht hn, hevt]

/-- Witness of C18: execution `e1` finalized with the parsed result `Passed`. -/
theorem stopExecution_passed_scenario_witness :
    (healthyExecutor (savedRecord ExecutionStatus.running)).Repository.Get [] executionE1.Id
      = Except.ok (savedRecord ExecutionStatus.running) ∧
    ((twoCellHeap { Status := some ExecutionStatus.passed } {}).read 0).Status
      = some ExecutionStatus.passed ∧
    ((healthyExecutor (savedRecord ExecutionStatus.running)).stopExecution []
      (twoCellHeap { Status := some ExecutionStatus.passed } {}) executionE1 0 false none).err = none ∧
    countNotifications ((healthyExecutor (savedRecord ExecutionStatus.running)).stopExecution []
      (twoCellHeap { Status := some ExecutionStatus.passed } {}) executionE1 0 false none).events = 1 :=
  ⟨rfl, rfl, by decide,
    (stopExecution_passed_scenario (healthyExecutor (savedRecord ExecutionStatus.running)) []
      (twoCellHeap { Status := some ExecutionStatus.passed } {}) executionE1 0
      (savedRecord ExecutionStatus.running) rfl (by decide) (by decide) rfl (by decide)).2.2.2.1⟩

/-- C13: when `Timeout(jobName)` can load the execution and the record `stopExecution` re-reads
is neither `Canceled` nor `Timeout` (whether or not the test is negative: `Timeout` passes
`isNegativeTest` false), it reloads the execution by id, returns a result of status `Timeout`,
and, the first persist succeeding, performs the second persist (`UpdateResult`) with a record of
status `Timeout` whose output is the timeout trailer. -/
theorem Timeout_persists_timeout (c : JobExecutor) (hist : History) (heap : Heap) (jobName : String)
    (saved reread : ExecutionRecord)
    (hget : c.Repository.Get (hist ++ [Effect.timeoutCalled jobName]) jobName = Except.ok saved)
    (hreread : c.Repository.Get
      (hist ++ [Effect.timeoutCalled jobName, Effect.repositoryGet jobName (Except.ok saved)]) saved.Id
        = Except.ok reread)
    (hc : reread.ExecutionResult.Status ≠ some ExecutionStatus.canceled)
    (ht : reread.ExecutionResult.Status ≠ some ExecutionStatus.timeout)
    (hend : ∃ r, Effect.repositoryEndExecution r none ∈ (c.Timeout hist heap jobName).events) :
    (∃ tail, (c.Timeout hist heap jobName).events
      = Effect.timeoutCalled jobName :: Effect.repositoryGet jobName (Except.ok saved) :: tail) ∧
    (∃ p, (c.Timeout hist heap jobName).result = some p ∧
      ((c.Timeout hist heap jobName).heap.read p).Status = some ExecutionStatus.timeout) ∧
    (∃ r upd, Effect.repositoryUpdateResult saved.Id r upd ∈ (c.Timeout hist heap jobName).events) ∧
    (∀ id r upd, Effect.repositoryUpdateResult id r upd ∈ (c.Timeout hist heap jobName).events →
      r.ExecutionResult.Status = some ExecutionStatus.timeout ∧
      r.ExecutionResult.Output = "\nTest run was aborted due to timeout.") := by
  have hout : c.Timeout hist heap jobName
      = ⟨(c.stopExecution
            (hist ++ [Effect.timeoutCalled jobName, Effect.repositoryGet jobName (Except.ok saved)])
            ((heap.alloc saved.ExecutionResult).2.alloc { Status := some ExecutionStatus.timeout }).2
            { toExecutionData := saved.toExecutionData,
              ExecutionResult := (heap.alloc saved.ExecutionResult).1 }
            ((heap.alloc saved.ExecutionResult).2.alloc { Status := some ExecutionStatus.timeout }).1
            false none).heap,
          [Effect.timeoutCalled jobName, Effect.repositoryGet jobName (Except.ok saved)] ++
            (c.stopExecution
              (hist ++ [Effect.timeoutCalled jobName, Effect.repositoryGet jobName (Except.ok saved)])
              ((heap.alloc saved.ExecutionResult).2.alloc { Status := some ExecutionStatus.timeout }).2
              { toExecutionData := saved.toExecutionData,
                ExecutionResult := (heap.alloc saved.ExecutionResult).1 }
              ((heap.alloc saved.ExecutionResult).2.alloc { Status := some ExecutionStatus.timeout }).1
              false none).events,
          some ((heap.alloc saved.ExecutionResult).2.alloc
            { Status := some ExecutionStatus.timeout }).1⟩ := by
    simp [JobExecutor.Timeout, hget]
  rw [hout] at hend ⊢
  simp only [List.cons_append, List.nil_append, List.mem_cons, reduceCtorEq, false_or] at hend ⊢
  have hmemUpd : ∀ {id r upd}, Effect.repositoryUpdateResult id r upd ∈
      (c.stopExecution
        (hist ++ [Effect.timeoutCalled jobName, Effect.repositoryGet jobName (Except.ok saved)])
        ((heap.alloc saved.ExecutionResult).2.alloc { Status := some ExecutionStatus.timeout }).2
        { toExecutionData := saved.toExecutionData,
          ExecutionResult := (heap.alloc saved.ExecutionResult).1 }
        ((heap.alloc saved.ExecutionResult).2.alloc { Status := some ExecutionStatus.timeout }).1
        false none).events →
      r.ExecutionResult.Status = some ExecutionStatus.timeout ∧
      r.ExecutionResult.Output = "\nTest run was aborted due to timeout." := by
    intro id r upd hmem
    obtain ⟨_, rfl⟩ := stopExecution_update_mem c _ _ _ _ false none reread hreread hc ht hmem
    constructor
    · rw [updatedRecord_status_of_no_error, Heap.read_alloc]
      rfl
    · rw [updatedRecord_result]
      simp [JobExecutor.finalHeap, recordPassedErr, negativeTestStep, selectEvent, Heap.read_alloc,
        ExecutionResult.IsAborted, ExecutionResult.IsTimeout, Heap.read_write_same]
  refine ⟨⟨_, rfl⟩, ⟨_, rfl, ?_⟩, ?_, fun id r upd h => hmemUpd h⟩
  · rw [stopExecution_status_plain, Heap.read_alloc]
  · obtain ⟨r, hr⟩ := hend
    obtain ⟨upd, h⟩ := stopExecution_update_of_end c _ _ _ _ false none reread hreread hc ht hr
    exact ⟨_, upd, h⟩

/-- Witness of C13: the forced timeout of the running execution `e1`. -/
theorem Timeout_persists_timeout_witness :
    (healthyExecutor (savedRecord ExecutionStatus.running)).Repository.Get
      ([] ++ [Effect.timeoutCalled "e1"]) "e1" = Except.ok (savedRecord ExecutionStatus.running) ∧
    (∃ r, Effect.repositoryEndExecution r none ∈
      ((healthyExecutor (savedRecord ExecutionStatus.running)).Timeout [] Heap.empty "e1").events) ∧
    persistedStatuses
      ((healthyExecutor (savedRecord ExecutionStatus.running)).Timeout [] Heap.empty "e1").events
      = [some ExecutionStatus.running, some ExecutionStatus.timeout] ∧
    (∃ p, ((healthyExecutor (savedRecord ExecutionStatus.running)).Timeout [] Heap.empty "e1").result
        = some p ∧
      (((healthyExecutor (savedRecord ExecutionStatus.running)).Timeout [] Heap.empty "e1").heap.read
        p).Status = some ExecutionStatus.timeout) :=
  ⟨rfl, ⟨finalizedE1 ExecutionStatus.running "", by decide⟩, by decide,
    (Timeout_persists_timeout (healthyExecutor (savedRecord ExecutionStatus.running)) [] Heap.empty "e1"
      (savedRecord ExecutionStatus.running) (savedRecord ExecutionStatus.running) rfl rfl
      (by decide) (by decide)
      ⟨finalizedE1 ExecutionStatus.running "", by decide⟩).2.1⟩

/-- C20: the tick rules are tried in order with the success rule first.  On a tick where the first
listed job reports `Succeeded > 0` the monitor stops with the listing of the jobs as its only
effect, so without any finalization, whatever the job reports as failures and conditions; on a
tick where it reports no success, no failure and `Active > 0` the tick invokes nothing and the
monitor goes on with the next wake-up: it is still polling when there is none. -/
theorem MonitorJobForTimeout_tick_rules (c : JobExecutor) (hist : History) (heap : Heap)
    (jobName : String) (job : Job) (others : List Job) (wakes : List Wake)
    (hlist : c.ClientSet.JobsList hist c.Namespace ("job-name=" ++ jobName)
      = Except.ok (some (job :: others))) :
    (0 < job.Status.Succeeded →
      (c.MonitorJobForTimeout hist heap jobName (Wake.tick :: wakes)).stopped = true ∧
      (c.MonitorJobForTimeout hist heap jobName (Wake.tick :: wakes)).events
        = [Effect.jobsList ("job-name=" ++ jobName) (Except.ok (some (job :: others)))] ∧
      countTimeoutCalls (c.MonitorJobForTimeout hist heap jobName (Wake.tick :: wakes)).events = 0 ∧
      (c.MonitorJobForTimeout hist heap jobName (Wake.tick :: wakes)).heap = heap) ∧
    (job.Status.Succeeded = 0 → job.Status.Failed = 0 → 0 < job.Status.Active →
      c.monitorTick hist heap jobName
        = ⟨heap, [Effect.jobsList ("job-name=" ++ jobName) (Except.ok (some (job :: others)))], false⟩ ∧
      (c.MonitorJobForTimeout hist heap jobName (Wake.tick :: wakes)).events
        = Effect.jobsList ("job-name=" ++ jobName) (Except.ok (some (job :: others))) ::
          (c.MonitorJobForTimeout
            (hist ++ [Effect.jobsList ("job-name=" ++ jobName) (Except.ok (some (job :: others)))])
            heap jobName wakes).events ∧
      (c.MonitorJobForTimeout hist heap jobName (Wake.tick :: wakes)).stopped
        = (c.MonitorJobForTimeout
            (hist ++ [Effect.jobsList ("job-name=" ++ jobName) (Except.ok (some (job :: others)))])
            heap jobName wakes).stopped ∧
      (c.MonitorJobForTimeout hist heap jobName [Wake.tick]).stopped = false ∧
      countTimeoutCalls (c.MonitorJobForTimeout hist heap jobName [Wake.tick]).events = 0) := by
  constructor
  · intro hs
    have htick : c.monitorTick hist heap jobName
        = ⟨heap, [Effect.jobsList ("job-name=" ++ jobName) (Except.ok (some (job :: others)))], true⟩ := by
      simp [JobExecutor.monitorTick, hlist, hs]
    simp [JobExecutor.MonitorJobForTimeout, htick, countTimeoutCalls]
  · intro hs hf ha
    have htick : c.monitorTick hist heap jobName
        = ⟨heap, [Effect.jobsList ("job-name=" ++ jobName) (Except.ok (some (job :: others)))], false⟩ := by
      simp [JobExecutor.monitorTick, hlist, hs, hf, ha]
    refine ⟨htick, ?_, ?_, ?_, ?_⟩
    · simp [JobExecutor.MonitorJobForTimeout, htick]
    · simp [JobExecutor.MonitorJobForTimeout, htick]
    · simp [JobExecutor.MonitorJobForTimeout, htick]
    · simp [JobExecutor.MonitorJobForTimeout, htick, countTimeoutCalls]

/-- Witness of C20: a job reporting a success next to a deadline failure, and an active job. -/
theorem MonitorJobForTimeout_tick_rules_witness :
    (0 : Int) < succeededAndFailedJob.Status.Succeeded ∧
    0 < succeededAndFailedJob.Status.Failed ∧
    countTimeoutCalls ((monitoredExecutor (savedRecord ExecutionStatus.running)
      [succeededAndFailedJob]).MonitorJobForTimeout [] Heap.empty "e1" [Wake.tick]).events = 0 ∧
    ((monitoredExecutor (savedRecord ExecutionStatus.running)
      [activeJob]).MonitorJobForTimeout [] Heap.empty "e1" [Wake.tick]).stopped = false :=
  ⟨by decide, by decide,
    ((MonitorJobForTimeout_tick_rules (monitoredExecutor (savedRecord ExecutionStatus.running)
      [succeededAndFailedJob]) [] Heap.empty "e1" succeededAndFailedJob [] [] rfl).1 (by decide)).2.2.1,
    ((MonitorJobForTimeout_tick_rules (monitoredExecutor (savedRecord ExecutionStatus.running)
      [activeJob]) [] Heap.empty "e1" activeJob [] [] rfl).2 rfl rfl (by decide)).2.2.2.1⟩

/-! ### Claims on the log tailer and the job builder -/

theorem tailContainers_spec (c : JobExecutor) (podName : String) (containers : List String) :
    ∀ hist : History,
      (c.tailContainers hist podName containers).1.map Effect.streamedContainer = containers.map some ∧
      (c.tailContainers hist podName containers).2
        = ((c.tailContainers hist podName containers).1.map Effect.streamedLines).flatten := by
  induction containers with
  | nil =>
    intro hist
    simp [JobExecutor.tailContainers]
  | cons container rest ih =>
    intro hist
    unfold JobExecutor.tailContainers
    simp only []
    generalize c.ClientSet.StreamPodLogs hist c.Namespace podName container = stream
    cases stream with
    | error e =>
      obtain ⟨h1, h2⟩ := ih (hist ++ [Effect.streamPodLogs container (Except.error e)])
      simp only [List.map_cons, List.flatten_cons, Effect.streamedContainer, Effect.streamedLines,
        List.nil_append]
      exact ⟨by rw [h1], h2⟩
    | ok opened =>
      obtain ⟨h1, h2⟩ := ih (hist ++ [Effect.streamPodLogs container (Except.ok opened)])
      simp only [List.map_cons, List.flatten_cons, Effect.streamedContainer, Effect.streamedLines]
      exact ⟨by rw [h1], by rw [← h2]⟩

/-- C17: `TailPodLogs` opens the log streams of the containers in the order all init containers,
then all main containers, each in the order of the pod spec, and the lines it sends on the
channel are the concatenation, in that order, of the lines read from each stream (none for a
stream that could not be opened); then it closes the channel.  So for a pod with init container
`a` and main container `b` the lines sent are those of `a` followed by those of `b`. -/
theorem TailPodLogs_order (c : JobExecutor) (hist : History) (pod : Pod) :
    (c.TailPodLogs hist pod).events.map Effect.streamedContainer
      = (pod.InitContainers ++ pod.Containers).map some ∧
    (c.TailPodLogs hist pod).sent
      = ((c.TailPodLogs hist pod).events.map Effect.streamedLines).flatten ∧
    (c.TailPodLogs hist pod).closed = true ∧
    (c.TailPodLogs hist pod).err = none ∧
    (∀ a b, pod.InitContainers = [a] → pod.Containers = [b] →
      ∃ ra rb, (c.TailPodLogs hist pod).events = [Effect.streamPodLogs a ra, Effect.streamPodLogs b rb] ∧
        (c.TailPodLogs hist pod).sent
          = (Effect.streamPodLogs a ra).streamedLines ++ (Effect.streamPodLogs b rb).streamedLines) := by
  refine ⟨(tailContainers_spec c pod.Name _ hist).1, (tailContainers_spec c pod.Name _ hist).2,
    rfl, rfl, ?_⟩
  intro a b ha hb
  simp only [JobExecutor.TailPodLogs, ha, hb, List.singleton_append, JobExecutor.tailContainers]
  generalize c.ClientSet.StreamPodLogs hist c.Namespace pod.Name a = ra
  generalize c.ClientSet.StreamPodLogs (hist ++ [Effect.streamPodLogs a ra]) c.Namespace pod.Name b = rb
  refine ⟨ra, rb, ?_⟩
  cases ra <;> cases rb <;> simp [Effect.streamedLines]

/-- Witness of C17: container `A` wrote `a1`, `a2` and container `B` wrote `b1`. -/
theorem TailPodLogs_order_witness :
    podAB.InitContainers = ["A"] ∧ podAB.Containers = ["B"] ∧
    ((streamingExecutor streamsAB).TailPodLogs [] podAB).sent = ["a1", "a2", "b1"] ∧
    ((streamingExecutor streamsAB).TailPodLogs [] podAB).sent
      = (((streamingExecutor streamsAB).TailPodLogs [] podAB).events.map Effect.streamedLines).flatten :=
  ⟨rfl, rfl, by decide, (TailPodLogs_order (streamingExecutor streamsAB) [] podAB).2.1⟩

theorem foldl_setJobLabel_containers (labels : GoMap String) :
    ∀ job : Job,
      (labels.foldl (fun job kv => setJobLabel job kv.1 kv.2) job).InitContainers = job.InitContainers ∧
      (labels.foldl (fun job kv => setJobLabel job kv.1 kv.2) job).Containers = job.Containers := by
  induction labels with
  | nil =>
    intro job
    exact ⟨rfl, rfl⟩
  | cons kv rest ih =>
    intro job
    simp only [List.foldl_cons]
    obtain ⟨h1, h2⟩ := ih (setJobLabel job kv.1 kv.2)
    rw [h1, h2]
    cases job with
    | mk name labels templateLabels inits mains status =>
      cases labels <;> cases templateLabels <;> exact ⟨rfl, rfl⟩

/-- What a successful `NewJobSpec` is made of: the rendered template, the merged and decoded
manifest, the labels set on it and the environment appended to its containers. -/
theorem NewJobSpec_ok_shape {lib : Library} {options : JobOptions} {job : Job}
    (h : NewJobSpec lib options = Except.ok job) :
    ∃ buffer spec decoded,
      lib.ExecuteTemplate "job" options.JobTemplate (escapedOptions options) = Except.ok buffer ∧
      mergeJobTemplateExtensions lib (escapedOptions options) buffer = Except.ok spec ∧
      lib.DecodeJob spec = Except.ok decoded ∧
      job.Labels = (options.Labels.foldl (fun job kv => setJobLabel job kv.1 kv.2) decoded).Labels ∧
      job.TemplateLabels
        = (options.Labels.foldl (fun job kv => setJobLabel job kv.1 kv.2) decoded).TemplateLabels ∧
      job.InitContainers.map (fun ct => ct.Env)
        = decoded.InitContainers.map (fun ct => ct.Env ++ jobEnvs lib (escapedOptions options)
            (lib.PrepareSecrets options.SecretEnvs options.Variables ++
              lib.PrepareGitCredentials options.UsernameSecret options.TokenSecret)) ∧
      job.Containers.map (fun ct => ct.Env)
        = decoded.Containers.map (fun ct => ct.Env ++ jobEnvs lib (escapedOptions options)
            (lib.PrepareSecrets options.SecretEnvs options.Variables ++
              lib.PrepareGitCredentials options.UsernameSecret options.TokenSecret)) := by
  unfold NewJobSpec at h
  simp only [] at h
  split at h
  · simp at h
  · split at h
    · simp at h
    · rename_i buffer hbuffer
      split at h
      · simp at h
      · rename_i spec hspec
        split at h
        · simp at h
        · rename_i decoded hdecoded
          simp only [Except.ok.injEq] at h
          subst h
          refine ⟨buffer, spec, decoded, hbuffer, hspec, hdecoded, rfl, rfl, ?_, ?_⟩
          · simp only [List.map_map, (foldl_setJobLabel_containers _ decoded).1]
            rfl
          · simp only [List.map_map, (foldl_setJobLabel_containers _ decoded).2]
            apply List.map_congr_left
            intro ct _
            simp only [Function.comp]
            split <;> rfl

theorem jobEnvs_mem (lib : Library) (options : JobOptions) (secretEnvVars : List EnvVar) :
    ({ Name := "RUNNER_CLUSTERID", Value := options.ClusterID } : EnvVar)
      ∈ jobEnvs lib options secretEnvVars ∧
    ({ Name := "RUNNER_WORKINGDIR", Value := options.WorkingDir } : EnvVar)
      ∈ jobEnvs lib options secretEnvVars := by
  unfold jobEnvs
  simp only []
  constructor
  · split <;> split <;> simp
  · simp

theorem forall₂_prefix_of_map (envs : List EnvVar) (decoded built : List Container)
    (h : built.map (fun ct => ct.Env) = decoded.map (fun ct => ct.Env ++ envs)) :
    List.Forall₂ (fun d b => b.Env = d.Env ++ envs) decoded built := by
  induction decoded generalizing built with
  | nil =>
    cases built with
    | nil => exact List.Forall₂.nil
    | cons b bs => simp at h
  | cons d ds ih =>
    cases built with
    | nil => simp at h
    | cons b bs =>
      simp only [List.map_cons, List.cons.injEq] at h
      exact List.Forall₂.cons h.1 (ih bs h.2)

/-- C14: for every `JobOptions` on which `NewJobSpec` succeeds, the environment of every init
container and of every main container of the built job contains the entry `RUNNER_CLUSTERID` with
value `options.ClusterID` and the entry `RUNNER_WORKINGDIR` with value `options.WorkingDir`, and the
built containers are, one for one and in order, the containers of the decoded manifest with the
entries the manifest gave them kept in order as a prefix of their environment. -/
theorem NewJobSpec_injects_environment (lib : Library) (options : JobOptions) (job : Job)
    (h : NewJobSpec lib options = Except.ok job) :
    (∀ ct ∈ job.InitContainers ++ job.Containers,
      ({ Name := "RUNNER_CLUSTERID", Value := options.ClusterID } : EnvVar) ∈ ct.Env ∧
      ({ Name := "RUNNER_WORKINGDIR", Value := options.WorkingDir } : EnvVar) ∈ ct.Env) ∧
    ∃ spec decoded, lib.DecodeJob spec = Except.ok decoded ∧
      List.Forall₂ (fun (d b : Container) => d.Env <+: b.Env) decoded.InitContainers job.InitContainers ∧
      List.Forall₂ (fun (d b : Container) => d.Env <+: b.Env) decoded.Containers job.Containers := by
  obtain ⟨buffer, spec, decoded, _, _, hdecoded, _, _, hinit, hmain⟩ := NewJobSpec_ok_shape h
  have hi := forall₂_prefix_of_map _ _ _ hinit
  have hm := forall₂_prefix_of_map _ _ _ hmain
  have henv := jobEnvs_mem lib (escapedOptions options)
    (lib.PrepareSecrets options.SecretEnvs options.Variables ++
      lib.PrepareGitCredentials options.UsernameSecret options.TokenSecret)
  have key : ∀ (ds bs : List Container),
      List.Forall₂ (fun d b => b.Env = d.Env ++ jobEnvs lib (escapedOptions options)
        (lib.PrepareSecrets options.SecretEnvs options.Variables ++
          lib.PrepareGitCredentials options.UsernameSecret options.TokenSecret)) ds bs →
      (∀ ct ∈ bs,
        ({ Name := "RUNNER_CLUSTERID", Value := options.ClusterID } : EnvVar) ∈ ct.Env ∧
        ({ Name := "RUNNER_WORKINGDIR", Value := options.WorkingDir } : EnvVar) ∈ ct.Env) ∧
      List.Forall₂ (fun (d b : Container) => d.Env <+: b.Env) ds bs := by
    intro ds bs hf
    induction hf with
    | nil => exact ⟨by simp, List.Forall₂.nil⟩
    | cons hab _ ih =>
      refine ⟨?_, List.Forall₂.cons ⟨_, hab.symm⟩ ih.2⟩
      intro ct hct
      rcases List.mem_cons.1 hct with rfl | hct
      · rw [hab]
        exact ⟨List.mem_append_right _ henv.1, List.mem_append_right _ henv.2⟩
      · exact ih.1 ct hct
  refine ⟨?_, spec, decoded, hdecoded, (key _ _ hi).2, (key _ _ hm).2⟩
  intro ct hct
  rcases List.mem_append.1 hct with hct | hct
  · exact (key _ _ hi).1 ct hct
  · exact (key _ _ hm).1 ct hct

/-- Witness of C14: the job built from `labelledOptions`. -/
theorem NewJobSpec_injects_environment_witness :
    (∃ job, NewJobSpec fixtureLibrary labelledOptions = Except.ok job) ∧
    ∀ job, NewJobSpec fixtureLibrary labelledOptions = Except.ok job →
      ∀ ct ∈ job.InitContainers ++ job.Containers,
        ({ Name := "RUNNER_CLUSTERID", Value := "c1" } : EnvVar) ∈ ct.Env ∧
        ({ Name := "RUNNER_WORKINGDIR", Value := "/data" } : EnvVar) ∈ ct.Env :=
  ⟨⟨_, rfl⟩, fun job h => (NewJobSpec_injects_environment fixtureLibrary labelledOptions job h).1⟩

theorem GoMap.get_nil (k : String) : GoMap.get ([] : GoMap String) k = none := rfl

theorem GoMap.get_append (a b : GoMap String) (k : String) :
    GoMap.get (a ++ b) k = (GoMap.get b k).or (GoMap.get a k) := by
  unfold GoMap.get
  rw [List.reverse_append, List.find?_append]
  cases List.find? (fun kv => kv.1 == k) b.reverse <;> simp

theorem setJobLabel_labels (job : Job) (key value : String) :
    (setJobLabel job key value).Labels = some (job.Labels.getD [] ++ [(key, value)]) ∧
    (setJobLabel job key value).TemplateLabels = some (job.TemplateLabels.getD [] ++ [(key, value)]) := by
  cases job with
  | mk name labels templateLabels inits mains status =>
    cases labels <;> cases templateLabels <;> exact ⟨rfl, rfl⟩

theorem foldl_setJobLabel_labels (labels : GoMap String) :
    ∀ job : Job, labels ≠ [] →
      (labels.foldl (fun job kv => setJobLabel job kv.1 kv.2) job).Labels
        = some (job.Labels.getD [] ++ labels) ∧
      (labels.foldl (fun job kv => setJobLabel job kv.1 kv.2) job).TemplateLabels
        = some (job.TemplateLabels.getD [] ++ labels) := by
  induction labels with
  | nil =>
    intro job h
    exact absurd rfl h
  | cons kv rest ih =>
    intro job _
    simp only [List.foldl_cons]
    obtain ⟨h1, h2⟩ := setJobLabel_labels job kv.1 kv.2
    by_cases hrest : rest = []
    · subst hrest
      simp only [List.foldl_nil]
      exact ⟨h1, h2⟩
    · obtain ⟨h3, h4⟩ := ih (setJobLabel job kv.1 kv.2) hrest
      rw [h3, h4, h1, h2]
      simp

/-- C15: for every `JobOptions` on which `NewJobSpec` succeeds and every key `k` of
`options.Labels`, the labels of the job and the labels of its pod template map `k` to
`options.Labels[k]`, whatever the decoded manifest gave to `k`, and every key that is not in
`options.Labels` reads in both as it does in the decoded manifest. -/
theorem NewJobSpec_labels (lib : Library) (options : JobOptions) (job : Job)
    (h : NewJobSpec lib options = Except.ok job) :
    ∃ spec decoded, lib.DecodeJob spec = Except.ok decoded ∧
      (∀ k v, options.Labels.get k = some v →
        lookupLabel job.Labels k = some v ∧ lookupLabel job.TemplateLabels k = some v) ∧
      (∀ k, options.Labels.get k = none →
        lookupLabel job.Labels k = lookupLabel decoded.Labels k ∧
        lookupLabel job.TemplateLabels k = lookupLabel decoded.TemplateLabels k) := by
  obtain ⟨buffer, spec, decoded, _, _, hdecoded, hl, htl, _, _⟩ := NewJobSpec_ok_shape h
  refine ⟨spec, decoded, hdecoded, ?_, ?_⟩
  · intro k v hk
    have hne : options.Labels ≠ [] := by
      intro hnil
      rw [hnil, GoMap.get_nil] at hk
      simp at hk
    obtain ⟨h1, h2⟩ := foldl_setJobLabel_labels options.Labels decoded hne
    rw [hl, htl, h1, h2]
    simp [lookupLabel, GoMap.get_append, hk]
  · intro k hk
    by_cases hne : options.Labels = []
    · rw [hl, htl, hne]
      exact ⟨rfl, rfl⟩
    · obtain ⟨h1, h2⟩ := foldl_setJobLabel_labels options.Labels decoded hne
      rw [hl, htl, h1, h2]
      constructor
      · cases hd : decoded.Labels <;> simp [lookupLabel, GoMap.get_append, hk, GoMap.get_nil]
      · cases hd : decoded.TemplateLabels <;> simp [lookupLabel, GoMap.get_append, hk, GoMap.get_nil]

/-- Witness of C15: the caller's `team: qa` wins over the manifest's `team: dev`, and the
manifest's `app: runner` is kept. -/
theorem NewJobSpec_labels_witness :
    (∃ job, NewJobSpec labellingLibrary labelledOptions = Except.ok job) ∧
    labelledOptions.Labels.get "team" = some "qa" ∧
    ∀ job, NewJobSpec labellingLibrary labelledOptions = Except.ok job →
      ∃ spec decoded, labellingLibrary.DecodeJob spec = Except.ok decoded ∧
        (∀ k v, labelledOptions.Labels.get k = some v →
          lookupLabel job.Labels k = some v ∧ lookupLabel job.TemplateLabels k = some v) ∧
        (∀ k, labelledOptions.Labels.get k = none →
          lookupLabel job.Labels k = lookupLabel decoded.Labels k ∧
          lookupLabel job.TemplateLabels k = lookupLabel decoded.TemplateLabels k) :=
  ⟨⟨_, rfl⟩, by decide, fun job h => NewJobSpec_labels labellingLibrary labelledOptions job h⟩

theorem charsBefore_irrefl : ∀ l : List Char, charsBefore l l = false
  | [] => rfl
  | a :: as => by
    unfold charsBefore
    simp [charsBefore_irrefl as]

theorem Fields.get_of_cons (key : String) (value : Doc) (rest : Fields) (k : String) :
    (Fields.cons key value rest).get k = if key = k then some value else rest.get k := by
  rw [Fields.get]

theorem Fields.get_of_append : ∀ (a b : Fields) (k : String),
    (a.append b).get k = (a.get k).or (b.get k)
  | .nil, b, k => by simp [Fields.append, Fields.get]
  | .cons key value rest, b, k => by
    have ih := Fields.get_of_append rest b k
    simp only [Fields.append, Fields.get]
    by_cases h : key = k <;> simp [h, ih]

theorem Fields.get_of_insert (key : String) (value : Doc) : ∀ (fs : Fields) (k : String),
    (Fields.insert key value fs).get k = if key = k then some value else fs.get k
  | .nil, k => by simp [Fields.insert, Fields.get]
  | .cons k0 v0 rest, k => by
    unfold Fields.insert
    by_cases hb : charsBefore k0.data key.data = true
    · have hne : k0 ≠ key := by
        intro h
        rw [h, charsBefore_irrefl] at hb
        exact Bool.false_ne_true hb
      rw [if_pos hb]
      unfold Fields.get
      rw [Fields.get_of_insert key value rest k]
      by_cases h0 : k0 = k
      · have : key ≠ k := fun h => hne (h0.trans h.symm)
        simp [h0, this]
      · simp [h0]
    · rw [if_neg hb]
      rw [Fields.get]

theorem Fields.get_of_sort : ∀ (fs : Fields) (k : String), fs.sort.get k = fs.get k
  | .nil, k => rfl
  | .cons key value rest, k => by
    unfold Fields.sort
    rw [Fields.get_of_insert, Fields.get_of_sort rest k]
    rfl

theorem addedFields_get_none (base : Fields) : ∀ (ofs : Fields) (k : String),
    ofs.get k = none ∨ base.get k ≠ none → (addedFields base ofs).get k = none
  | .nil, k, _ => rfl
  | .cons key value rest, k, h => by
    unfold addedFields
    have hrest : rest.get k = none ∨ base.get k ≠ none := by
      rcases h with h | h
      · left
        unfold Fields.get at h
        by_cases hk : key = k
        · simp [hk] at h
        · simpa [hk] using h
      · exact Or.inr h
    by_cases hkeep : ((base.get key).isNone && !value.isNull) = true
    · rw [if_pos hkeep]
      unfold Fields.get
      by_cases hk : key = k
      · exfalso
        rcases h with h | h
        · unfold Fields.get at h
          simp [hk] at h
        · rw [hk] at hkeep
          cases hb : base.get k with
          | none => exact h hb
          | some v => simp [hb] at hkeep
      · simp [hk, addedFields_get_none base rest k hrest]
    · rw [if_neg hkeep]
      exact addedFields_get_none base rest k hrest

theorem addedFields_get_some (base : Fields) : ∀ (ofs : Fields) (k : String) (v : Doc),
    ofs.get k = some v → v.isNull = false → base.get k = none → (addedFields base ofs).get k = some v
  | .nil, k, v, h, _, _ => by simp [Fields.get] at h
  | .cons key value rest, k, v, h, hv, hb => by
    unfold addedFields
    unfold Fields.get at h
    by_cases hk : key = k
    · simp only [hk, if_true, Option.some.injEq] at h
      subst h
      have hkeep : ((base.get key).isNone && !value.isNull) = true := by simp [hk, hb, hv]
      rw [if_pos hkeep]
      unfold Fields.get
      simp [hk]
    · simp only [hk, if_false] at h
      have ih := addedFields_get_some base rest k v h hv hb
      by_cases hkeep : ((base.get key).isNone && !value.isNull) = true
      · rw [if_pos hkeep]
        unfold Fields.get
        simp [hk, ih]
      · rw [if_neg hkeep]
        exact ih

theorem mergeKept_get (ofs : Fields) : ∀ (bfs kept : Fields) (k : String),
    mergeKept ofs bfs = some kept →
    (bfs.get k = none → kept.get k = none) ∧
    (ofs.get k = none → kept.get k = bfs.get k) ∧
    (∀ ov, ofs.get k = some ov → ov.isNull = true → kept.get k = none) ∧
    (∀ ov v, ofs.get k = some ov → ov.isNull = false → bfs.get k = some v →
      ∃ m, mergeDoc ov v = some m ∧ kept.get k = some m)
  | .nil, kept, k, h => by
    rw [mergeKept] at h
    cases h
    simp [Fields.get]
  | .cons key value rest, kept, k, h => by
    rw [mergeKept] at h
    cases hget : ofs.get key with
    | none =>
      rw [hget] at h
      simp only [Option.map_eq_some'] at h
      obtain ⟨r, hr, rfl⟩ := h
      obtain ⟨ha, hb, hc, hd⟩ := mergeKept_get ofs rest r k hr
      simp only [Fields.get_of_cons]
      by_cases hk : key = k
      · subst hk
        simp [hget]
      · simp only [hk, if_false]
        exact ⟨ha, hb, hc, hd⟩
    | some ov0 =>
      rw [hget] at h
      simp only [] at h
      by_cases hnull : ov0.isNull = true
      · rw [if_pos hnull] at h
        obtain ⟨ha, hb, hc, hd⟩ := mergeKept_get ofs rest kept k h
        simp only [Fields.get_of_cons]
        by_cases hk : key = k
        · subst hk
          refine ⟨fun h0 => by simp at h0, fun h0 => by simp [hget] at h0,
            fun ov hov hn => hc ov hov hn, fun ov v hov hn _ => ?_⟩
          rw [hget] at hov
          cases hov
          rw [hnull] at hn
          exact absurd hn (by simp)
        · simp only [hk, if_false]
          exact ⟨ha, hb, hc, hd⟩
      · rw [if_neg hnull] at h
        cases hm : mergeDoc ov0 value with
        | none => simp [hm] at h
        | some m =>
          cases hr : mergeKept ofs rest with
          | none => simp [hm, hr] at h
          | some r =>
            simp only [hm, hr, Option.some.injEq] at h
            subst h
            obtain ⟨ha, hb, hc, hd⟩ := mergeKept_get ofs rest r k hr
            simp only [Fields.get_of_cons]
            by_cases hk : key = k
            · subst hk
              refine ⟨fun h0 => by simp at h0, fun h0 => by simp [hget] at h0,
                fun ov hov hn => ?_, fun ov v hov _ hv => ?_⟩
              · rw [hget] at hov
                cases hov
                exact absurd hn hnull
              · rw [hget] at hov
                cases hov
                simp only [if_true, Option.some.injEq] at hv
                subst hv
                exact ⟨m, hm, by simp⟩
            · simp only [hk, if_false]
              exact ⟨ha, hb, hc, hd⟩

theorem mergeDoc_fields (o b : Fields) (merged : Doc) (h : mergeDoc (Doc.map o) (Doc.map b) = some merged) :
    ∃ m, merged = Doc.map m ∧ ∀ k,
      (∀ s, o.get k = some (Doc.scalar s) → m.get k = some (Doc.scalar s)) ∧
      (o.get k = none → m.get k = b.get k) ∧
      (∀ v, o.get k = some v → v.isNull = false → b.get k = none → m.get k = some v) ∧
      (∀ ov bv, o.get k = some (Doc.map ov) → b.get k = some (Doc.map bv) →
        ∃ sub, mergeDoc (Doc.map ov) (Doc.map bv) = some sub ∧ m.get k = some sub) ∧
      (o.get k = some Doc.null → b.get k ≠ none → m.get k = none) := by
  rw [mergeDoc] at h
  simp only [Option.map_eq_some'] at h
  obtain ⟨kept, hkept, rfl⟩ := h
  refine ⟨_, rfl, fun k => ?_⟩
  obtain ⟨ha, hb, hc, hd⟩ := mergeKept_get o b kept k hkept
  rw [Fields.get_of_append, Fields.get_of_sort]
  refine ⟨fun s hs => ?_, fun hnone => ?_, fun v hv hn hbn => ?_, fun ov bv hov hbv => ?_, fun hnull hbn => ?_⟩
  · cases hbk : b.get k with
    | none =>
      rw [ha hbk, addedFields_get_some b o k _ hs rfl hbk]
      rfl
    | some v =>
      obtain ⟨m, hm, hk⟩ := hd _ v hs rfl hbk
      rw [hk]
      cases v with
      | null => rw [mergeDoc] at hm; cases hm; rfl
      | scalar t => rw [mergeDoc] at hm; cases hm; rfl
      | map bfs => rw [mergeDoc] at hm; simp at hm
  · rw [hb hnone, addedFields_get_none b o k (Or.inl hnone)]
    cases b.get k <;> rfl
  · rw [ha hbn, addedFields_get_some b o k v hv hn hbn]
    rfl
  · obtain ⟨m, hm, hk⟩ := hd _ _ hov rfl hbv
    exact ⟨m, hm, by rw [hk]; rfl⟩
  · rw [hc _ hnull rfl, addedFields_get_none b o k (Or.inr hbn)]
    rfl

theorem foldl_setJobLabel_identity (labels : GoMap String) :
    ∀ job : Job,
      (labels.foldl (fun job kv => setJobLabel job kv.1 kv.2) job).Name = job.Name ∧
      (labels.foldl (fun job kv => setJobLabel job kv.1 kv.2) job).Status = job.Status := by
  induction labels with
  | nil =>
    intro job
    exact ⟨rfl, rfl⟩
  | cons kv rest ih =>
    intro job
    simp only [List.foldl_cons]
    obtain ⟨h1, h2⟩ := ih (setJobLabel job kv.1 kv.2)
    rw [h1, h2]
    cases job with
    | mk name labels templateLabels inits mains status =>
      cases labels <;> cases templateLabels <;> exact ⟨rfl, rfl⟩

/-- The name and the status of the job a successful `NewJobSpec` returns are those of the
decoded manifest. -/
theorem NewJobSpec_ok_identity {lib : Library} {options : JobOptions} {job : Job}
    (h : NewJobSpec lib options = Except.ok job) :
    ∃ buffer spec decoded,
      lib.ExecuteTemplate "job" options.JobTemplate (escapedOptions options) = Except.ok buffer ∧
      mergeJobTemplateExtensions lib (escapedOptions options) buffer = Except.ok spec ∧
      lib.DecodeJob spec = Except.ok decoded ∧
      job.Name = decoded.Name ∧ job.Status = decoded.Status := by
  unfold NewJobSpec at h
  simp only [] at h
  split at h
  · simp at h
  · split at h
    · simp at h
    · rename_i buffer hbuffer
      split at h
      · simp at h
      · rename_i spec hspec
        split at h
        · simp at h
        · rename_i decoded hdecoded
          simp only [Except.ok.injEq] at h
          subst h
          exact ⟨buffer, spec, decoded, hbuffer, hspec, hdecoded,
            (foldl_setJobLabel_identity _ decoded).1, (foldl_setJobLabel_identity _ decoded).2⟩

/-- What the extension step of `NewJobSpec` does over the modelled merge: it renders the
extension, reads it and the rendered job as documents, and gives the merged document written
back. -/
theorem mergeJobTemplateExtensions_merged (lib : Library) (options : JobOptions) (base spec : String)
    (hext : options.JobTemplateExtensions ≠ "")
    (h : mergeJobTemplateExtensions (withMergeStrings lib) options base = Except.ok spec) :
    ∃ ext overlay baseDoc merged,
      lib.ExecuteTemplate "jobExt" options.JobTemplateExtensions options = Except.ok ext ∧
      parseDoc ext = some overlay ∧ parseDoc base = some baseDoc ∧
      mergeDoc overlay baseDoc = some merged ∧ spec = printDoc merged := by
  have hext2 : (options.JobTemplateExtensions != "") = true := by simpa using hext
  unfold mergeJobTemplateExtensions at h
  simp only [hext2, if_true] at h
  split at h
  · simp at h
  · split at h
    · simp at h
    · rename_i ext hrendered
      split at h
      · simp at h
      · rename_i merged hmerged
        simp only [Except.ok.injEq] at h
        subst h
        have hm : MergeStrings ext base = Except.ok merged := hmerged
        unfold MergeStrings at hm
        cases ho : parseDoc ext with
        | none => simp [ho] at hm
        | some overlay =>
          cases hb : parseDoc base with
          | none => simp [ho, hb] at hm
          | some baseDoc =>
            cases hd : mergeDoc overlay baseDoc with
            | none => simp [ho, hb, hd] at hm
            | some doc =>
              simp only [ho, hb, hd, Except.ok.injEq] at hm
              exact ⟨ext, overlay, baseDoc, doc, hrendered, ho, rfl, hd, hm.symm⟩

/-- C16: over the manifest merge as modelled, when `JobTemplateExtensions` is not empty and
`NewJobSpec` succeeds, the manifest it decodes into the job is the rendered extension merged onto
the rendered job template, the extension taking precedence: a scalar field of the extension has
the extension's value, a field the extension does not have reads as in the base, a field only
the extension has is added, a mapping in both is merged in the same way, and a null of the
extension clears the field of the base.  For the base `{a: 1, b: 2}` and the extension
`{b: 3, c: 4}` the manifest decoded is `{a: 1, b: 3, c: 4}`.  The job returned has the name
and the status of the job decoded from that manifest, and its labels are those of the decoded job
with the caller's labels set on them. -/
theorem NewJobSpec_merges_extension (lib : Library) (options : JobOptions) (job : Job)
    (hext : options.JobTemplateExtensions ≠ "")
    (hok : NewJobSpec (withMergeStrings lib) options = Except.ok job) :
    ∃ base ext overlay baseDoc merged decoded,
      lib.ExecuteTemplate "job" options.JobTemplate (escapedOptions options) = Except.ok base ∧
      lib.ExecuteTemplate "jobExt" options.JobTemplateExtensions (escapedOptions options)
        = Except.ok ext ∧
      parseDoc ext = some overlay ∧ parseDoc base = some baseDoc ∧
      mergeDoc overlay baseDoc = some merged ∧
      lib.DecodeJob (printDoc merged) = Except.ok decoded ∧
      job.Name = decoded.Name ∧ job.Status = decoded.Status ∧
      job.Labels = (options.Labels.foldl (fun job kv => setJobLabel job kv.1 kv.2) decoded).Labels ∧
      job.TemplateLabels
        = (options.Labels.foldl (fun job kv => setJobLabel job kv.1 kv.2) decoded).TemplateLabels ∧
      (∀ o b, overlay = Doc.map o → baseDoc = Doc.map b →
        ∃ m, merged = Doc.map m ∧ ∀ k,
          (∀ s, o.get k = some (Doc.scalar s) → m.get k = some (Doc.scalar s)) ∧
          (o.get k = none → m.get k = b.get k) ∧
          (∀ v, o.get k = some v → v.isNull = false → b.get k = none → m.get k = some v) ∧
          (∀ ov bv, o.get k = some (Doc.map ov) → b.get k = some (Doc.map bv) →
            ∃ sub, mergeDoc (Doc.map ov) (Doc.map bv) = some sub ∧ m.get k = some sub) ∧
          (o.get k = some Doc.null → b.get k ≠ none → m.get k = none)) ∧
      (base = "\x7ba: 1, b: 2\x7d" → ext = "\x7bb: 3, c: 4\x7d" →
        printDoc merged = "\x7ba: 1, b: 3, c: 4\x7d" ∧
        merged = Doc.map (Fields.cons "a" (Doc.scalar "1") (Fields.cons "b" (Doc.scalar "3")
          (Fields.cons "c" (Doc.scalar "4") Fields.nil)))) := by
  obtain ⟨buffer, spec, decoded, hbuffer, hspec, hdecoded, hlabels, htemplate, _, _⟩ :=
    NewJobSpec_ok_shape hok
  obtain ⟨buffer2, spec2, decoded2, hbuffer2, hspec2, hdecoded2, hname, hstatus⟩ :=
    NewJobSpec_ok_identity hok
  rw [hbuffer] at hbuffer2
  cases hbuffer2
  rw [hspec] at hspec2
  cases hspec2
  rw [hdecoded] at hdecoded2
  cases hdecoded2
  have hext2 : (escapedOptions options).JobTemplateExtensions ≠ "" := by
    simpa [escapedOptions] using hext
  obtain ⟨ext, overlay, baseDoc, merged, hrendered, ho, hb, hm, rfl⟩ :=
    mergeJobTemplateExtensions_merged lib (escapedOptions options) buffer spec hext2 hspec
  refine ⟨buffer, ext, overlay, baseDoc, merged, decoded, hbuffer, hrendered, ho, hb, hm, hdecoded,
    hname, hstatus, hlabels, htemplate, ?_, ?_⟩
  · intro o b hov hbv
    subst hov hbv
    exact mergeDoc_fields o b merged hm
  · intro hbase hextText
    subst hbase hextText
    have ho2 : parseDoc "\x7bb: 3, c: 4\x7d"
        = some (Doc.map (Fields.cons "b" (Doc.scalar "3") (Fields.cons "c" (Doc.scalar "4") Fields.nil))) := by
      rfl
    have hb2 : parseDoc "\x7ba: 1, b: 2\x7d"
        = some (Doc.map (Fields.cons "a" (Doc.scalar "1") (Fields.cons "b" (Doc.scalar "2") Fields.nil))) := by
      rfl
    rw [ho2] at ho
    rw [hb2] at hb
    cases ho
    cases hb
    have hm2 : mergeDoc (Doc.map (Fields.cons "b" (Doc.scalar "3") (Fields.cons "c" (Doc.scalar "4") Fields.nil)))
        (Doc.map (Fields.cons "a" (Doc.scalar "1") (Fields.cons "b" (Doc.scalar "2") Fields.nil)))
        = some (Doc.map (Fields.cons "a" (Doc.scalar "1") (Fields.cons "b" (Doc.scalar "3")
          (Fields.cons "c" (Doc.scalar "4") Fields.nil)))) := by
      rfl
    rw [hm2] at hm
    cases hm
    exact ⟨by decide, rfl⟩

/-- Witness of C16: the template renders to `{a: 1, b: 2}` and the extension to `{b: 3, c: 4}`;
the job is decoded from `{a: 1, b: 3, c: 4}`, which the fixture keeps as the name of the job. -/
theorem NewJobSpec_merges_extension_witness :
    extendedOptions.JobTemplateExtensions ≠ "" ∧
    (∃ job, NewJobSpec (withMergeStrings fixtureLibrary) extendedOptions = Except.ok job ∧
      job.Name = "\x7ba: 1, b: 3, c: 4\x7d") ∧
    MergeStrings "\x7bb: null, z: 1, d: 5, m: \x7bq: 2\x7d\x7d" "\x7ba: 1, b: 2, m: \x7bp: 1\x7d\x7d"
      = Except.ok "\x7ba: 1, m: \x7bp: 1, q: 2\x7d, d: 5, z: 1\x7d" ∧
    ∃ base ext overlay baseDoc merged decoded,
      fixtureLibrary.ExecuteTemplate "job" extendedOptions.JobTemplate (escapedOptions extendedOptions)
        = Except.ok base ∧
      fixtureLibrary.ExecuteTemplate "jobExt" extendedOptions.JobTemplateExtensions
        (escapedOptions extendedOptions) = Except.ok ext ∧
      parseDoc ext = some overlay ∧ parseDoc base = some baseDoc ∧
      mergeDoc overlay baseDoc = some merged ∧
      fixtureLibrary.DecodeJob (printDoc merged) = Except.ok decoded :=
  ⟨by decide, ⟨_, rfl, by decide⟩, by decide,
    (NewJobSpec_merges_extension fixtureLibrary extendedOptions _ (by decide) rfl).imp
      fun _ h => h.imp fun _ h => h.imp fun _ h => h.imp fun _ h => h.imp fun _ h => h.imp fun _ h =>
        ⟨h.1, h.2.1, h.2.2.1, h.2.2.2.1, h.2.2.2.2.1, h.2.2.2.2.2.1⟩⟩

/-! ### Claims on synchronous `Execute` -/

/-- When a run of `stopExecution` reached the second persist, `*result` is left as the record of
that persist holds it. -/
theorem stopExecution_result_of_update (c : JobExecutor) (hist : History) (heap : Heap)
    (execution : Execution) (result : Ptr) (isNegativeTest : Bool) (passedErr : Option Err)
    {id : String} {r : ExecutionRecord} {upd : Option Err}
    (hmem : Effect.repositoryUpdateResult id r upd ∈
      (c.stopExecution hist heap execution result isNegativeTest passedErr).events) :
    (c.stopExecution hist heap execution result isNegativeTest passedErr).heap.read result
      = r.ExecutionResult := by
  rcases stopExecution_cases c hist heap execution result isNegativeTest passedErr with
    ⟨got, hev⟩ | ⟨saved, hget, hc, ht⟩
  · rw [hev] at hmem
    simp at hmem
  · obtain ⟨_, hr⟩ := stopExecution_update_mem c hist heap execution result isNegativeTest passedErr
      saved hget hc ht hmem
    rw [stopExecution_heap_of_update c hist heap execution result isNegativeTest passedErr saved
      hget hc ht hmem, hr, updatedRecord_result]

/-- The deferred finalization: every run of `updateResultsFromLogs` ends with a run of
`stopExecution` on the result it returns, with the error it returns as `passedErr`; what comes
before are calls to the cluster only. -/
theorem updateResultsFromLogs_finalizes (c : JobExecutor) (hist : History) (heap : Heap) (pod : Pod)
    (execution : Execution) (isNegativeTest : Bool) (ev : List Effect) :
    ∃ pre stopHist stopHeap stopExec,
      (c.updateResultsFromLogs hist heap pod execution isNegativeTest ev).events
        = ev ++ pre ++ (c.stopExecution stopHist stopHeap stopExec
            (c.updateResultsFromLogs hist heap pod execution isNegativeTest ev).result isNegativeTest
            (c.updateResultsFromLogs hist heap pod execution isNegativeTest ev).err).events ∧
      (c.updateResultsFromLogs hist heap pod execution isNegativeTest ev).heap
        = (c.stopExecution stopHist stopHeap stopExec
            (c.updateResultsFromLogs hist heap pod execution isNegativeTest ev).result isNegativeTest
            (c.updateResultsFromLogs hist heap pod execution isNegativeTest ev).err).heap ∧
      (∀ x ∈ pre, x.isPodObservation = true) ∧ stopExec.Id = execution.Id := by
  unfold JobExecutor.updateResultsFromLogs
  simp only []
  generalize c.ClientSet.GetPodLogs (hist ++ ev) c.Namespace pod = logs
  cases logs with
  | error e =>
    exact ⟨[Effect.getPodLogs pod.Name (Except.error e)], _, _, _, by simp, rfl,
      by simp [Effect.isPodObservation], rfl⟩
  | ok text =>
    simp only []
    generalize c.lib.ParseRunnerOutput text = parsed
    cases hp : parsed.2 with
    | some e =>
      simp only []
      exact ⟨[Effect.getPodLogs pod.Name (Except.ok text)], _, _, _, by simp, rfl,
        by simp [Effect.isPodObservation], rfl⟩
    | none =>
      simp only []
      refine ⟨_ :: _, _, _, _, by simp only [List.append_assoc, List.singleton_append]; rfl, rfl, ?_, rfl⟩
      intro x hx
      rcases List.mem_cons.1 hx with rfl | hx
      · simp [Effect.isPodObservation]
      · split at hx
        · split at hx
          · simp only [List.mem_singleton] at hx
            subst hx
            simp [Effect.isPodObservation]
          · simp at hx
        · simp at hx

theorem updateResultsFromPod_finalizes (c : JobExecutor) (hist : History) (heap : Heap) (pod : Pod)
    (execution : Execution) (isNegativeTest : Bool) :
    ∃ pre stopHist stopHeap stopExec,
      (c.updateResultsFromPod hist heap pod execution isNegativeTest).events
        = pre ++ (c.stopExecution stopHist stopHeap stopExec
            (c.updateResultsFromPod hist heap pod execution isNegativeTest).result isNegativeTest
            (c.updateResultsFromPod hist heap pod execution isNegativeTest).err).events ∧
      (c.updateResultsFromPod hist heap pod execution isNegativeTest).heap
        = (c.stopExecution stopHist stopHeap stopExec
            (c.updateResultsFromPod hist heap pod execution isNegativeTest).result isNegativeTest
            (c.updateResultsFromPod hist heap pod execution isNegativeTest).err).heap ∧
      (∀ x ∈ pre, x.isPodObservation = true) ∧ stopExec.Id = execution.Id := by
  unfold JobExecutor.updateResultsFromPod
  simp only []
  obtain ⟨pre, stopHist, stopHeap, stopExec, h1, h2, h3, h4⟩ := updateResultsFromLogs_finalizes c hist
    (match c.ClientSet.PollPodReady
        (hist ++ [Effect.pollPodLoggable pod.Name (c.ClientSet.PollPodLoggable hist c.Namespace pod.Name)])
        c.Namespace pod.Name with
      | some err => heap.write execution.ExecutionResult ((heap.read execution.ExecutionResult).Err err)
      | none => heap) pod execution isNegativeTest
    ([Effect.pollPodLoggable pod.Name (c.ClientSet.PollPodLoggable hist c.Namespace pod.Name)] ++
      [Effect.pollPodReady pod.Name (c.ClientSet.PollPodReady
        (hist ++ [Effect.pollPodLoggable pod.Name (c.ClientSet.PollPodLoggable hist c.Namespace pod.Name)])
        c.Namespace pod.Name)])
  refine ⟨_ ++ pre, stopHist, stopHeap, stopExec, h1, h2, ?_, h4⟩
  intro x hx
  rcases List.mem_append.1 hx with hx | hx
  · simp only [List.singleton_append, List.mem_cons, List.mem_singleton, List.not_mem_nil, or_false] at hx
    rcases hx with rfl | rfl <;> simp [Effect.isPodObservation]
  · exact h3 x hx

theorem CreateJob_events_stage (c : JobExecutor) (hist : History) (execution : ExecutionRecord)
    (options : ExecuteOptions) : ∀ x ∈ (c.CreateJob hist execution options).events, 13 ≤ x.stage := by
  intro x hx
  rcases CreateJob_events c hist execution options x hx with ⟨n, r, rfl⟩ | ⟨j, r, rfl⟩ <;>
    simp [Effect.stage]

theorem stage_of_isPodObservation {x : Effect} (h : x.isPodObservation = true) :
    x.stage = 13 ∧ x.isGoroutine = false := by
  cases x <;> simp [Effect.isPodObservation] at h <;> exact ⟨rfl, rfl⟩

theorem isGoroutine_of_stage {x : Effect} (h : x.stage ≤ 12) : x.isGoroutine = false := by
  cases x <;> simp [Effect.stage] at h <;> rfl

/-- After a successful `CreateJob`, `Execute` is the rest of its body run on the execution that
points to the fresh result. -/
theorem Execute_created (c : JobExecutor) (hist : History) (heap : Heap) (execution : Execution)
    (options : ExecuteOptions)
    (hcreate : (c.CreateJob hist (executionAtCreate heap execution) options).err = none) :
    c.Execute hist heap execution options
      = c.executeCreated hist (heap.alloc NewRunningExecutionResult).2
          { execution with
            ExecutionResult := (heap.alloc NewRunningExecutionResult).1
            Variables := (c.CreateJob hist (executionAtCreate heap execution) options).sharedVariables }
          options (heap.alloc NewRunningExecutionResult).1
          (c.CreateJob hist (executionAtCreate heap execution) options).events := by
  unfold executionAtCreate at hcreate ⊢
  unfold JobExecutor.Execute
  simp only [hcreate]


/-! ### Synchronous `Execute` -/

/-- C11, as stated, fails: in synchronous mode, with the job created and the pod lookup answering
with one pod of the job that is still in phase `Running`, `Execute` returns without any
finalization and the result it returns has status `Running`. -/
theorem Execute_sync_running_pod_not_finalized :
    syncOptions.Sync = true ∧
    ((podFindingExecutor (savedRecord ExecutionStatus.running) [podOfE1 PodPhase.running]).CreateJob []
      (executionAtCreate Heap.empty executionE1) syncOptions).err = none ∧
    ((podFindingExecutor (savedRecord ExecutionStatus.running) [podOfE1 PodPhase.running]).Execute []
      Heap.empty executionE1 syncOptions).err = none ∧
    (((podFindingExecutor (savedRecord ExecutionStatus.running) [podOfE1 PodPhase.running]).Execute []
      Heap.empty executionE1 syncOptions).heap.read
        ((podFindingExecutor (savedRecord ExecutionStatus.running) [podOfE1 PodPhase.running]).Execute []
          Heap.empty executionE1 syncOptions).result).Status = some ExecutionStatus.running ∧
    finalizationEffects ((podFindingExecutor (savedRecord ExecutionStatus.running)
      [podOfE1 PodPhase.running]).Execute [] Heap.empty executionE1 syncOptions).events = [] := by
  decide

/-- C11, amended: in synchronous mode, when the job was created and the pod lookup answered with
the pods `items`, `Execute` starts no goroutine.  If `items` holds a pod of the job (label
`job-name` equal to the execution id) whose phase is not `Running`, the run ends with a complete
`stopExecution` run of this execution on the returned result, with the returned error as
`passedErr`, and whenever that run performed the final persist the returned result is the persisted
one.  If `items` holds no such pod, `Execute` returns a fresh `Running` result and no error, and
performs no finalization. -/
theorem Execute_sync_finalizes (c : JobExecutor) (hist : History) (heap : Heap) (execution : Execution)
    (options : ExecuteOptions) (items : List Pod)
    (hsync : options.Sync = true)
    (hcreate : (c.CreateJob hist (executionAtCreate heap execution) options).err = none)
    (hpods : c.ClientSet.GetJobPods
      (hist ++ (c.CreateJob hist (executionAtCreate heap execution) options).events)
      c.Namespace execution.Id = Except.ok items) :
    (∀ x ∈ (c.Execute hist heap execution options).events, x.isGoroutine = false) ∧
    (∀ pod, items.find? (fun pod =>
        pod.Phase != PodPhase.running && (pod.Labels.get "job-name").getD "" == execution.Id) = some pod →
      (∃ pre stopHist stopHeap stopExec,
        (c.Execute hist heap execution options).events
          = pre ++ (c.stopExecution stopHist stopHeap stopExec (c.Execute hist heap execution options).result
              options.Request.NegativeTest (c.Execute hist heap execution options).err).events ∧
        (c.Execute hist heap execution options).heap
          = (c.stopExecution stopHist stopHeap stopExec (c.Execute hist heap execution options).result
              options.Request.NegativeTest (c.Execute hist heap execution options).err).heap ∧
        (∀ x ∈ pre, 13 ≤ x.stage) ∧ stopExec.Id = execution.Id) ∧
      (∀ id r upd, Effect.repositoryUpdateResult id r upd ∈ (c.Execute hist heap execution options).events →
        (c.Execute hist heap execution options).heap.read (c.Execute hist heap execution options).result
          = r.ExecutionResult)) ∧
    (items.find? (fun pod =>
        pod.Phase != PodPhase.running && (pod.Labels.get "job-name").getD "" == execution.Id) = none →
      (c.Execute hist heap execution options).err = none ∧
      (c.Execute hist heap execution options).heap.read (c.Execute hist heap execution options).result
        = NewRunningExecutionResult ∧
      finalizationEffects (c.Execute hist heap execution options).events = []) := by
  rw [Execute_created c hist heap execution options hcreate]
  have hcr := CreateJob_events_stage c hist (executionAtCreate heap execution) options
  unfold JobExecutor.executeCreated
  simp only [hsync, Bool.not_true, Bool.false_eq_true, if_false, hpods, if_true]
  have hgo : ∀ x ∈ (c.CreateJob hist (executionAtCreate heap execution) options).events,
      x.isGoroutine = false := by
    intro x hx
    rcases CreateJob_events c hist (executionAtCreate heap execution) options x hx with
      ⟨n, r, rfl⟩ | ⟨j, r, rfl⟩ <;> rfl
  refine ⟨?_, ?_, ?_⟩
  · cases hfind : items.find? (fun pod =>
        pod.Phase != PodPhase.running && (pod.Labels.get "job-name").getD "" == execution.Id) with
    | none =>
      intro x hx
      rcases List.mem_append.1 hx with hx | hx
      · exact hgo x hx
      · have : x = Effect.getJobPods execution.Id (Except.ok items) := by simpa using hx
        rw [this]
        rfl
    | some pod =>
      simp only []
      obtain ⟨pre, stopHist, stopHeap, stopExec, h1, _, h3, _⟩ := updateResultsFromPod_finalizes c
        (hist ++ ((c.CreateJob hist (executionAtCreate heap execution) options).events ++
          [Effect.getJobPods execution.Id (Except.ok items)]))
        (heap.alloc NewRunningExecutionResult).2 pod
        { execution with
          ExecutionResult := (heap.alloc NewRunningExecutionResult).1
          Variables := (c.CreateJob hist (executionAtCreate heap execution) options).sharedVariables }
        options.Request.NegativeTest
      intro x hx
      rcases List.mem_append.1 hx with hx | hx
      · rcases List.mem_append.1 hx with hx | hx
        · exact hgo x hx
        · have : x = Effect.getJobPods execution.Id (Except.ok items) := by simpa using hx
          rw [this]
          rfl
      · rw [h1] at hx
        rcases List.mem_append.1 hx with hx | hx
        · exact (stage_of_isPodObservation (h3 x hx)).2
        · exact isGoroutine_of_stage ((stopExecution_trace _ _ _ _ _ _ _).2.2.2 x hx)
  · intro pod hfind
    simp only [hfind]
    obtain ⟨pre, stopHist, stopHeap, stopExec, h1, h2, h3, h4⟩ := updateResultsFromPod_finalizes c
      (hist ++ ((c.CreateJob hist (executionAtCreate heap execution) options).events ++
        [Effect.getJobPods execution.Id (Except.ok items)]))
      (heap.alloc NewRunningExecutionResult).2 pod
      { execution with
        ExecutionResult := (heap.alloc NewRunningExecutionResult).1
        Variables := (c.CreateJob hist (executionAtCreate heap execution) options).sharedVariables }
      options.Request.NegativeTest
    have hpre : ∀ x ∈ ((c.CreateJob hist (executionAtCreate heap execution) options).events ++
        [Effect.getJobPods execution.Id (Except.ok items)]) ++ pre, 13 ≤ x.stage := by
      intro x hx
      rcases List.mem_append.1 hx with hx | hx
      · rcases List.mem_append.1 hx with hx | hx
        · exact hcr x hx
        · have : x = Effect.getJobPods execution.Id (Except.ok items) := by simpa using hx
          rw [this]
          simp [Effect.stage]
      · exact (stage_of_isPodObservation (h3 x hx)).1.ge
    refine ⟨⟨_ ++ pre, stopHist, stopHeap, stopExec, ?_, h2, hpre, h4⟩, ?_⟩
    · rw [h1]
      simp only [List.append_assoc]
    · intro id r upd hmem
      rw [h1] at hmem
      rw [h2]
      have hin : Effect.repositoryUpdateResult id r upd ∈ (c.stopExecution stopHist stopHeap stopExec
          (c.updateResultsFromPod
            (hist ++ ((c.CreateJob hist (executionAtCreate heap execution) options).events ++
              [Effect.getJobPods execution.Id (Except.ok items)]))
            (heap.alloc NewRunningExecutionResult).2 pod
            { execution with
              ExecutionResult := (heap.alloc NewRunningExecutionResult).1
              Variables := (c.CreateJob hist (executionAtCreate heap execution) options).sharedVariables }
            options.Request.NegativeTest).result options.Request.NegativeTest
          (c.updateResultsFromPod
            (hist ++ ((c.CreateJob hist (executionAtCreate heap execution) options).events ++
              [Effect.getJobPods execution.Id (Except.ok items)]))
            (heap.alloc NewRunningExecutionResult).2 pod
            { execution with
              ExecutionResult := (heap.alloc NewRunningExecutionResult).1
              Variables := (c.CreateJob hist (executionAtCreate heap execution) options).sharedVariables }
            options.Request.NegativeTest).err).events := by
        rcases List.mem_append.1 hmem with hx | hx
        · have := hpre _ (List.mem_append_left _ hx)
          simp [Effect.stage] at this
        · rcases List.mem_append.1 hx with hx | hx
          · have := hpre _ (List.mem_append_right _ hx)
            simp [Effect.stage] at this
          · exact hx
      exact stopExecution_result_of_update c _ _ _ _ _ _ hin
  · intro hfind
    simp only [hfind]
    refine ⟨trivial, Heap.read_alloc _ _, ?_⟩
    unfold finalizationEffects
    rw [List.filter_eq_nil_iff]
    intro x hx
    have h13 : 13 ≤ x.stage := by
      rcases List.mem_append.1 hx with hx | hx
      · exact hcr x hx
      · have : x = Effect.getJobPods execution.Id (Except.ok items) := by simpa using hx
        rw [this]
        simp [Effect.stage]
    simp only [decide_eq_true_eq]
    omega

/-- Witness for `Execute_sync_finalizes`: a synchronous execution whose pod has succeeded. -/
theorem Execute_sync_finalizes_witness :
    syncOptions.Sync = true ∧
    ((podFindingExecutor (savedRecord ExecutionStatus.running) [podOfE1 PodPhase.succeeded]).Execute []
      Heap.empty executionE1 syncOptions).err = none ∧
    (((podFindingExecutor (savedRecord ExecutionStatus.running) [podOfE1 PodPhase.succeeded]).Execute []
      Heap.empty executionE1 syncOptions).heap.read
        ((podFindingExecutor (savedRecord ExecutionStatus.running) [podOfE1 PodPhase.succeeded]).Execute []
          Heap.empty executionE1 syncOptions).result).Status = some ExecutionStatus.passed ∧
    (∀ id r upd, Effect.repositoryUpdateResult id r upd ∈
        ((podFindingExecutor (savedRecord ExecutionStatus.running) [podOfE1 PodPhase.succeeded]).Execute []
          Heap.empty executionE1 syncOptions).events →
      ((podFindingExecutor (savedRecord ExecutionStatus.running) [podOfE1 PodPhase.succeeded]).Execute []
        Heap.empty executionE1 syncOptions).heap.read
          ((podFindingExecutor (savedRecord ExecutionStatus.running) [podOfE1 PodPhase.succeeded]).Execute []
            Heap.empty executionE1 syncOptions).result = r.ExecutionResult) :=
  ⟨by decide, by decide, by decide,
    ((Execute_sync_finalizes
      (podFindingExecutor (savedRecord ExecutionStatus.running) [podOfE1 PodPhase.succeeded]) []
      Heap.empty executionE1 syncOptions [podOfE1 PodPhase.succeeded] (by decide) (by decide)
      (by decide)).2.1 (podOfE1 PodPhase.succeeded) (by decide)).2⟩

/-! ### The job template chosen by `NewJobOptions` -/

theorem newJobOptionsFinish_JobTemplate (lib : Library)
    (initImage serviceAccountName registry clusterID : String)
    (execution : ExecutionRecord) (options : ExecuteOptions) (jobOptions : JobOptions) (ev : List Effect) :
    (newJobOptionsFinish lib initImage serviceAccountName registry clusterID execution options jobOptions
      ev).jobOptions.JobTemplate = jobOptions.JobTemplate := by
  unfold newJobOptionsFinish
  simp only []
  cases options.ExecutorSpec.Slaves with
  | none => rfl
  | some slaves =>
    simp only []
    cases lib.MarshalSlavesConfigs initImage slaves <;> rfl

theorem newJobOptionsRequestTemplate_choice (lib : Library) (templatesClient : TemplatesClient)
    (hist : History) (initImage serviceAccountName registry clusterID : String)
    (execution : ExecutionRecord) (options : ExecuteOptions) (jobOptions : JobOptions) (ev : List Effect) :
    ((newJobOptionsRequestTemplate lib templatesClient hist initImage serviceAccountName registry
        clusterID execution options jobOptions ev).err = none →
      ∃ requestTemplate : Option Template,
        (requestTemplate = none ↔ options.Request.JobTemplateReference = "") ∧
        (newJobOptionsRequestTemplate lib templatesClient hist initImage serviceAccountName registry
          clusterID execution options jobOptions ev).events
          = ev ++ templateLookup options.Request.JobTemplateReference requestTemplate ∧
        (newJobOptionsRequestTemplate lib templatesClient hist initImage serviceAccountName registry
          clusterID execution options jobOptions ev).jobOptions.JobTemplate
          = (jobTemplateBody requestTemplate).getD jobOptions.JobTemplate) ∧
    (∀ name e, Effect.templatesGet name (Except.error e) ∈
        (newJobOptionsRequestTemplate lib templatesClient hist initImage serviceAccountName registry
          clusterID execution options jobOptions ev).events →
      Effect.templatesGet name (Except.error e) ∈ ev ∨
      (newJobOptionsRequestTemplate lib templatesClient hist initImage serviceAccountName registry
        clusterID execution options jobOptions ev).err = some e) := by
  unfold newJobOptionsRequestTemplate
  by_cases href : options.Request.JobTemplateReference = ""
  · simp only [href, bne_self_eq_false, Bool.false_eq_true, if_false]
    refine ⟨fun _ => ⟨none, by simp, ?_, ?_⟩, ?_⟩
    · rw [newJobOptionsFinish_events]
      simp [templateLookup]
    · rw [newJobOptionsFinish_JobTemplate]
      rfl
    · intro name e hmem
      rw [newJobOptionsFinish_events] at hmem
      exact Or.inl hmem
  · have hne : (options.Request.JobTemplateReference != "") = true := by simpa using href
    simp only [hne, if_true]
    generalize templatesClient.Get _ _ = got
    cases got with
    | error e0 =>
      refine ⟨fun h => by simp at h, ?_⟩
      intro name e hmem
      rcases List.mem_append.1 hmem with hmem | hmem
      · exact Or.inl hmem
      · right
        simp only [List.mem_singleton, Effect.templatesGet.injEq] at hmem
        have := hmem.2
        simp only [Except.error.injEq] at this
        rw [this]
    | ok template =>
      simp only []
      refine ⟨fun _ => ⟨some template, by simp [href], ?_, ?_⟩, ?_⟩
      · rw [newJobOptionsFinish_events]
        simp [templateLookup]
      · rw [newJobOptionsFinish_JobTemplate]
        by_cases ht : template.Type_ = some TemplateType.job <;> simp [jobTemplateBody, ht]
      · intro name e hmem
        rw [newJobOptionsFinish_events] at hmem
        rcases List.mem_append.1 hmem with hmem | hmem
        · exact Or.inl hmem
        · simp at hmem

/-- C23: when `NewJobOptions` succeeds, its effects are the successful lookups of the template
referenced by the executor spec and of the template referenced by the request (each made exactly
when the reference is not empty, in that order), and the job template of the built options is the
one of the fixed priority: the body of the request's template if it is of job type, otherwise the
body of the executor spec's template if it is of job type, otherwise the inline template of the
executor spec if it is not empty, otherwise the executor-wide default.  A referenced template of
another or of no type counts like an empty reference in that choice, and a template lookup that
fails makes `NewJobOptions` return the error of that lookup. -/
theorem NewJobOptions_template_priority (lib : Library) (templatesClient : TemplatesClient)
    (hist : History) (initImage jobTemplate serviceAccountName registry clusterID : String)
    (execution : ExecutionRecord) (options : ExecuteOptions) :
    ((NewJobOptions lib templatesClient hist initImage jobTemplate serviceAccountName registry
        clusterID execution options).err = none →
      ∃ executorTemplate requestTemplate : Option Template,
        (executorTemplate = none ↔ options.ExecutorSpec.JobTemplateReference = "") ∧
        (requestTemplate = none ↔ options.Request.JobTemplateReference = "") ∧
        (NewJobOptions lib templatesClient hist initImage jobTemplate serviceAccountName registry
          clusterID execution options).events
          = templateLookup options.ExecutorSpec.JobTemplateReference executorTemplate ++
            templateLookup options.Request.JobTemplateReference requestTemplate ∧
        (NewJobOptions lib templatesClient hist initImage jobTemplate serviceAccountName registry
          clusterID execution options).jobOptions.JobTemplate
          = jobTemplateByPriority requestTemplate executorTemplate options.ExecutorSpec.JobTemplate
              jobTemplate) ∧
    (∀ name e, Effect.templatesGet name (Except.error e) ∈
        (NewJobOptions lib templatesClient hist initImage jobTemplate serviceAccountName registry
          clusterID execution options).events →
      (NewJobOptions lib templatesClient hist initImage jobTemplate serviceAccountName registry
        clusterID execution options).err = some e) ∧
    (∀ (template : Template) (other : Option Template) (inlineTemplate defaultTemplate : String),
      template.Type_ ≠ some TemplateType.job →
      jobTemplateByPriority (some template) other inlineTemplate defaultTemplate
        = jobTemplateByPriority none other inlineTemplate defaultTemplate ∧
      jobTemplateByPriority other (some template) inlineTemplate defaultTemplate
        = jobTemplateByPriority other none inlineTemplate defaultTemplate) := by
  have hbase : ∀ (jsn : String) (body : Option String),
      body.getD (if (({ NewJobOptionsFromExecutionOptions lib options with
          Name := execution.Id
          Namespace := execution.TestNamespace
          Jsn := jsn
          InitImage := initImage
          TestName := execution.TestName } : JobOptions).JobTemplate == "") = true then
            ({ NewJobOptionsFromExecutionOptions lib options with
              Name := execution.Id
              Namespace := execution.TestNamespace
              Jsn := jsn
              InitImage := initImage
              TestName := execution.TestName
              JobTemplate := jobTemplate } : JobOptions)
          else
            ({ NewJobOptionsFromExecutionOptions lib options with
              Name := execution.Id
              Namespace := execution.TestNamespace
              Jsn := jsn
              InitImage := initImage
              TestName := execution.TestName } : JobOptions)).JobTemplate
        = body.getD (if options.ExecutorSpec.JobTemplate != "" then options.ExecutorSpec.JobTemplate
            else jobTemplate) := by
    intro jsn body
    by_cases hinline : options.ExecutorSpec.JobTemplate = "" <;>
      simp [NewJobOptionsFromExecutionOptions, hinline]
  rw [← and_assoc]
  refine ⟨?_, ?_⟩
  · unfold NewJobOptions
    cases lib.MarshalExecution execution with
    | error e0 => exact ⟨fun h => by simp at h, fun name e hmem => by simp at hmem⟩
    | ok jsn =>
      simp only []
      by_cases hexec : options.ExecutorSpec.JobTemplateReference = ""
      · simp only [hexec, bne_self_eq_false, Bool.false_eq_true, if_false]
        refine ⟨fun herr => ?_, fun name e hmem => ?_⟩
        · obtain ⟨requestTemplate, hreq, hev, htpl⟩ :=
            (newJobOptionsRequestTemplate_choice _ _ _ _ _ _ _ _ _ _ _).1 herr
          refine ⟨none, requestTemplate, by simp, hreq, ?_, ?_⟩
          · rw [hev]
            rfl
          · rw [htpl, hbase]
            unfold jobTemplateByPriority
            cases jobTemplateBody requestTemplate <;> rfl
        · rcases (newJobOptionsRequestTemplate_choice _ _ _ _ _ _ _ _ _ _ _).2 name e hmem with h | h
          · simp at h
          · exact h
      · have hne : (options.ExecutorSpec.JobTemplateReference != "") = true := by simpa using hexec
        simp only [hne, if_true]
        generalize templatesClient.Get hist options.ExecutorSpec.JobTemplateReference = got
        cases got with
        | error e0 =>
          refine ⟨fun h => by simp at h, fun name e hmem => ?_⟩
          simp only [List.mem_singleton, Effect.templatesGet.injEq] at hmem
          have := hmem.2
          simp only [Except.error.injEq] at this
          rw [this]
        | ok template =>
          simp only []
          refine ⟨fun herr => ?_, fun name e hmem => ?_⟩
          · obtain ⟨requestTemplate, hreq, hev, htpl⟩ :=
              (newJobOptionsRequestTemplate_choice _ _ _ _ _ _ _ _ _ _ _).1 herr
            refine ⟨some template, requestTemplate, by simp [hexec], hreq, ?_, ?_⟩
            · rw [hev]
              rfl
            · rw [htpl]
              unfold jobTemplateByPriority
              cases jobTemplateBody requestTemplate with
              | some body => rfl
              | none =>
                by_cases ht : template.Type_ = some TemplateType.job
                · simp [jobTemplateBody, ht]
                · simp only [jobTemplateBody, ht, if_false, Option.getD_none]
                  exact hbase jsn none
          · rcases (newJobOptionsRequestTemplate_choice _ _ _ _ _ _ _ _ _ _ _).2 name e hmem with h | h
            · simp at h
            · exact h
  · intro template other inlineTemplate defaultTemplate ht
    simp [jobTemplateByPriority, jobTemplateBody, ht]

/-- Witness for `NewJobOptions_template_priority`: the executor spec references a job template and
the request references a webhook template, so the body of the executor's template is chosen over
the inline template and the default. -/
theorem NewJobOptions_template_priority_witness :
    (NewJobOptions fixtureLibrary twoTemplatesClient [] "init" "default" "sa" "" "cluster"
      (savedRecord ExecutionStatus.running) (referencingOptions "job-tpl" "hook-tpl")).err = none ∧
    (NewJobOptions fixtureLibrary twoTemplatesClient [] "init" "default" "sa" "" "cluster"
      (savedRecord ExecutionStatus.running)
      (referencingOptions "job-tpl" "hook-tpl")).jobOptions.JobTemplate = "job body" ∧
    (NewJobOptions fixtureLibrary twoTemplatesClient [] "init" "default" "sa" "" "cluster"
      (savedRecord ExecutionStatus.running) (referencingOptions "job-tpl" "missing")).err
      = some "template not found" ∧
    ∃ executorTemplate requestTemplate : Option Template,
      (executorTemplate = none ↔ (referencingOptions "job-tpl" "hook-tpl").ExecutorSpec.JobTemplateReference
        = "") ∧
      (requestTemplate = none ↔ (referencingOptions "job-tpl" "hook-tpl").Request.JobTemplateReference
        = "") ∧
      (NewJobOptions fixtureLibrary twoTemplatesClient [] "init" "default" "sa" "" "cluster"
        (savedRecord ExecutionStatus.running) (referencingOptions "job-tpl" "hook-tpl")).events
        = templateLookup (referencingOptions "job-tpl" "hook-tpl").ExecutorSpec.JobTemplateReference
            executorTemplate ++
          templateLookup (referencingOptions "job-tpl" "hook-tpl").Request.JobTemplateReference
            requestTemplate ∧
      (NewJobOptions fixtureLibrary twoTemplatesClient [] "init" "default" "sa" "" "cluster"
        (savedRecord ExecutionStatus.running)
        (referencingOptions "job-tpl" "hook-tpl")).jobOptions.JobTemplate
        = jobTemplateByPriority requestTemplate executorTemplate
            (referencingOptions "job-tpl" "hook-tpl").ExecutorSpec.JobTemplate "default" :=
  ⟨by decide, by decide, by decide,
    (NewJobOptions_template_priority fixtureLibrary twoTemplatesClient [] "init" "default" "sa" ""
      "cluster" (savedRecord ExecutionStatus.running) (referencingOptions "job-tpl" "hook-tpl")).1
      (by decide)⟩

/-! ### The `<envVars>` expansion of the JMeter runner -/

theorem goCopyAt_fit (a b c src : List String) (hb : b.length = src.length) :
    goCopyAt (a ++ b ++ c) a.length src = some (a ++ src ++ c) := by
  unfold goCopyAt
  have hle : a.length ≤ (a ++ b ++ c).length := by
    rw [List.length_append, List.length_append]
    omega
  rw [if_pos hle]
  have htake : (a ++ b ++ c).take a.length = a := by
    rw [List.append_assoc, List.take_left]
  have hsrc : src.take ((a ++ b ++ c).length - a.length) = src := by
    apply List.take_of_length_le
    simp
    omega
  have hdrop : (a ++ b ++ c).drop (a.length + min src.length ((a ++ b ++ c).length - a.length)) = c := by
    have hmin : a.length + min src.length ((a ++ b ++ c).length - a.length) = (a ++ b).length := by
      simp
      omega
    rw [hmin, List.drop_left]
  rw [htake, hsrc, hdrop]

theorem spliceEnvVars_eq (args params : List String) (i : Nat) (hi : i < args.length) :
    spliceEnvVars args params i = some (args.take i ++ params ++ args.drop (i + 1)) := by
  unfold spliceEnvVars
  have hlen : args.length + params.length - 1 = i + (params.length + (args.length - (i + 1))) := by omega
  have htake : (args.take i).length = i := by
    rw [List.length_take]
    omega
  have h1 := goCopyAt_fit [] (List.replicate i "")
    (List.replicate (params.length + (args.length - (i + 1))) "") (args.take i) (by simp; omega)
  have h2 := goCopyAt_fit (args.take i) (List.replicate params.length "")
    (List.replicate (args.length - (i + 1)) "") params (by simp)
  have h3 := goCopyAt_fit (args.take i ++ params) (List.replicate (args.length - (i + 1)) "") []
    (args.drop (i + 1)) (by simp)
  simp only [List.nil_append, List.length_nil, List.append_nil, List.length_append, htake] at h1 h2 h3
  simp only [hlen, List.replicate_add, ← List.append_assoc]
  rw [List.append_assoc (List.replicate i ""), ← List.replicate_add, h1]
  simp only [Option.some_bind, List.replicate_add, ← List.append_assoc]
  rw [h2]
  simp only [Option.some_bind]
  exact h3

theorem expandEnvVarsFrom_skip (args params : List String) (fuel : Nat) :
    ∀ (k i : Nat), (∀ j, i ≤ j → j < i + k → args[j]? ≠ some "<envVars>") →
      expandEnvVarsFrom args params i (k + fuel) = expandEnvVarsFrom args params (i + k) fuel := by
  intro k
  induction k with
  | zero => intro i _; simp
  | succ k ih =>
    intro i hskip
    have hi : args[i]? ≠ some "<envVars>" := hskip i (Nat.le_refl i) (by omega)
    have hfuel : k + 1 + fuel = (k + fuel) + 1 := by omega
    rw [hfuel, expandEnvVarsFrom, if_neg hi, ih (i + 1) (fun j h1 h2 => hskip j (by omega) (by omega))]
    congr 1
    omega

/-- C22: the `<envVars>` expansion is an exact splice.  When `i` is the first index at which
`args` holds the placeholder, the expansion returns (without a slice panic) the arguments before
`i`, then `params`, then the arguments after `i` as they are, later placeholders included, a list
of length `len(args) + len(params) - 1`; when the placeholder does not occur, the expansion
returns `args` unchanged. -/
theorem expandEnvVars_splice (args params : List String) :
    (∀ i, args[i]? = some "<envVars>" → (∀ j, j < i → args[j]? ≠ some "<envVars>") →
      expandEnvVars args params = some (args.take i ++ params ++ args.drop (i + 1)) ∧
      (args.take i ++ params ++ args.drop (i + 1)).length = args.length + params.length - 1) ∧
    ("<envVars>" ∉ args → expandEnvVars args params = some args) := by
  refine ⟨fun i hi hfirst => ?_, fun hnone => ?_⟩
  · have hlt : i < args.length := by
      rcases Nat.lt_or_ge i args.length with h | h
      · exact h
      · rw [List.getElem?_eq_none h] at hi
        exact absurd hi (by simp)
    refine ⟨?_, ?_⟩
    · unfold expandEnvVars
      have hfuel : args.length = i + ((args.length - (i + 1)) + 1) := by omega
      rw [hfuel, expandEnvVarsFrom_skip args params _ i 0 (fun j _ h2 => hfirst j (by omega))]
      rw [Nat.zero_add, expandEnvVarsFrom, if_pos hi]
      exact spliceEnvVars_eq args params i hlt
    · simp only [List.length_append, List.length_take, List.length_drop]
      omega
  · unfold expandEnvVars
    have h := expandEnvVarsFrom_skip args params 0 args.length 0 (fun j _ _ hj =>
      hnone (List.getElem?_mem hj))
    rw [Nat.add_zero] at h
    rw [h]
    rfl

/-- Witness for `expandEnvVars_splice`: the placeholder at index 1, and once more at the end. -/
theorem expandEnvVars_splice_witness :
    expandEnvVars ["-n", "<envVars>", "-l", "<envVars>"] ["-Gusers=5", "-Gramp=1"]
      = some ["-n", "-Gusers=5", "-Gramp=1", "-l", "<envVars>"] ∧
    (["-n", "-Gusers=5", "-Gramp=1", "-l", "<envVars>"] : List String).length = 4 + 2 - 1 :=
  (expandEnvVars_splice ["-n", "<envVars>", "-l", "<envVars>"] ["-Gusers=5", "-Gramp=1"]).1 1
    (by decide) (by decide)

/-! ### Scraping after a failed step of the JMeter runner -/

/-- C21, on the code: with scraping enabled and a scraper configured, a run whose JMeter command
fails returns at line 212, a run whose report cannot be opened returns at line 219 and a run whose
report cannot be parsed returns at line 234, each with a failed result and a nil error after the
output directory was made and with no call of `Scraper.Scrape`; the run whose steps all succeed
does scrape the output directory. -/
theorem Run_failed_step_returns_before_scrape :
    (scrapingRunner (fixtureRunnerSystem (Except.error "exit status 1") none (Except.ok "rows")
      (Except.ok "samples"))).Params.ScrapperEnabled = true ∧
    (RunEffect.mkdir "/data/output" none ∈
        ((scrapingRunner (fixtureRunnerSystem (Except.error "exit status 1") none (Except.ok "rows")
          (Except.ok "samples"))).Run [] jmeterExecution).events ∧
      ((scrapingRunner (fixtureRunnerSystem (Except.error "exit status 1") none (Except.ok "rows")
        (Except.ok "samples"))).Run [] jmeterExecution).events.any RunEffect.isScrape = false ∧
      ((scrapingRunner (fixtureRunnerSystem (Except.error "exit status 1") none (Except.ok "rows")
        (Except.ok "samples"))).Run [] jmeterExecution).returned
        = some ({ Status := some ExecutionStatus.failed,
                  ErrorMessage := "jmeter run error: exit status 1" }, none)) ∧
    (((scrapingRunner (fixtureRunnerSystem (Except.ok "out") (some "no such file") (Except.ok "rows")
        (Except.ok "samples"))).Run [] jmeterExecution).events.any RunEffect.isScrape = false ∧
      ((scrapingRunner (fixtureRunnerSystem (Except.ok "out") (some "no such file") (Except.ok "rows")
        (Except.ok "samples"))).Run [] jmeterExecution).returned
        = some ({ Status := some ExecutionStatus.failed,
                  ErrorMessage := "getting jtl report error: no such file" }, none)) ∧
    (((scrapingRunner (fixtureRunnerSystem (Except.ok "out") none (Except.error "not a csv")
        (Except.error "not an xml"))).Run [] jmeterExecution).events.any RunEffect.isScrape = false ∧
      ((scrapingRunner (fixtureRunnerSystem (Except.ok "out") none (Except.error "not a csv")
        (Except.error "not an xml"))).Run [] jmeterExecution).returned
        = some ({ Status := some ExecutionStatus.failed,
                  ErrorMessage := "parsing jtl report error: not an xml" }, none)) ∧
    (RunEffect.scrape ["/data/output"] none ∈
        ((scrapingRunner (fixtureRunnerSystem (Except.ok "out") none (Except.ok "rows")
          (Except.ok "samples"))).Run [] jmeterExecution).events ∧
      ((scrapingRunner (fixtureRunnerSystem (Except.ok "out") none (Except.ok "rows")
        (Except.ok "samples"))).Run [] jmeterExecution).returned
        = some ({ Status := some ExecutionStatus.passed, Output := "out" }, none)) := by
  decide

end Testkube
